import Mathlib

/-!
# Display plane assignment (`DisplayPlaneManager`)

A shallow embedding of `common/display/displayplanemanager.cpp` and theorems about it.

Pointers become values or identifiers:

* a `DisplayPlane *` is the plane descriptor itself (its `id` is the address); the
  per-frame `in_use` flag of a plane lives in `DisplayPlaneManager.planesInUse`;
* an `OverlayLayer *` is a `LayerRef`: a position in `layers`, a position in
  `cursor_layers`, or the internal layer of a `NativeSurface`;
* a `NativeSurface *` is the `id` of an entry of one of the two surface pools.

The external collaborators (`DisplayPlane::ValidateLayer`, frame-buffer creation and
`DisplayPlaneHandler::TestCommit`) are the functions of an `Env`; they are given the
layers as they are at the time of the call.
-/

namespace hwcomposer

/-! ## Data model -/

/-- Rectangle (`HwcRect`); only copied and compared here, never measured. -/
structure HwcRect where
  left : Int
  top : Int
  right : Int
  bottom : Int
deriving DecidableEq, Repr

/-- Input layer (`OverlayLayer`), with the attributes the manager reads and the two
feedback flags it writes (`gpu_rendered`, `use_plane_scalar`). The four extents are the
`uint32_t` results of `GetDisplayFrameWidth` and its siblings. -/
structure OverlayLayer where
  zorder : Nat
  displayFrame : HwcRect
  sourceCrop : HwcRect
  displayFrameWidth : Nat
  displayFrameHeight : Nat
  sourceCropWidth : Nat
  sourceCropHeight : Nat
  format : Nat
  identityTransform : Bool
  isVideo : Bool
  isCursor : Bool
  preferSeparatePlane : Bool
  gpuRendered : Bool
  usePlaneScalar : Bool
deriving DecidableEq, Repr

/-- Hardware plane handle (`DisplayPlane`) with its fixed attributes. -/
structure DisplayPlane where
  id : Nat
  isUniversal : Bool
  preferredFormat : Nat
  preferredVideoFormat : Nat
  supportedFormats : List Nat
deriving DecidableEq, Repr

/-- What an `OverlayLayer *` points at. -/
inductive LayerRef where
  | layer (index : Nat)
  | cursor (index : Nat)
  | surface (id : Nat)
deriving DecidableEq, Repr

/-- One proposed binding of the commit list (`OverlayPlane`). -/
structure OverlayPlane where
  plane : DisplayPlane
  layer : LayerRef
deriving DecidableEq, Repr

/-- Off-screen target (`NativeSurface`): pool identity, `in_use`, the kind of buffer it
was created as, its size and its own internal layer. -/
structure NativeSurface where
  id : Nat
  inUse : Bool
  video : Bool
  cursor : Bool
  width : Nat
  height : Nat
  layer : OverlayLayer
deriving DecidableEq, Repr

/-- Per-plane assignment (`DisplayPlaneState`): plane, the layer it was created for,
source layers (z-orders), history of off-screen targets (newest first), the flags
`force_gpu` (state `kRender`), `video_plane`, `uses_plane_scalar`, and the cached
rectangles. -/
structure DisplayPlaneState where
  plane : DisplayPlane
  rawLayer : LayerRef
  sourceLayers : List Nat
  surfaces : List Nat
  forceGpu : Bool
  videoPlane : Bool
  usesPlaneScalar : Bool
  sourceCrop : HwcRect
  displayFrame : HwcRect
  compositionRegions : List Nat
deriving DecidableEq, Repr

/-- The members of `DisplayPlaneManager`. `planesInUse` holds the ids of the planes whose
`in_use` flag is set; `nextSurfaceId` is the address the next allocated surface gets. -/
structure DisplayPlaneManager where
  overlayPlanes : List DisplayPlane
  cursorPlane : Option DisplayPlane
  primaryPlane : Option DisplayPlane
  planesInUse : List Nat
  surfaces : List NativeSurface
  cursorSurfaces : List NativeSurface
  width : Nat
  height : Nat
  nextSurfaceId : Nat
deriving DecidableEq, Repr

/-- Everything a validation call can write through a pointer: the manager, the caller's
layers and the caller's cursor layers. -/
structure Store where
  mgr : DisplayPlaneManager
  layers : List OverlayLayer
  cursorLayers : List OverlayLayer
deriving DecidableEq, Repr

/-- External collaborators and the build option. `validateLayer` is
`DisplayPlane::ValidateLayer`; `frameBuffer` says whether the layer's buffer has, or can
create, a frame-buffer handle; `testCommit` is `DisplayPlaneHandler::TestCommit`. A layer is
shown to them as it is when they are called (`none` for a pointer to nothing). -/
structure Env where
  disableCursorPlane : Bool
  validateLayer : DisplayPlane → Option OverlayLayer → Bool
  frameBuffer : Option OverlayLayer → Bool
  testCommit : List (DisplayPlane × Option OverlayLayer) → Bool

/-! ## Small list helpers -/

/-- Apply `f` to the last element (`v.back()`), if there is one. -/
def modifyLast {α : Type} (f : α → α) : List α → List α
  | [] => []
  | [a] => [f a]
  | a :: b :: l => a :: modifyLast f (b :: l)

/-- Apply `f` to the element at position `i`, if there is one. -/
def modifyAt {α : Type} (f : α → α) : Nat → List α → List α
  | _, [] => []
  | 0, a :: l => f a :: l
  | i + 1, a :: l => a :: modifyAt f i l

/-! ## `OverlayLayer`, `NativeSurface` and `DisplayPlaneState` operations -/

/-- `OverlayLayer::GPURendered`. -/
def OverlayLayer.GPURendered (l : OverlayLayer) : OverlayLayer :=
  { l with gpuRendered := true }

/-- `OverlayLayer::UsePlaneScalar`. -/
def OverlayLayer.UsePlaneScalar (l : OverlayLayer) (b : Bool) : OverlayLayer :=
  { l with usePlaneScalar := b }

/-- `DisplayPlane::IsSupportedFormat`. -/
def DisplayPlane.IsSupportedFormat (p : DisplayPlane) (format : Nat) : Bool :=
  p.supportedFormats.contains format

/-- Modelled from the spec: the `DisplayPlaneState(plane, layer, index)` constructor, which
is declared outside the given sources. A new plane state has one source layer, no off-screen
target, all flags clear, and caches the layer's rectangles. -/
def DisplayPlaneState.create (plane : DisplayPlane) (ref : LayerRef) (l : OverlayLayer)
    (index : Nat) : DisplayPlaneState :=
  { plane := plane, rawLayer := ref, sourceLayers := [index], surfaces := [],
    forceGpu := false, videoPlane := false, usesPlaneScalar := false,
    sourceCrop := l.sourceCrop, displayFrame := l.displayFrame, compositionRegions := [] }

/-- Modelled from the spec: `DisplayPlaneState::AddLayer`, declared outside the given
sources. Folding a layer appends its z-order and makes the plane off-screen composed; the
spec gives no rule for the cached rectangles, which stay as they are. -/
def DisplayPlaneState.AddLayer (ps : DisplayPlaneState) (l : OverlayLayer) :
    DisplayPlaneState :=
  { ps with sourceLayers := ps.sourceLayers ++ [l.zorder], forceGpu := true }

/-- Modelled from the spec: `DisplayPlaneState::ForceGPURendering`. -/
def DisplayPlaneState.ForceGPURendering (ps : DisplayPlaneState) : DisplayPlaneState :=
  { ps with forceGpu := true }

/-- Modelled from the spec: `DisplayPlaneState::NeedsOffScreenComposition`. -/
def DisplayPlaneState.NeedsOffScreenComposition (ps : DisplayPlaneState) : Bool :=
  ps.forceGpu

/-- Modelled from the spec: `DisplayPlaneState::SetVideoPlane`. -/
def DisplayPlaneState.SetVideoPlane (ps : DisplayPlaneState) : DisplayPlaneState :=
  { ps with videoPlane := true }

/-- Modelled from the spec: `DisplayPlaneState::UsePlaneScalar`. -/
def DisplayPlaneState.UsePlaneScalar (ps : DisplayPlaneState) (b : Bool) :
    DisplayPlaneState :=
  { ps with usesPlaneScalar := b }

/-- Modelled from the spec: `DisplayPlaneState::SetSourceCrop`. -/
def DisplayPlaneState.SetSourceCrop (ps : DisplayPlaneState) (crop : HwcRect) :
    DisplayPlaneState :=
  { ps with sourceCrop := crop }

/-- Modelled from the spec: `DisplayPlaneState::ResetSourceRectToDisplayFrame`. -/
def DisplayPlaneState.ResetSourceRectToDisplayFrame (ps : DisplayPlaneState) :
    DisplayPlaneState :=
  { ps with sourceCrop := ps.displayFrame }

/-- Modelled from the spec: `DisplayPlaneState::GetOffScreenTarget`, the newest surface of
the history, if any. -/
def DisplayPlaneState.GetOffScreenTarget (ps : DisplayPlaneState) : Option Nat :=
  ps.surfaces.head?

/-- Modelled from the spec: `DisplayPlaneState::SetOffScreenTarget`. -/
def DisplayPlaneState.SetOffScreenTarget (ps : DisplayPlaneState) (surface : Nat) :
    DisplayPlaneState :=
  { ps with surfaces := surface :: ps.surfaces }

/-- Modelled from the spec: `DisplayPlaneState::GetOverlayLayer`. The plane scans out its
off-screen target when it has one, and the raw layer otherwise. -/
def DisplayPlaneState.GetOverlayLayer (ps : DisplayPlaneState) : LayerRef :=
  match ps.surfaces with
  | [] => ps.rawLayer
  | s :: _ => LayerRef.surface s

/-- The binding a plane state contributes to a commit list:
`OverlayPlane(plane.plane(), plane.GetOverlayLayer())`. -/
def DisplayPlaneState.binding (ps : DisplayPlaneState) : OverlayPlane :=
  { plane := ps.plane, layer := ps.GetOverlayLayer }

/-- Modelled from the spec: `NativeSurface::ResetSourceCrop`. -/
def NativeSurface.ResetSourceCrop (s : NativeSurface) (crop : HwcRect) : NativeSurface :=
  { s with layer := { s.layer with sourceCrop := crop } }

/-- Modelled from the spec: `NativeSurface::ResetDisplayFrame`. -/
def NativeSurface.ResetDisplayFrame (s : NativeSurface) (frame : HwcRect) : NativeSurface :=
  { s with layer := { s.layer with displayFrame := frame } }

/-- Modelled from the spec: a surface from `Create3DBuffer` or `CreateVideoBuffer` followed
by `Init(resource_manager, format, cursor)`: free, of the given size and format. -/
def NativeSurface.create (id : Nat) (video cursor : Bool) (width height format : Nat) :
    NativeSurface :=
  { id := id, inUse := false, video := video, cursor := cursor, width := width,
    height := height,
    layer :=
      { zorder := 0, displayFrame := ⟨0, 0, 0, 0⟩, sourceCrop := ⟨0, 0, 0, 0⟩,
        displayFrameWidth := width, displayFrameHeight := height,
        sourceCropWidth := width, sourceCropHeight := height, format := format,
        identityTransform := true, isVideo := video, isCursor := cursor,
        preferSeparatePlane := false, gpuRendered := false, usePlaneScalar := false } }

/-! ## Writing through pointers -/

/-- Update the surface with address `id` in both pools. -/
def Store.updateSurface (s : Store) (id : Nat) (f : NativeSurface → NativeSurface) : Store :=
  { s with mgr :=
      { s.mgr with
        surfaces := s.mgr.surfaces.map (fun fb => if fb.id = id then f fb else fb),
        cursorSurfaces :=
          s.mgr.cursorSurfaces.map (fun fb => if fb.id = id then f fb else fb) } }

/-- Update every surface of a history (`for i < size: surfaces.at(i)->...`). -/
def Store.updateSurfaces (s : Store) (ids : List Nat) (f : NativeSurface → NativeSurface) :
    Store :=
  ids.foldl (fun acc id => acc.updateSurface id f) s

/-- Write through an `OverlayLayer *`. -/
def Store.updateLayer (s : Store) (ref : LayerRef) (f : OverlayLayer → OverlayLayer) :
    Store :=
  match ref with
  | LayerRef.layer k => { s with layers := modifyAt f k s.layers }
  | LayerRef.cursor k => { s with cursorLayers := modifyAt f k s.cursorLayers }
  | LayerRef.surface id => s.updateSurface id (fun fb => { fb with layer := f fb.layer })

/-- Read through an `OverlayLayer *`. -/
def Store.deref (s : Store) (ref : LayerRef) : Option OverlayLayer :=
  match ref with
  | LayerRef.layer k => s.layers[k]?
  | LayerRef.cursor k => s.cursorLayers[k]?
  | LayerRef.surface id =>
      ((s.mgr.surfaces ++ s.mgr.cursorSurfaces).find? (fun fb => fb.id == id)).map
        (fun fb => fb.layer)

/-- The commit list as the plane handler sees it. -/
def Store.view (s : Store) (commit_planes : List OverlayPlane) :
    List (DisplayPlane × Option OverlayLayer) :=
  commit_planes.map (fun p => (p.plane, s.deref p.layer))

/-- `DisplayPlane::SetInUse(true)`. -/
def Store.setInUse (s : Store) (p : DisplayPlane) : Store :=
  { s with mgr := { s.mgr with planesInUse := p.id :: s.mgr.planesInUse } }

/-- `DisplayPlane::InUse`. -/
def Store.InUse (s : Store) (p : DisplayPlane) : Bool :=
  s.mgr.planesInUse.contains p.id

/-- Modelled from the spec: `NativeSurface::SetPlaneTarget`; a surface that is the off-screen
target of a plane state is in use. -/
def NativeSurface.SetPlaneTarget (fb : NativeSurface) : NativeSurface :=
  { fb with inUse := true }

/-- `NativeSurface::SetInUse`. -/
def NativeSurface.SetInUse (fb : NativeSurface) (b : Bool) : NativeSurface :=
  { fb with inUse := b }

/-! ## `DisplayPlaneManager` -/

/-- `DisplayPlaneManager::Initialize` (lines 40-62). `planes` and `status` are what
`PopulatePlanes` delivers. -/
def Initialize (env : Env) (m : DisplayPlaneManager) (width height : Nat)
    (planes : List DisplayPlane) (status : Bool) : DisplayPlaneManager × Bool :=
  let m1 := { m with width := width, height := height, overlayPlanes := planes }
  match planes with
  | [] => (m1, status)
  | p0 :: _ =>
    let m2 :=
      if planes.length > 1 then
        match planes.getLast? with
        | none => m1
        | some back =>
          let needs_cursor_wa := env.disableCursorPlane && decide (planes.length > 3)
          if !needs_cursor_wa && back.isUniversal then { m1 with cursorPlane := none }
          else { m1 with cursorPlane := some back }
      else m1
    ({ m2 with primaryPlane := some p0 }, status)

/-- `DisplayPlaneManager::FallbacktoGPU` (lines 670-689). -/
def FallbacktoGPU (env : Env) (s : Store) (target_plane : DisplayPlane) (layer : LayerRef)
    (commit_planes : List OverlayPlane) : Bool :=
  if !env.validateLayer target_plane (s.deref layer) then true
  else if !env.frameBuffer (s.deref layer) then true
  else if !env.testCommit (s.view commit_planes) then true
  else false

/-- `DisplayPlaneManager::EnsureOffScreenTarget` (lines 591-626). -/
def EnsureOffScreenTarget (s : Store) (plane : DisplayPlaneState) :
    Store × DisplayPlaneState :=
  let video_separate := plane.videoPlane
  let preferred_format :=
    if video_separate then plane.plane.preferredVideoFormat else plane.plane.preferredFormat
  match s.mgr.surfaces.find? (fun fb => !fb.inUse && preferred_format == fb.layer.format) with
  | some fb =>
    (s.updateSurface fb.id NativeSurface.SetPlaneTarget, plane.SetOffScreenTarget fb.id)
  | none =>
    let new_surface := NativeSurface.create s.mgr.nextSurfaceId video_separate false
      s.mgr.width s.mgr.height preferred_format
    let s1 : Store :=
      { s with mgr :=
          { s.mgr with surfaces := s.mgr.surfaces ++ [new_surface],
                       nextSurfaceId := s.mgr.nextSurfaceId + 1 } }
    (s1.updateSurface new_surface.id NativeSurface.SetPlaneTarget,
      plane.SetOffScreenTarget new_surface.id)

/-- `DisplayPlaneManager::SetOffScreenPlaneTarget` (lines 532-538). -/
def SetOffScreenPlaneTarget (s : Store) (plane : DisplayPlaneState) :
    Store × DisplayPlaneState :=
  let r := EnsureOffScreenTarget s plane
  (r.1, r.2.ForceGPURendering)

/-- `DisplayPlaneManager::ResetPlaneTarget` (lines 526-530); `overlay_plane` is always
`commit_planes.back()`. -/
def ResetPlaneTarget (s : Store) (plane : DisplayPlaneState)
    (commit_planes : List OverlayPlane) :
    Store × DisplayPlaneState × List OverlayPlane :=
  let r := SetOffScreenPlaneTarget s plane
  (r.1, r.2, modifyLast (fun op => { op with layer := r.2.GetOverlayLayer }) commit_planes)

/-- `DisplayPlaneManager::SetOffScreenCursorPlaneTarget` (lines 540-564). -/
def SetOffScreenCursorPlaneTarget (s : Store) (plane : DisplayPlaneState)
    (width height : Nat) : Store × DisplayPlaneState :=
  let preferred_format := plane.plane.preferredFormat
  match s.mgr.cursorSurfaces.find?
      (fun fb => !fb.inUse && preferred_format == fb.layer.format) with
  | some fb =>
    (s.updateSurface fb.id NativeSurface.SetPlaneTarget,
      (plane.SetOffScreenTarget fb.id).ForceGPURendering)
  | none =>
    let new_surface := NativeSurface.create s.mgr.nextSurfaceId false true width height
      preferred_format
    let s1 : Store :=
      { s with mgr :=
          { s.mgr with cursorSurfaces := s.mgr.cursorSurfaces ++ [new_surface],
                       nextSurfaceId := s.mgr.nextSurfaceId + 1 } }
    (s1.updateSurface new_surface.id NativeSurface.SetPlaneTarget,
      (plane.SetOffScreenTarget new_surface.id).ForceGPURendering)

/-- `DisplayPlaneManager::ReleaseAllOffScreenTargets` (lines 566-570). -/
def ReleaseAllOffScreenTargets (m : DisplayPlaneManager) : DisplayPlaneManager :=
  { m with surfaces := [], cursorSurfaces := [] }

/-- `DisplayPlaneManager::ReleaseFreeOffScreenTargets` (lines 572-589). -/
def ReleaseFreeOffScreenTargets (m : DisplayPlaneManager) : DisplayPlaneManager :=
  { m with surfaces := m.surfaces.filter (fun fb => fb.inUse),
           cursorSurfaces := m.cursorSurfaces.filter (fun cursor_fb => cursor_fb.inUse) }

/-- The 32-bit product of `ValidateForDisplayScaling`'s cost model. -/
def scalingCost (delta extent : Nat) : Nat :=
  (delta * extent) % 2 ^ 32

/-- The early returns of `ValidateForDisplayScaling` between the layer-count test and the
scalar attempt (lines 441-493): `true` when the plane scalar is not to be tried. -/
def scalarRejected (plane : DisplayPlane) (current_layer : OverlayLayer)
    ( ignore_format : Bool) : Bool :=
  let display_frame_width := current_layer.displayFrameWidth
  let display_frame_height := current_layer.displayFrameHeight
  let source_crop_width := current_layer.sourceCropWidth
  let source_crop_height := current_layer.sourceCropHeight
  if display_frame_width == source_crop_width && display_frame_height == source_crop_height
  then true
  else if !ignore_format && current_layer.identityTransform &&
      plane.IsSupportedFormat current_layer.format then true
  else if decide (display_frame_width < source_crop_width) &&
      decide (display_frame_height < source_crop_height) then true
  else if decide (display_frame_width > source_crop_width) &&
      decide (display_frame_height < source_crop_height) &&
      decide (scalingCost (source_crop_height - display_frame_height) display_frame_width >
        scalingCost (display_frame_width - source_crop_width) display_frame_height) then true
  else if decide (display_frame_width < source_crop_width) &&
      decide (display_frame_height > source_crop_height) &&
      decide (scalingCost (source_crop_width - display_frame_width) display_frame_height >
        scalingCost (display_frame_height - source_crop_height) display_frame_width) then true
  else false

/-- The loops of lines 428-431, 502-505 and 516-519: every surface of the history gets the
source crop `crop`, and its layer the scalar flag `scalar`. -/
def resetSurfaceCrops (s : Store) (surfaces : List Nat) (crop : HwcRect) (scalar : Bool) :
    Store :=
  s.updateSurfaces surfaces (fun fb =>
    { fb.ResetSourceCrop crop with
      layer := (fb.ResetSourceCrop crop).layer.UsePlaneScalar scalar })

/-- Lines 423-432 of `ValidateForDisplayScaling`: a plane state that uses the plane scalar is
taken off it. -/
def clearPlaneScalar (s : Store) (last_plane : DisplayPlaneState) (current_layer : LayerRef) :
    Store × DisplayPlaneState :=
  if last_plane.usesPlaneScalar then
    let lp := (last_plane.UsePlaneScalar false).ResetSourceRectToDisplayFrame
    (resetSurfaceCrops (s.updateLayer current_layer (fun l => l.UsePlaneScalar false))
      last_plane.surfaces lp.sourceCrop false, lp)
  else (s, last_plane)

/-- `DisplayPlaneManager::ValidateForDisplayScaling` (lines 416-524). `current_layer` is the
pointer (used for the write-back of `use_plane_scalar`) and `cur` the layer read through it.
The result is `none` when the scalar attempt dereferences a missing off-screen target. -/
def ValidateForDisplayScaling (env : Env) (s : Store) (commit_planes : List OverlayPlane)
    (last_plane : DisplayPlaneState) (current_layer : LayerRef) (cur : OverlayLayer)
    ( ignore_format : Bool) : Option (Store × List OverlayPlane × DisplayPlaneState) :=
  let total_layers := last_plane.sourceLayers.length
  let surfaces := last_plane.surfaces
  let r := clearPlaneScalar s last_plane current_layer
  if total_layers > 1 then some (r.1, commit_planes, r.2)
  else if scalarRejected last_plane.plane cur ignore_format then some (r.1, commit_planes, r.2)
  else
    let crop := cur.sourceCrop
    let lp2 := r.2.SetSourceCrop crop
    let s2 := resetSurfaceCrops r.1 surfaces crop true
    let commit2 := modifyLast (fun op => { op with layer := lp2.GetOverlayLayer }) commit_planes
    match lp2.GetOffScreenTarget with
    | none => none
    | some target =>
      let fall_back := FallbacktoGPU env s2 lp2.plane (LayerRef.surface target) commit2
      if fall_back then
        let lp3 := lp2.ResetSourceRectToDisplayFrame
        some (resetSurfaceCrops s2 surfaces lp3.sourceCrop false, commit2, lp3)
      else
        some (s2.updateLayer current_layer (fun l => l.UsePlaneScalar true), commit2,
          lp2.UsePlaneScalar true)

/-- The test of `GetLastUsedOverlay` (line 297): the plane state sits on the cursor plane and
that plane is not universal. -/
def isCursorOnly (m : DisplayPlaneManager) (plane : DisplayPlaneState) : Bool :=
  match m.cursorPlane with
  | none => false
  | some cursor_plane => decide (cursor_plane.id = plane.plane.id) && !cursor_plane.isUniversal

/-- The downward scan of `GetLastUsedOverlay` over the reversed composition; `above` collects
the plane states that were skipped. -/
def lastUsedScan (m : DisplayPlaneManager) :
    List DisplayPlaneState → List DisplayPlaneState →
    Option (List DisplayPlaneState × DisplayPlaneState × List DisplayPlaneState)
  | [], _ => none
  | plane :: below, above =>
    if isCursorOnly m plane then lastUsedScan m below (plane :: above)
    else some (below.reverse, plane, above)

/-- `DisplayPlaneManager::GetLastUsedOverlay` (lines 289-305). The result is the composition
split around the plane state found: those below it, the plane state, those above it; `none`
is the null pointer. -/
def GetLastUsedOverlay (m : DisplayPlaneManager) (composition : List DisplayPlaneState) :
    Option (List DisplayPlaneState × DisplayPlaneState × List DisplayPlaneState) :=
  lastUsedScan m composition.reverse []

/-- `DisplayPlaneManager::PreparePlaneForCursor` (lines 307-328). `SwapSurfaceIfNeeded` is
declared outside the given sources and the spec gives it no effect. -/
def PreparePlaneForCursor (s : Store) (plane : DisplayPlaneState) (reset_buffer : Bool) :
    Store × DisplayPlaneState :=
  let s1 :=
    match plane.GetOffScreenTarget with
    | some surface => if reset_buffer then s.updateSurface surface (fun fb => fb.SetInUse false)
                      else s
    | none => s
  let r :=
    if plane.GetOffScreenTarget.isNone || reset_buffer then SetOffScreenPlaneTarget s1 plane
    else (s1, plane)
  let plane2 := { r.2 with compositionRegions := [] }
  let current_rect := plane2.displayFrame
  (r.1.updateSurfaces plane2.surfaces (fun fb => fb.ResetDisplayFrame current_rect), plane2)

/-- The locals of `ValidateCursorLayer`; the composition is `below ++ last_plane :: above`. -/
structure CursorPlan where
  store : Store
  below : List DisplayPlaneState
  last_plane : DisplayPlaneState
  above : List DisplayPlaneState
  commit_planes : List OverlayPlane
  is_video : Bool
  status : Bool

/-- The composition a `CursorPlan` stands for. -/
def CursorPlan.composition (p : CursorPlan) : List DisplayPlaneState :=
  p.below ++ p.last_plane :: p.above

/-- Lines 366-386 of `ValidateCursorLayer`: the cursor layer cannot be scanned out and is
folded into `last_plane`. -/
def foldCursorLayer (env : Env) (p : CursorPlan) (ref : LayerRef) (cursor_layer : OverlayLayer) :
    Option CursorPlan :=
  let s1 := p.store.updateLayer ref OverlayLayer.GPURendered
  let last1 := p.last_plane.AddLayer cursor_layer
  let reset_overlay := last1.GetOffScreenTarget.isNone || p.is_video
  let r := PreparePlaneForCursor s1 last1 p.is_video
  let commit2 :=
    if reset_overlay then (p.below ++ r.2 :: p.above).map DisplayPlaneState.binding
    else p.commit_planes
  match ValidateForDisplayScaling env r.1 commit2 r.2 ref cursor_layer false with
  | none => none
  | some (s3, commit3, last3) =>
    some { p with store := s3, last_plane := last3, commit_planes := commit3, status := true }

/-- Lines 388-391 of `ValidateCursorLayer`: the cursor layer gets `plane`; `commit_planes`
already holds the new binding. -/
def acceptCursorLayer (p : CursorPlan) (plane : DisplayPlane) (ref : LayerRef)
    (cursor_layer : OverlayLayer) (commit_planes : List OverlayPlane) : Option CursorPlan :=
  let created := DisplayPlaneState.create plane ref cursor_layer cursor_layer.zorder
  let s1 := p.store.setInUse plane
  match GetLastUsedOverlay s1.mgr (p.composition ++ [created]) with
  | none => none
  | some (below, last_plane, above) =>
    some { p with store := s1, below := below, last_plane := last_plane, above := above,
                  commit_planes := commit_planes, is_video := last_plane.videoPlane }

/-- The plane loop of `ValidateCursorLayer` (lines 349-395), over the planes from the topmost
downwards; `cursor_index` and the cursor layers from that index on are threaded through. -/
def cursorPlaneLoop (env : Env) :
    List DisplayPlane → Nat → List OverlayLayer → CursorPlan →
    Option (CursorPlan × Nat × List OverlayLayer)
  | [], cursor_index, cursors, p => some (p, cursor_index, cursors)
  | _ :: _, cursor_index, [], p => some (p, cursor_index, [])
  | plane :: planes, cursor_index, cursor_layer :: cursors, p =>
    if p.store.InUse plane then some (p, cursor_index, cursor_layer :: cursors)
    else if env.disableCursorPlane &&
        (match p.store.mgr.cursorPlane with
         | some cursor_plane => decide (cursor_plane.id = plane.id)
         | none => false) then
      cursorPlaneLoop env planes cursor_index (cursor_layer :: cursors) p
    else
      let ref := LayerRef.cursor cursor_index
      let commit1 := p.commit_planes ++ [{ plane := plane, layer := ref }]
      match (if FallbacktoGPU env p.store plane ref commit1 then
               foldCursorLayer env p ref cursor_layer
             else acceptCursorLayer p plane ref cursor_layer commit1) with
      | none => none
      | some p1 => cursorPlaneLoop env planes (cursor_index + 1) cursors p1

/-- The loop of lines 400-406: every cursor layer left over is folded into `last_plane` and
marked `gpu_rendered`. -/
def foldCursors : Nat → List OverlayLayer → Store → DisplayPlaneState →
    Store × DisplayPlaneState
  | _, [], s, last_plane => (s, last_plane)
  | i, cursor_layer :: cursors, s, last_plane =>
    foldCursors (i + 1) cursors (s.updateLayer (LayerRef.cursor i) OverlayLayer.GPURendered)
      (last_plane.AddLayer cursor_layer)

/-- `DisplayPlaneManager::ValidateCursorLayer` (lines 330-414): the status, the store and
the composition it leaves. `none` stands for a null `last_plane` or target dereference. -/
def ValidateCursorLayer (env : Env) (s : Store) (composition : List DisplayPlaneState) :
    Option (Bool × Store × List DisplayPlaneState) :=
  if s.cursorLayers.isEmpty then some (false, s, composition)
  else
    match GetLastUsedOverlay s.mgr composition with
    | none => none
    | some (below, last_plane, above) =>
      let p0 : CursorPlan :=
        { store := s, below := below, last_plane := last_plane, above := above,
          commit_planes := composition.map DisplayPlaneState.binding,
          is_video := last_plane.videoPlane, status := false }
      match cursorPlaneLoop env s.mgr.overlayPlanes.reverse 0 s.cursorLayers p0 with
      | none => none
      | some (p, cursor_index, cursors) =>
        let r := foldCursors cursor_index cursors p.store p.last_plane
        match cursors.getLast? with
        | none => some (p.status, r.1, p.below ++ r.2 :: p.above)
        | some last_layer =>
          let r2 := PreparePlaneForCursor r.1 r.2 p.is_video
          match ValidateForDisplayScaling env r2.1 p.commit_planes r2.2
              (LayerRef.cursor (cursor_index + cursors.length - 1)) last_layer false with
          | none => none
          | some (s3, _, last3) => some (true, s3, p.below ++ last3 :: p.above)

/-- The first loop of `ValidateFinalLayers` (lines 631-638): every plane state that needs
off-screen composition and has no target gets one. -/
def ensureTargets : List DisplayPlaneState → Store → Store × List DisplayPlaneState
  | [], s => (s, [])
  | plane :: planes, s =>
    let r :=
      if plane.NeedsOffScreenComposition && plane.GetOffScreenTarget.isNone then
        EnsureOffScreenTarget s plane
      else (s, plane)
    let rest := ensureTargets planes r.1
    (rest.1, r.2 :: rest.2)

/-- The loop of lines 644-648: the targets of a discarded composition are set free. -/
def releaseTargets : List DisplayPlaneState → Store → Store
  | [], s => s
  | plane :: planes, s =>
    match plane.GetOffScreenTarget with
    | some surface => releaseTargets planes (s.updateSurface surface (fun fb => fb.SetInUse false))
    | none => releaseTargets planes s

/-- The verdict of the `TestCommit` of `ValidateFinalLayers` (line 641) on a composition. -/
def finalTestCommit (env : Env) (s : Store) (composition : List DisplayPlaneState) : Bool :=
  let r := ensureTargets composition s
  env.testCommit (r.1.view (r.2.map DisplayPlaneState.binding))

/-- `DisplayPlaneManager::ValidateFinalLayers` (lines 628-668). `none` stands for a null
`primary_plane_` or an empty `layers` in the rebuild. -/
def ValidateFinalLayers (env : Env) (s : Store) (composition : List DisplayPlaneState) :
    Option (Store × List DisplayPlaneState) :=
  let r := ensureTargets composition s
  if !env.testCommit (r.1.view (r.2.map DisplayPlaneState.binding)) then
    let s1 := releaseTargets r.2 r.1
    match s1.mgr.primaryPlane, s1.layers with
    | none, _ => none
    | some _, [] => none
    | some current_plane, primary_layer :: rest =>
      let created := DisplayPlaneState.create current_plane (LayerRef.layer 0) primary_layer
        primary_layer.zorder
      let s2 := s1.setInUse current_plane
      let last_plane := rest.foldl DisplayPlaneState.AddLayer created.ForceGPURendering
      let r2 := EnsureOffScreenTarget s2 last_plane
      some ({ r2.1 with mgr := ReleaseFreeOffScreenTargets r2.1.mgr }, [r2.2])
  else some r

/-- The inner loop of lines 234-239: the source layers of one plane state are marked
`gpu_rendered` and get the plane state's scalar flag; `none` is `layers.at` out of range. -/
def markSourceLayers (useplanescalar : Bool) :
    List Nat → List OverlayLayer → Option (List OverlayLayer)
  | [], layers => some layers
  | source_index :: source_layers, layers =>
    match layers[source_index]? with
    | none => none
    | some _ =>
      markSourceLayers useplanescalar source_layers
        (modifyAt (fun layer => layer.GPURendered.UsePlaneScalar useplanescalar) source_index
          layers)

/-- The feedback loop of lines 229-241 (and 268-281). -/
def markRendered : List DisplayPlaneState → List OverlayLayer → Option (List OverlayLayer)
  | [], layers => some layers
  | plane :: planes, layers =>
    if plane.NeedsOffScreenComposition then
      match markSourceLayers plane.usesPlaneScalar plane.sourceLayers layers with
      | none => none
      | some layers1 => markRendered planes layers1
    else markRendered planes layers

/-- The locals of the overlay part of `ValidateLayers`; the composition is
`below ++ [last_plane]`, so `last_plane` is `composition.back()`. -/
structure Plan where
  store : Store
  below : List DisplayPlaneState
  last_plane : DisplayPlaneState
  commit_planes : List OverlayPlane
  prefer_seperate_plane : Bool

/-- The composition a `Plan` stands for. -/
def Plan.composition (p : Plan) : List DisplayPlaneState :=
  p.below ++ [p.last_plane]

/-- Lines 162-171 of `ValidateLayers`: the plane state appended for an accepted binding of
`layer` to plane `j`; with `fall_back` it gets an off-screen target of its own. -/
def acceptBinding (s : Store) (j : DisplayPlane) (ref : LayerRef) (layer : OverlayLayer)
    (fall_back : Bool) (commit_planes : List OverlayPlane) :
    Store × DisplayPlaneState × List OverlayPlane :=
  let created := DisplayPlaneState.create j ref layer layer.zorder
  let s1 := s.setInUse j
  if fall_back then
    ResetPlaneTarget s1 (if layer.isVideo then created.SetVideoPlane else created) commit_planes
  else (s1, created, commit_planes)

/-- Lines 176-179 of `ValidateLayers`: `layer` is folded into `last_plane`, which gets an
off-screen target if it has none. -/
def foldLayer (s : Store) (last_plane : DisplayPlaneState) (layer : OverlayLayer) :
    Store × DisplayPlaneState :=
  let last1 := last_plane.AddLayer layer
  if last1.GetOffScreenTarget.isNone then SetOffScreenPlaneTarget s last1 else (s, last1)

/-- The inner loop of `ValidateLayers` (lines 148-185) for plane `j`: `i` is the position of
`layer_begin` and the list holds the layers from there on. Input layers are not written
between line 123 and line 214, so the loop reads them from the list. -/
def overlayLayerLoop (env : Env) (request_video_effect : Bool) (j : DisplayPlane) :
    Nat → List OverlayLayer → Plan → Plan × Nat × List OverlayLayer
  | i, [], p => (p, i, [])
  | i, layer :: layers, p =>
    let ref := LayerRef.layer i
    let commit1 := p.commit_planes ++ [{ plane := j, layer := ref }]
    let fall_back :=
      if request_video_effect && layer.isVideo then true
      else FallbacktoGPU env p.store j ref commit1
    if !fall_back || p.prefer_seperate_plane || layer.preferSeparatePlane then
      let r := acceptBinding p.store j ref layer fall_back commit1
      ({ store := r.1, below := p.below ++ [p.last_plane], last_plane := r.2.1,
         commit_planes := r.2.2, prefer_seperate_plane := layer.preferSeparatePlane },
        i + 1, layers)
    else
      let r := foldLayer p.store p.last_plane layer
      overlayLayerLoop env request_video_effect j (i + 1) layers
        { p with store := r.1, last_plane := r.2 }

/-- The plane loop of `ValidateLayers` (lines 133-186) over `overlay_planes_` from the second
plane on. The block of lines 141-145 is guarded by `previous_layer`, which is `NULL` there,
and never runs. -/
def overlayPlaneLoop (env : Env) (request_video_effect : Bool) :
    List DisplayPlane → Nat → List OverlayLayer → Plan → Plan × Nat × List OverlayLayer
  | [], i, layers, p => (p, i, layers)
  | j :: planes, i, layers, p =>
    if env.disableCursorPlane &&
        (match p.store.mgr.cursorPlane with
         | some cursor_plane => decide (cursor_plane.id = j.id)
         | none => false) then
      overlayPlaneLoop env request_video_effect planes i layers p
    else
      let r := overlayLayerLoop env request_video_effect j i layers p
      overlayPlaneLoop env request_video_effect planes r.2.1 r.2.2 r.1

/-- Lines 202-212 of `ValidateLayers`: a multi-layer video plane loses its video target, and
a plane state without target (or that just lost it) gets one. -/
def retargetLastPlane (s : Store) (last_plane : DisplayPlaneState) (is_video : Bool)
    (commit_planes : List OverlayPlane) : Store × DisplayPlaneState × List OverlayPlane :=
  let force_buffer :=
    is_video && decide (last_plane.sourceLayers.length > 1) &&
      last_plane.GetOffScreenTarget.isSome
  let r1 : Store × DisplayPlaneState :=
    if force_buffer then
      ((match last_plane.GetOffScreenTarget with
        | some surface => s.updateSurface surface (fun fb => fb.SetInUse false)
        | none => s),
       { last_plane with surfaces := [] })
    else (s, last_plane)
  if r1.2.GetOffScreenTarget.isNone || force_buffer then ResetPlaneTarget r1.1 r1.2 commit_planes
  else (r1.1, r1.2, commit_planes)

/-- Lines 188-219 of `ValidateLayers`: the layers left over (from position `i` on) are folded
into the last plane state. The result carries `render_layers`. -/
def spillOver (env : Env) (i : Nat) (layers : List OverlayLayer) (render_layers : Bool)
    (p : Plan) : Option (Plan × Bool) :=
  let is_video := p.last_plane.videoPlane
  let last1 := layers.foldl DisplayPlaneState.AddLayer p.last_plane
  if last1.NeedsOffScreenComposition then
    match layers.getLast? with
    | some previous_layer =>
      let r2 := retargetLastPlane p.store last1 is_video p.commit_planes
      match ValidateForDisplayScaling env r2.1 r2.2.2 r2.2.1
          (LayerRef.layer (i + layers.length - 1)) previous_layer false with
      | none => none
      | some (s3, commit3, last3) =>
        some ({ p with store := s3, last_plane := last3, commit_planes := commit3 }, true)
    | none => some ({ p with last_plane := last1 }, true)
  else some ({ p with last_plane := last1 }, render_layers)

/-- What `ValidateLayers` hands back: `render_layers`, the composition and the store. -/
structure Outcome where
  render_layers : Bool
  composition : List DisplayPlaneState
  store : Store
deriving DecidableEq, Repr

/-- Where `ValidateLayers` stands after line 225: it has returned early (line 111 or 127),
or it has a proposal that goes on to lines 227-244. -/
inductive Planned where
  | returned (o : Outcome)
  | proposed (render_layers : Bool) (s : Store) (composition : List DisplayPlaneState)

/-- The early fold of lines 103-106: every layer after the primary one is added to the
primary plane state and marked `gpu_rendered`. -/
def foldAllLayers : Nat → List OverlayLayer → Store → DisplayPlaneState →
    Store × DisplayPlaneState
  | _, [], s, last_plane => (s, last_plane)
  | i, layer :: layers, s, last_plane =>
    foldAllLayers (i + 1) layers (s.updateLayer (LayerRef.layer i) OverlayLayer.GPURendered)
      (last_plane.AddLayer layer)

/-- Lines 125-225 of `ValidateLayers`, entered with the primary plane state in place. -/
def planOverlays (env : Env) (request_video_effect : Bool) (layers : List OverlayLayer)
    (render_layers : Bool) (p : Plan) : Option Planned :=
  if layers.length + 1 == 1 then
    some (Planned.returned
      { render_layers := render_layers, composition := p.composition, store := p.store })
  else
    let planned : Option (Plan × Bool) :=
      if !layers.isEmpty then
        let r := overlayPlaneLoop env request_video_effect (p.store.mgr.overlayPlanes.drop 1) 1
          layers p
        spillOver env r.2.1 r.2.2 render_layers r.1
      else some (p, render_layers)
    match planned with
    | none => none
    | some (p1, render_layers1) =>
      match ValidateCursorLayer env p1.store p1.composition with
      | none => none
      | some (render_cursor_layer, s2, composition2) =>
        some (Planned.proposed (if !render_layers1 then render_cursor_layer else render_layers1)
          s2 composition2)

/-- The store `ValidateLayers` works on after lines 71-73: every plane is marked free. -/
def initialStore (m : DisplayPlaneManager) (layers cursor_layers : List OverlayLayer) : Store :=
  { mgr := { m with planesInUse := [] }, layers := layers, cursorLayers := cursor_layers }

/-- Lines 64-225 of `ValidateLayers`. `none` stands for an empty `layers`, a null
`primary_plane_`, or a null dereference further on. The default of `ignore_format` is
`false`. -/
def planLayers (env : Env) (m : DisplayPlaneManager) (layers cursor_layers : List OverlayLayer)
    (pending_modeset disable_overlay : Bool) (composition : List DisplayPlaneState)
    (request_video_effect : Bool) : Option Planned :=
  let s0 := initialStore m layers cursor_layers
  match layers, m.primaryPlane with
  | [], _ => none
  | _ :: _, none => none
  | primary_layer :: rest, some current_plane =>
    let ref := LayerRef.layer 0
    let commit_planes : List OverlayPlane := [{ plane := current_plane, layer := ref }]
    let created := DisplayPlaneState.create current_plane ref primary_layer primary_layer.zorder
    let s1 := s0.setInUse current_plane
    let prefer_seperate_plane := primary_layer.preferSeparatePlane
    let force_gpu := (pending_modeset && decide (layers.length > 1)) || disable_overlay
    let force_va := request_video_effect && primary_layer.isVideo
    if force_gpu || force_va || FallbacktoGPU env s1 current_plane ref commit_planes then
      if force_gpu || !prefer_seperate_plane then
        let r := foldAllLayers 1 rest s1 created
        let r2 := ResetPlaneTarget r.1 r.2 commit_planes
        some (Planned.returned
          { render_layers := true, composition := composition ++ [r2.2.1], store := r2.1 })
      else
        let r2 := ResetPlaneTarget s1
          (if primary_layer.isVideo then created.SetVideoPlane else created) commit_planes
        match ValidateForDisplayScaling env r2.1 r2.2.2 r2.2.1 ref primary_layer false with
        | none => none
        | some (s3, commit3, last3) =>
          planOverlays env request_video_effect rest true
            { store := s3, below := composition, last_plane := last3, commit_planes := commit3,
              prefer_seperate_plane := prefer_seperate_plane }
    else
      planOverlays env request_video_effect rest false
        { store := s1, below := composition, last_plane := created,
          commit_planes := commit_planes, prefer_seperate_plane := prefer_seperate_plane }

/-- `DisplayPlaneManager::ValidateLayers` (lines 64-245). -/
def ValidateLayers (env : Env) (m : DisplayPlaneManager)
    (layers cursor_layers : List OverlayLayer) (pending_modeset disable_overlay : Bool)
    (composition : List DisplayPlaneState) (request_video_effect : Bool) : Option Outcome :=
  match planLayers env m layers cursor_layers pending_modeset disable_overlay composition
      request_video_effect with
  | none => none
  | some (Planned.returned o) => some o
  | some (Planned.proposed render_layers s composition1) =>
    if render_layers then
      match ValidateFinalLayers env s composition1 with
      | none => none
      | some (s2, composition2) =>
        match markRendered composition2 s2.layers with
        | none => none
        | some marked =>
          some { render_layers := true, composition := composition2,
                 store := { s2 with layers := marked } }
    else some { render_layers := false, composition := composition1, store := s }

/-- Lines 255-261 of `ReValidateLayers`: a plane state that uses the plane scalar is validated
again against its topmost source layer, with `ignore_format` set. `commit_planes` already ends
with the binding of `temp`. `none` stands for `source.at(total_layers - 1)` or `layers.at(...)`
out of range, or a missing off-screen target in `ValidateForDisplayScaling`. -/
def revalidatePlaneScalar (env : Env) (s : Store) (commit_planes : List OverlayPlane)
    (temp : DisplayPlaneState) : Option (Store × List OverlayPlane × DisplayPlaneState) :=
  if temp.usesPlaneScalar then
    let source := temp.sourceLayers
    let total_layers := source.length
    if total_layers = 0 then none
    else
      match source[total_layers - 1]? with
      | none => none
      | some source_index =>
        match s.layers[source_index]? with
        | none => none
        | some layer =>
          ValidateForDisplayScaling env s commit_planes temp (LayerRef.layer source_index) layer
            true
  else some (s, commit_planes, temp)

/-- The first loop of `ReValidateLayers` (lines 252-262): the binding of every plane state is
appended to the commit list, and the plane states that use the plane scalar are validated
again. -/
def revalidateScalars (env : Env) :
    List DisplayPlaneState → Store → List OverlayPlane →
    Option (Store × List OverlayPlane × List DisplayPlaneState)
  | [], s, commit_planes => some (s, commit_planes, [])
  | temp :: planes, s, commit_planes =>
    match revalidatePlaneScalar env s (commit_planes ++ [temp.binding]) temp with
    | none => none
    | some (s1, commit2, temp1) =>
      match revalidateScalars env planes s1 commit2 with
      | none => none
      | some (s2, commit3, planes1) => some (s2, commit3, temp1 :: planes1)

/-- The feedback loop of `ReValidateLayers` (lines 268-281): `render_layers` is set for the
first plane state that needs off-screen composition, and the source layers of every such
plane state are marked. -/
def revalidateFeedback :
    List DisplayPlaneState → Bool → List OverlayLayer → Option (Bool × List OverlayLayer)
  | [], render_layers, layers => some (render_layers, layers)
  | plane :: planes, render_layers, layers =>
    if plane.NeedsOffScreenComposition then
      match markSourceLayers plane.usesPlaneScalar plane.sourceLayers layers with
      | none => none
      | some layers1 => revalidateFeedback planes true layers1
    else revalidateFeedback planes render_layers layers

/-- What `ReValidateLayers` hands back: its return value, `*request_full_validation`, the
store and the composition (whose plane states it may take off the plane scalar). -/
structure Revalidated where
  render_layers : Bool
  request_full_validation : Bool
  store : Store
  composition : List DisplayPlaneState
deriving DecidableEq, Repr

/-- `DisplayPlaneManager::ReValidateLayers` (lines 247-287); `s.layers` are its `layers`. -/
def ReValidateLayers (env : Env) (s : Store) (composition : List DisplayPlaneState) :
    Option Revalidated :=
  match revalidateScalars env composition s [] with
  | none => none
  | some (s1, commit_planes, composition1) =>
    if env.testCommit (s1.view commit_planes) then
      match revalidateFeedback composition1 false s1.layers with
      | none => none
      | some (render_layers, marked) =>
        some { render_layers := render_layers, request_full_validation := false,
               store := { s1 with layers := marked }, composition := composition1 }
    else
      some { render_layers := false, request_full_validation := true, store := s1,
             composition := composition1 }

/-! ## Invariants and sample inputs -/

/-- `s'` differs from `s` at most in the surface pools, in layer attributes other than the
z-order, and by planes newly marked in use. -/
structure Store.Extends (s s' : Store) : Prop where
  overlayPlanes : s'.mgr.overlayPlanes = s.mgr.overlayPlanes
  cursorPlane : s'.mgr.cursorPlane = s.mgr.cursorPlane
  primaryPlane : s'.mgr.primaryPlane = s.mgr.primaryPlane
  planesInUse : ∀ i, i ∈ s.mgr.planesInUse → i ∈ s'.mgr.planesInUse
  layers : s'.layers.map OverlayLayer.zorder = s.layers.map OverlayLayer.zorder
  cursorLayers : s'.cursorLayers.map OverlayLayer.zorder = s.cursorLayers.map OverlayLayer.zorder

/-- The plane state `b` is `a` up to the scalar flag and the cached source crop. -/
def DisplayPlaneState.SameButScalar (a b : DisplayPlaneState) : Prop :=
  ∃ u crop, b = { a with usesPlaneScalar := u, sourceCrop := crop }

/-- Invariant of one plane state, for primary layer `L0` and z-orders below `n`. -/
structure StateOk (L0 : OverlayLayer) (n : Nat) (ps : DisplayPlaneState) : Prop where
  targets : 2 ≤ ps.sourceLayers.length → ps.surfaces ≠ []
  scalar : ps.usesPlaneScalar = true →
    ps.sourceLayers = [L0.zorder] ∧
      (L0.displayFrameWidth ≠ L0.sourceCropWidth ∨
        L0.displayFrameHeight ≠ L0.sourceCropHeight)
  bounded : ∀ z ∈ ps.sourceLayers, z < n
  nonempty : ps.sourceLayers ≠ []
  raw : ∀ k, ps.rawLayer = LayerRef.layer k → k ∈ ps.sourceLayers

/-- Invariant of the planes of a composition: the first is the primary plane, no plane
occurs twice, and every one of them is marked in use. -/
structure PlanesOk (p0 : DisplayPlane) (s : Store) (planes : List DisplayPlane) : Prop where
  head : planes.head? = some p0
  nodup : (planes.map DisplayPlane.id).Nodup
  inUse : ∀ q ∈ planes, q.id ∈ s.mgr.planesInUse

/-- Invariant of the overlay loops of `ValidateLayers`: `all` are the input layers, `N` a
bound on the z-orders, `avail` the planes still to be visited, `i` the position of
`layer_begin` and `remaining` the layers from there on. -/
structure PlanInv (s0 : Store) (p0 : DisplayPlane) (L0 : OverlayLayer) (N : Nat)
    (all : List OverlayLayer) (avail : List DisplayPlane) (i : Nat)
    (remaining : List OverlayLayer) (p : Plan) : Prop where
  ext : s0.Extends p.store
  bound : all.length ≤ N
  position : all.drop i = remaining
  le : i ≤ all.length
  planes : PlanesOk p0 p.store (p.composition.map DisplayPlaneState.plane)
  states : ∀ ps ∈ p.composition, StateOk L0 N ps
  fresh : ∀ ps ∈ p.composition, ∀ j ∈ avail, ps.plane.id ≠ j.id
  availNodup : (avail.map DisplayPlane.id).Nodup
  scalarPrefer : p.last_plane.usesPlaneScalar = true → p.prefer_seperate_plane = true
  sources : p.composition.flatMap DisplayPlaneState.sourceLayers = List.range i

/-- Invariant of a composition together with the store it lives in. -/
structure CompInv (s0 : Store) (p0 : DisplayPlane) (L0 : OverlayLayer) (n : Nat) (s : Store)
    (composition : List DisplayPlaneState) : Prop where
  ext : s0.Extends s
  planes : PlanesOk p0 s (composition.map DisplayPlaneState.plane)
  states : ∀ ps ∈ composition, StateOk L0 n ps

/-- Invariant of the loops of `ValidateCursorLayer`. -/
structure CursorInv (s0 : Store) (p0 : DisplayPlane) (L0 : OverlayLayer) (n : Nat)
    (p : CursorPlan) : Prop where
  comp : CompInv s0 p0 L0 n p.store p.composition
  lastOk : isCursorOnly p.store.mgr p.last_plane = false

/-- The plane state `b` is `a` with further off-screen targets in front of its history; a
plane state that needs off-screen composition has one afterwards. -/
def DisplayPlaneState.Retargeted (a b : DisplayPlaneState) : Prop :=
  ∃ ids, b = { a with surfaces := ids ++ a.surfaces } ∧
    (a.forceGpu = true → ids ++ a.surfaces ≠ [])

/-- The single plane state a composition collapses to: on `p0`, all `n` layers, with an
off-screen target. -/
def IsCollapsed (p0 : DisplayPlane) (n : Nat) (composition : List DisplayPlaneState) : Prop :=
  ∃ ps, composition = [ps] ∧ ps.plane = p0 ∧ ps.sourceLayers = List.range n ∧
    ps.surfaces ≠ [] ∧ ps.forceGpu = true ∧ ps.usesPlaneScalar = false ∧
    ps.rawLayer = LayerRef.layer 0

/-- The layers `r` are the layers `layers` after the feedback loop marked the positions in
`M`: same z-orders, untouched outside `M`, `gpu_rendered` set inside `M` and never cleared. -/
def Marked (M : Nat → Prop) (layers r : List OverlayLayer) : Prop :=
  r.length = layers.length ∧
  ∀ k l, layers[k]? = some l →
    ∃ l', r[k]? = some l' ∧ l'.zorder = l.zorder ∧ (¬ M k → l' = l) ∧
      (M k ∨ l.gpuRendered = true → l'.gpuRendered = true)

/-- No plane state of the composition needs off-screen composition. -/
def Clean (composition : List DisplayPlaneState) : Prop :=
  ∀ ps ∈ composition, ps.forceGpu = false

/-- As long as no plane state needs off-screen composition, the commit list is the list of
bindings of the composition and `TestCommit` has accepted it. -/
def Plan.Tested (env : Env) (p : Plan) : Prop :=
  Clean p.composition →
    p.commit_planes = p.composition.map DisplayPlaneState.binding ∧
    env.testCommit (p.store.view p.commit_planes) = true

/-- A valid input of `ValidateLayers`: a manager as `Initialize` leaves it (primary plane
first, planes distinct, the cursor plane not the primary plane) and a non-empty layer list
in bottom-to-top z-order, the z-order of a layer being its position. -/
structure ValidInput (m : DisplayPlaneManager) (p0 : DisplayPlane)
    (layers : List OverlayLayer) : Prop where
  nonempty : layers ≠ []
  zorder : layers.map OverlayLayer.zorder = List.range layers.length
  primary : m.primaryPlane = some p0
  planes : m.overlayPlanes.head? = some p0
  distinct : (m.overlayPlanes.map DisplayPlane.id).Nodup
  cursorPlane : ∀ c, m.cursorPlane = some c → c.id ≠ p0.id

/-- What holds of a composition and store produced by `ValidateLayers`. -/
structure Produced (m : DisplayPlaneManager) (p0 : DisplayPlane) (L0 : OverlayLayer) (N : Nat)
    (layers cursor_layers : List OverlayLayer) (s : Store)
    (composition : List DisplayPlaneState) : Prop where
  inv : CompInv (initialStore m layers cursor_layers) p0 L0 N s composition
  sources : cursor_layers = [] →
    composition.flatMap DisplayPlaneState.sourceLayers = List.range layers.length

/-- A layer at z-order `z`, 10 by 10 on screen and in its buffer, identity transform,
format 1. -/
def sampleLayer (z : Nat) : OverlayLayer :=
  { zorder := z, displayFrame := ⟨0, 0, 10, 10⟩, sourceCrop := ⟨0, 0, 10, 10⟩,
    displayFrameWidth := 10, displayFrameHeight := 10, sourceCropWidth := 10,
    sourceCropHeight := 10, format := 1, identityTransform := true, isVideo := false,
    isCursor := false, preferSeparatePlane := false, gpuRendered := false,
    usePlaneScalar := false }

/-- A universal plane with address `i` that supports format 1. -/
def samplePlane (i : Nat) : DisplayPlane :=
  { id := i, isUniversal := true, preferredFormat := 1, preferredVideoFormat := 2,
    supportedFormats := [1] }

/-- A manager with three universal planes, as `Initialize` leaves it. -/
def sampleManager : DisplayPlaneManager :=
  { overlayPlanes := [samplePlane 0, samplePlane 1, samplePlane 2], cursorPlane := none,
    primaryPlane := some (samplePlane 0), planesInUse := [], surfaces := [],
    cursorSurfaces := [], width := 100, height := 100, nextSurfaceId := 0 }

/-- Collaborators that accept every layer and every commit. -/
def acceptAll : Env :=
  { disableCursorPlane := false, validateLayer := fun _ _ => true,
    frameBuffer := fun _ => true, testCommit := fun _ => true }

/-- Collaborators whose planes reject the layer at z-order 1 and accept everything else. -/
def rejectLayerOne : Env :=
  { disableCursorPlane := false,
    validateLayer := fun _ l =>
      match l with
      | some l => l.zorder != 1
      | none => false,
    frameBuffer := fun _ => true, testCommit := fun _ => true }

/-- Collaborators whose planes reject the layer at z-order 1 and whose commit test accepts
only a commit of a single plane. -/
def singlePlaneOnly : Env :=
  { disableCursorPlane := false,
    validateLayer := fun _ l =>
      match l with
      | some l => l.zorder != 1
      | none => false,
    frameBuffer := fun _ => true, testCommit := fun c => c.length == 1 }

/-- Collaborators whose planes reject the layer at z-order 1 and whose commit test rejects
every commit that scans out an off-screen target (a layer 100 wide). -/
def rejectTargets : Env :=
  { disableCursorPlane := false,
    validateLayer := fun _ l =>
      match l with
      | some l => l.zorder != 1
      | none => false,
    frameBuffer := fun _ => true,
    testCommit := fun c => c.all (fun b =>
      match b.2 with
      | some l => l.displayFrameWidth != 100
      | none => false) }

/-- Collaborators whose commit test rejects everything. -/
def rejectAll : Env :=
  { disableCursorPlane := false, validateLayer := fun _ _ => true,
    frameBuffer := fun _ => true, testCommit := fun _ => false }

/-- A layer 10 by 10 in its buffer shown 20 by 20, in a format (7) the sample planes do not
support, that prefers a plane of its own. -/
def scaledLayer : OverlayLayer :=
  { sampleLayer 0 with displayFrame := ⟨0, 0, 20, 20⟩, displayFrameWidth := 20,
                       displayFrameHeight := 20, format := 7, preferSeparatePlane := true }

/-- Collaborators whose planes reject format 7 and accept everything else. -/
def rejectFormatSeven : Env :=
  { disableCursorPlane := false,
    validateLayer := fun _ l =>
      match l with
      | some l => l.format != 7
      | none => false,
    frameBuffer := fun _ => true, testCommit := fun _ => true }

/-- The store and the commit list `ValidateForDisplayScaling` hands to `FallbacktoGPU` at its
scalar attempt (line 510), after lines 423-432 and 500-508 have run. -/
def scalarAttempt (s : Store) (commit_planes : List OverlayPlane)
    (last_plane : DisplayPlaneState) (current_layer : LayerRef) (cur : OverlayLayer) :
    Store × List OverlayPlane :=
  let r := clearPlaneScalar s last_plane current_layer
  (resetSurfaceCrops r.1 last_plane.surfaces cur.sourceCrop true,
    modifyLast (fun op =>
      { op with layer := (r.2.SetSourceCrop cur.sourceCrop).GetOverlayLayer }) commit_planes)

/-- The test of lines 136 and 358: under `DISABLE_CURSOR_PLANE` the plane loops pass over the
plane `cursor_plane_` points at. -/
def passedOver (env : Env) (cursor_plane : Option DisplayPlane) (j : DisplayPlane) : Bool :=
  env.disableCursorPlane &&
    (match cursor_plane with
     | some cursor_plane => decide (cursor_plane.id = j.id)
     | none => false)

/-- The planes overlay assignment can use, bottom to top: the primary plane `overlay_planes_[0]`
and the planes above it that the plane loop of `ValidateLayers` does not pass over. -/
def usablePlanes (env : Env) (m : DisplayPlaneManager) : List DisplayPlane :=
  match m.overlayPlanes with
  | [] => []
  | primary :: others => primary :: others.filter (fun j => !passedOver env m.cursorPlane j)

/-- The plane state `ValidateLayers` creates for a layer it binds directly to a plane. -/
def directBinding (plane : DisplayPlane) (il : Nat × OverlayLayer) : DisplayPlaneState :=
  DisplayPlaneState.create plane (LayerRef.layer il.1) il.2 il.2.zorder

/-- Every plane state of the composition sits on a plane with the property `P`. -/
def OnPlanes (P : DisplayPlane → Prop) (composition : List DisplayPlaneState) : Prop :=
  ∀ ps ∈ composition, P ps.plane

/-- Collaborators that accept every layer and every commit, built with
`DISABLE_CURSOR_PLANE`. -/
def cursorPlaneDisabled : Env :=
  { disableCursorPlane := true, validateLayer := fun _ _ => true,
    frameBuffer := fun _ => true, testCommit := fun _ => true }

/-- A plane with address `i` that is not universal (a dedicated cursor plane). -/
def cursorOnlyPlane (i : Nat) : DisplayPlane :=
  { samplePlane i with isUniversal := false }

/-- A manager before `Initialize`: no planes, no surfaces. -/
def freshManager : DisplayPlaneManager :=
  { overlayPlanes := [], cursorPlane := none, primaryPlane := none, planesInUse := [],
    surfaces := [], cursorSurfaces := [], width := 0, height := 0, nextSurfaceId := 0 }

/-- A layer shown 65536 by 1 from a buffer area of 65535 by 65537: upscaled by one pixel in
width and downscaled in height, in a format (7) the sample planes do not support. -/
def skewedLayer : OverlayLayer :=
  { sampleLayer 0 with displayFrame := ⟨0, 0, 65536, 1⟩, sourceCrop := ⟨0, 0, 65535, 65537⟩,
                       displayFrameWidth := 65536, displayFrameHeight := 1,
                       sourceCropWidth := 65535, sourceCropHeight := 65537, format := 7 }

/-- The primary plane state of the sample manager for the single layer `l`, after
`SetOffScreenPlaneTarget` gave it an off-screen target, with the store that holds the
target. -/
def targetedPrimary (l : OverlayLayer) : Store × DisplayPlaneState :=
  SetOffScreenPlaneTarget (initialStore sampleManager [l] [])
    (DisplayPlaneState.create (samplePlane 0) (LayerRef.layer 0) l 0)

/-- A video layer at z-order 0, without and with the hint `prefer_separate_plane`. -/
def videoLayer (hint : Bool) : OverlayLayer :=
  { sampleLayer 0 with isVideo := true, preferSeparatePlane := hint }

/-- A cursor layer at z-order `z`. -/
def cursorLayer (z : Nat) : OverlayLayer :=
  { sampleLayer z with isCursor := true }

/-- Four universal planes initialised under `DISABLE_CURSOR_PLANE`: the topmost one is
reserved. -/
def reservedManager : DisplayPlaneManager :=
  (Initialize cursorPlaneDisabled freshManager 100 100
    [samplePlane 0, samplePlane 1, samplePlane 2, samplePlane 3] true).1

/-- The primary plane state of the upscaled sample layer after `ValidateForDisplayScaling`
put it on the plane scalar, with the store that holds its off-screen target. -/
def scaledPrimary : Store × DisplayPlaneState :=
  match ValidateForDisplayScaling acceptAll (targetedPrimary scaledLayer).1
      [(targetedPrimary scaledLayer).2.binding] (targetedPrimary scaledLayer).2
      (LayerRef.layer 0) scaledLayer false with
  | some r => ({ r.1 with layers := [scaledLayer] }, r.2.2)
  | none => targetedPrimary scaledLayer

/-- What identifies an off-screen surface and its buffer: address, size, and whether it was
created as a cursor or a video surface. -/
def NativeSurface.extent (fb : NativeSurface) : Nat × Nat × Nat × Bool × Bool :=
  (fb.id, fb.width, fb.height, fb.cursor, fb.video)

/-- Collaborators whose planes reject every cursor layer and accept everything else. -/
def rejectCursor : Env :=
  { disableCursorPlane := false,
    validateLayer := fun _ l =>
      match l with
      | some l => !l.isCursor
      | none => false,
    frameBuffer := fun _ => true, testCommit := fun _ => true }

/-- The locals of `ValidateCursorLayer` at line 349 for two sample layers bound to the first
two planes of the sample manager and one cursor layer: `last_plane` is the plane state of
layer 1, without off-screen target. -/
def sampleCursorPlan : CursorPlan :=
  { store := { mgr := sampleManager, layers := [sampleLayer 0, sampleLayer 1],
               cursorLayers := [cursorLayer 1] },
    below := [directBinding (samplePlane 0) (0, sampleLayer 0)],
    last_plane := directBinding (samplePlane 1) (1, sampleLayer 1),
    above := [],
    commit_planes := [directBinding (samplePlane 0) (0, sampleLayer 0),
      directBinding (samplePlane 1) (1, sampleLayer 1)].map DisplayPlaneState.binding,
    is_video := false, status := false }

/-- Collaborators whose planes reject the layer at z-order 1 and whose commit test accepts
every commit of a single plane, and a commit of several planes only when none of them scans
out an off-screen target (a layer 100 wide). -/
def limitedTargets : Env :=
  { disableCursorPlane := false,
    validateLayer := fun _ l =>
      match l with
      | some l => l.zorder != 1
      | none => false,
    frameBuffer := fun _ => true,
    testCommit := fun c => c.length == 1 || c.all (fun b =>
      match b.2 with
      | some l => l.displayFrameWidth != 100
      | none => false) }

/-- Collaborators whose planes reject a layer that is to go through the plane scalar
(`use_plane_scalar` set) and accept every other layer; every commit test passes. -/
def noPlaneScalar : Env :=
  { disableCursorPlane := false,
    validateLayer := fun _ l =>
      match l with
      | some l => !l.usePlaneScalar
      | none => false,
    frameBuffer := fun _ => true, testCommit := fun _ => true }

/-! ## Theorems -/

theorem Store.Extends.refl (s : Store) : s.Extends s :=
  ⟨rfl, rfl, rfl, fun _ h => h, rfl, rfl⟩

theorem Store.Extends.trans {a b c : Store} (h1 : a.Extends b) (h2 : b.Extends c) :
    a.Extends c :=
  ⟨h2.overlayPlanes.trans h1.overlayPlanes, h2.cursorPlane.trans h1.cursorPlane,
   h2.primaryPlane.trans h1.primaryPlane, fun i h => h2.planesInUse i (h1.planesInUse i h),
   h2.layers.trans h1.layers, h2.cursorLayers.trans h1.cursorLayers⟩

theorem modifyAt_length {α : Type} (f : α → α) (i : Nat) (l : List α) :
    (modifyAt f i l).length = l.length := by
  induction l generalizing i with
  | nil => cases i <;> rfl
  | cons a l ih => cases i <;> simp [modifyAt, ih]

theorem modifyAt_map_of_eq {α β : Type} (f : α → α) (g : α → β) (hg : ∀ a, g (f a) = g a)
    (i : Nat) (l : List α) : (modifyAt f i l).map g = l.map g := by
  induction l generalizing i with
  | nil => cases i <;> rfl
  | cons a l ih => cases i <;> simp [modifyAt, ih, hg]

theorem Store.updateSurface_extends (s : Store) (id : Nat) (f : NativeSurface → NativeSurface) :
    s.Extends (s.updateSurface id f) :=
  ⟨rfl, rfl, rfl, fun _ h => h, rfl, rfl⟩

theorem Store.updateSurfaces_extends (s : Store) (ids : List Nat)
    (f : NativeSurface → NativeSurface) : s.Extends (s.updateSurfaces ids f) := by
  induction ids generalizing s with
  | nil => exact Store.Extends.refl s
  | cons a l ih =>
    exact (s.updateSurface_extends a f).trans (ih (s.updateSurface a f))

theorem Store.updateLayer_extends (s : Store) (ref : LayerRef) (f : OverlayLayer → OverlayLayer)
    (hf : ∀ l, (f l).zorder = l.zorder) : s.Extends (s.updateLayer ref f) := by
  cases ref with
  | layer k => exact ⟨rfl, rfl, rfl, fun _ h => h, modifyAt_map_of_eq f _ hf k s.layers, rfl⟩
  | cursor k =>
    exact ⟨rfl, rfl, rfl, fun _ h => h, rfl, modifyAt_map_of_eq f _ hf k s.cursorLayers⟩
  | surface id => exact s.updateSurface_extends id _

theorem Store.setInUse_extends (s : Store) (p : DisplayPlane) : s.Extends (s.setInUse p) :=
  ⟨rfl, rfl, rfl, fun _ h => List.mem_cons_of_mem _ h, rfl, rfl⟩

theorem EnsureOffScreenTarget_extends (s : Store) (ps : DisplayPlaneState) :
    s.Extends (EnsureOffScreenTarget s ps).1 := by
  unfold EnsureOffScreenTarget
  dsimp only
  split
  · exact s.updateSurface_extends _ _
  · exact ⟨rfl, rfl, rfl, fun _ h => h, rfl, rfl⟩

theorem EnsureOffScreenTarget_state (s : Store) (ps : DisplayPlaneState) :
    ∃ id, (EnsureOffScreenTarget s ps).2 = ps.SetOffScreenTarget id := by
  unfold EnsureOffScreenTarget
  dsimp only
  split
  · exact ⟨_, rfl⟩
  · exact ⟨_, rfl⟩

theorem SetOffScreenPlaneTarget_extends (s : Store) (ps : DisplayPlaneState) :
    s.Extends (SetOffScreenPlaneTarget s ps).1 :=
  EnsureOffScreenTarget_extends s ps

theorem SetOffScreenPlaneTarget_state (s : Store) (ps : DisplayPlaneState) :
    ∃ id, (SetOffScreenPlaneTarget s ps).2 = (ps.SetOffScreenTarget id).ForceGPURendering := by
  obtain ⟨id, h⟩ := EnsureOffScreenTarget_state s ps
  exact ⟨id, by simp [SetOffScreenPlaneTarget, h]⟩

theorem ResetPlaneTarget_extends (s : Store) (ps : DisplayPlaneState) (c : List OverlayPlane) :
    s.Extends (ResetPlaneTarget s ps c).1 :=
  EnsureOffScreenTarget_extends s ps

theorem ResetPlaneTarget_state (s : Store) (ps : DisplayPlaneState) (c : List OverlayPlane) :
    ∃ id, (ResetPlaneTarget s ps c).2.1 = (ps.SetOffScreenTarget id).ForceGPURendering :=
  SetOffScreenPlaneTarget_state s ps

theorem scalarRejected_false {plane : DisplayPlane} {cur : OverlayLayer} {ig : Bool}
    (h : scalarRejected plane cur ig = false) :
    cur.displayFrameWidth ≠ cur.sourceCropWidth ∨
      cur.displayFrameHeight ≠ cur.sourceCropHeight := by
  unfold scalarRejected at h
  dsimp only at h
  by_contra hc
  push_neg at hc
  simp [hc.1, hc.2] at h

theorem resetSurfaceCrops_extends (s : Store) (l : List Nat) (crop : HwcRect) (b : Bool) :
    s.Extends (resetSurfaceCrops s l crop b) :=
  Store.updateSurfaces_extends _ _ _

theorem clearPlaneScalar_extends (s : Store) (lp : DisplayPlaneState) (ref : LayerRef) :
    s.Extends (clearPlaneScalar s lp ref).1 := by
  unfold clearPlaneScalar
  split
  · exact (s.updateLayer_extends ref (fun l => l.UsePlaneScalar false) (fun _ => rfl)).trans
      (resetSurfaceCrops_extends _ _ _ _)
  · exact Store.Extends.refl s

theorem clearPlaneScalar_state (s : Store) (lp : DisplayPlaneState) (ref : LayerRef) :
    ∃ crop, (clearPlaneScalar s lp ref).2 =
      { lp with usesPlaneScalar := false, sourceCrop := crop } := by
  unfold clearPlaneScalar
  split
  · exact ⟨lp.displayFrame, rfl⟩
  · rename_i hu
    refine ⟨lp.sourceCrop, ?_⟩
    simp only [Bool.not_eq_true] at hu
    cases lp
    simp_all

theorem ValidateForDisplayScaling_spec {env : Env} {s : Store} {c : List OverlayPlane}
    {lp : DisplayPlaneState} {ref : LayerRef} {cur : OverlayLayer} {ig : Bool}
    {r : Store × List OverlayPlane × DisplayPlaneState}
    (h : ValidateForDisplayScaling env s c lp ref cur ig = some r) :
    s.Extends r.1 ∧ lp.SameButScalar r.2.2 ∧
    (r.2.2.usesPlaneScalar = true →
      lp.sourceLayers.length ≤ 1 ∧ scalarRejected lp.plane cur ig = false) := by
  obtain ⟨crop0, h0⟩ := clearPlaneScalar_state s lp ref
  have e0 := clearPlaneScalar_extends s lp ref
  unfold ValidateForDisplayScaling at h
  dsimp only at h
  split at h
  · cases h
    exact ⟨e0, ⟨false, crop0, h0⟩, fun hu => by rw [h0] at hu; simp at hu⟩
  · split at h
    · cases h
      exact ⟨e0, ⟨false, crop0, h0⟩, fun hu => by rw [h0] at hu; simp at hu⟩
    · rename_i hlen hrej
      split at h
      · cases h
      · split at h
        · cases h
          refine ⟨e0.trans ((resetSurfaceCrops_extends _ _ _ _).trans
            (resetSurfaceCrops_extends _ _ _ _)), ⟨false, lp.displayFrame, ?_⟩, ?_⟩
          · rw [h0]; rfl
          · intro hu; rw [h0] at hu; simp [DisplayPlaneState.ResetSourceRectToDisplayFrame,
              DisplayPlaneState.SetSourceCrop] at hu
        · cases h
          refine ⟨e0.trans ((resetSurfaceCrops_extends _ _ _ _).trans
            (Store.updateLayer_extends _ _ _ (fun _ => rfl))), ⟨true, cur.sourceCrop, ?_⟩, ?_⟩
          · rw [h0]; rfl
          · intro _
            exact ⟨by omega, by simpa using hrej⟩

theorem ValidateForDisplayScaling_total (env : Env) (s : Store) (c : List OverlayPlane)
    (lp : DisplayPlaneState) (ref : LayerRef) (cur : OverlayLayer) (ig : Bool)
    (h : lp.surfaces ≠ [] ∨ 1 < lp.sourceLayers.length) :
    ∃ r, ValidateForDisplayScaling env s c lp ref cur ig = some r := by
  obtain ⟨crop0, h0⟩ := clearPlaneScalar_state s lp ref
  unfold ValidateForDisplayScaling
  dsimp only
  split
  · exact ⟨_, rfl⟩
  · split
    · exact ⟨_, rfl⟩
    · rename_i hlen _
      have hs : lp.surfaces ≠ [] := by
        rcases h with h | h
        · exact h
        · exact absurd h hlen
      rw [h0]
      cases hsurf : lp.surfaces with
      | nil => exact absurd hsurf hs
      | cons a l =>
        simp only [DisplayPlaneState.GetOffScreenTarget, DisplayPlaneState.SetSourceCrop, hsurf,
          List.head?_cons]
        split <;> exact ⟨_, rfl⟩

theorem PlanesOk.mono {p0 : DisplayPlane} {s s' : Store} {planes : List DisplayPlane}
    (h : PlanesOk p0 s planes) (e : s.Extends s') : PlanesOk p0 s' planes :=
  ⟨h.head, h.nodup, fun q hq => e.planesInUse _ (h.inUse q hq)⟩

theorem StateOk.created {L0 : OverlayLayer} {n z : Nat} (plane : DisplayPlane) (ref : LayerRef)
    (l : OverlayLayer) (hz : z < n) (hraw : ∀ k, ref = LayerRef.layer k → k = z) :
    StateOk L0 n (DisplayPlaneState.create plane ref l z) :=
  ⟨fun h => by simp [DisplayPlaneState.create] at h,
   fun h => by simp [DisplayPlaneState.create] at h,
   fun z' h => by simp [DisplayPlaneState.create] at h; omega,
   by simp [DisplayPlaneState.create],
   fun k h => by simp [DisplayPlaneState.create] at h ⊢; exact hraw k h⟩

theorem StateOk.of_same {L0 : OverlayLayer} {n : Nat} {ps ps' : DisplayPlaneState}
    (h : StateOk L0 n ps) (hsrc : ps'.sourceLayers = ps.sourceLayers)
    (hraw : ps'.rawLayer = ps.rawLayer)
    (hu : ps'.usesPlaneScalar = true → ps.usesPlaneScalar = true)
    (ht : ps.surfaces ≠ [] → ps'.surfaces ≠ []) : StateOk L0 n ps' :=
  ⟨fun hl => ht (h.targets (hsrc ▸ hl)), fun hs => hsrc ▸ h.scalar (hu hs),
   fun z hz => h.bounded z (hsrc ▸ hz), hsrc ▸ h.nonempty, fun k hk => hsrc ▸ h.raw k (hraw ▸ hk)⟩

theorem StateOk.of_folded {L0 : OverlayLayer} {n : Nat} {ps ps' : DisplayPlaneState}
    {zs : List Nat} (h : StateOk L0 n ps) (hsrc : ps'.sourceLayers = ps.sourceLayers ++ zs)
    (hz : ∀ z ∈ zs, z < n) (hraw : ps'.rawLayer = ps.rawLayer)
    (hu : ps'.usesPlaneScalar = false) (ht : ps'.surfaces ≠ []) : StateOk L0 n ps' :=
  ⟨fun _ => ht, fun hs => by simp [hu] at hs,
   fun z hzm => by
     rw [hsrc, List.mem_append] at hzm
     rcases hzm with hzm | hzm
     · exact h.bounded z hzm
     · exact hz z hzm,
   by rw [hsrc]; simp [h.nonempty],
   fun k hk => by
     rw [hsrc, List.mem_append]
     exact Or.inl (h.raw k (hraw ▸ hk))⟩

theorem drop_zorder {all : List OverlayLayer}
    (hz : all.map OverlayLayer.zorder = List.range all.length) {i : Nat} {l : OverlayLayer}
    {ls : List OverlayLayer} (h : all.drop i = l :: ls) :
    l.zorder = i ∧ i < all.length ∧ all.drop (i + 1) = ls := by
  have hlt : i < all.length := by
    by_contra hc
    rw [List.drop_eq_nil_of_le (by omega)] at h
    cases h
  have h1 : (all.drop i).map OverlayLayer.zorder = (List.range all.length).drop i := by
    rw [← hz, List.map_drop]
  have h2 : ((all.drop i).map OverlayLayer.zorder)[0]? = some l.zorder := by
    rw [h]; simp
  rw [h1] at h2
  have h3 : ((List.range all.length).drop i)[0]? = some i := by
    rw [List.getElem?_drop]
    simp [List.getElem?_range, hlt]
  rw [h3] at h2
  refine ⟨(Option.some.inj h2).symm, hlt, ?_⟩
  have : all.drop (i + 1) = (all.drop i).drop 1 := by
    rw [List.drop_drop]
  rw [this, h]; rfl

theorem acceptBinding_spec (s : Store) (j : DisplayPlane) (ref : LayerRef) (l : OverlayLayer)
    (fb : Bool) (c : List OverlayPlane) :
    (s.setInUse j).Extends (acceptBinding s j ref l fb c).1 ∧
    (acceptBinding s j ref l fb c).2.1.plane = j ∧
    (acceptBinding s j ref l fb c).2.1.sourceLayers = [l.zorder] ∧
    (acceptBinding s j ref l fb c).2.1.usesPlaneScalar = false ∧
    (acceptBinding s j ref l fb c).2.1.rawLayer = ref := by
  unfold acceptBinding
  dsimp only
  cases fb
  · exact ⟨Store.Extends.refl _, rfl, rfl, rfl, rfl⟩
  · obtain ⟨id, hid⟩ := ResetPlaneTarget_state (s.setInUse j)
      (if l.isVideo = true then (DisplayPlaneState.create j ref l l.zorder).SetVideoPlane
        else DisplayPlaneState.create j ref l l.zorder) c
    simp only [if_true]
    refine ⟨ResetPlaneTarget_extends _ _ _, ?_⟩
    rw [hid]
    split <;> exact ⟨rfl, rfl, rfl, rfl⟩

theorem foldLayer_spec (s : Store) (lp : DisplayPlaneState) (l : OverlayLayer) :
    s.Extends (foldLayer s lp l).1 ∧
    (foldLayer s lp l).2.plane = lp.plane ∧
    (foldLayer s lp l).2.sourceLayers = lp.sourceLayers ++ [l.zorder] ∧
    (foldLayer s lp l).2.usesPlaneScalar = lp.usesPlaneScalar ∧
    (foldLayer s lp l).2.rawLayer = lp.rawLayer ∧
    (foldLayer s lp l).2.surfaces ≠ [] := by
  unfold foldLayer
  dsimp only
  split
  · obtain ⟨id, hid⟩ := SetOffScreenPlaneTarget_state s (lp.AddLayer l)
    refine ⟨SetOffScreenPlaneTarget_extends _ _, ?_⟩
    rw [hid]
    exact ⟨rfl, rfl, rfl, rfl, by simp [DisplayPlaneState.SetOffScreenTarget,
      DisplayPlaneState.ForceGPURendering]⟩
  · rename_i hsome
    refine ⟨Store.Extends.refl _, rfl, rfl, rfl, rfl, ?_⟩
    intro hc
    simp only [DisplayPlaneState.GetOffScreenTarget, Option.isNone_iff_eq_none,
      List.head?_eq_none_iff] at hsome
    exact hsome hc

theorem PlanInv.next_plane {s0 : Store} {p0 : DisplayPlane} {L0 : OverlayLayer} {N : Nat}
    {all : List OverlayLayer} {j : DisplayPlane} {planes : List DisplayPlane} {i : Nat}
    {rem : List OverlayLayer} {p : Plan} (h : PlanInv s0 p0 L0 N all (j :: planes) i rem p) :
    PlanInv s0 p0 L0 N all planes i rem p :=
  { h with
    fresh := fun ps hps q hq => h.fresh ps hps q (List.mem_cons_of_mem _ hq)
    availNodup := by
      have := h.availNodup
      simp only [List.map_cons, List.nodup_cons] at this
      exact this.2 }

theorem overlayLayerLoop_inv (env : Env) (rve : Bool) {s0 : Store} {p0 : DisplayPlane}
    {L0 : OverlayLayer} {N : Nat} {all : List OverlayLayer}
    (hz : all.map OverlayLayer.zorder = List.range all.length) (j : DisplayPlane)
    (planes : List DisplayPlane) :
    ∀ (rem : List OverlayLayer) (i : Nat) (p : Plan),
      PlanInv s0 p0 L0 N all (j :: planes) i rem p →
      PlanInv s0 p0 L0 N all planes (overlayLayerLoop env rve j i rem p).2.1
        (overlayLayerLoop env rve j i rem p).2.2 (overlayLayerLoop env rve j i rem p).1 := by
  intro rem
  induction rem with
  | nil =>
    intro i p h
    simp only [overlayLayerLoop]
    exact h.next_plane
  | cons l ls ih =>
    intro i p h
    obtain ⟨hzl, hlt, hdrop⟩ := drop_zorder hz h.position
    rw [overlayLayerLoop]
    dsimp only
    generalize (if (rve && l.isVideo) = true then true
      else FallbacktoGPU env p.store j (LayerRef.layer i)
        (p.commit_planes ++ [{ plane := j, layer := LayerRef.layer i }])) = fb
    by_cases hacc : (!fb || p.prefer_seperate_plane || l.preferSeparatePlane) = true
    · -- the binding is accepted: a new plane state on `j`
      rw [if_pos hacc]
      have hjfresh : ∀ ps ∈ p.composition, ps.plane.id ≠ j.id :=
        fun ps hps => h.fresh ps hps j (List.mem_cons_self _ _)
      have hjn : ∀ q ∈ planes, j.id ≠ q.id := by
        have := h.availNodup
        simp only [List.map_cons, List.nodup_cons, List.mem_map, not_exists, not_and] at this
        intro q hq hc
        exact this.1 q hq hc.symm
      obtain ⟨hext, hplane, hsrc, hus, hraw⟩ := acceptBinding_spec p.store j (LayerRef.layer i) l
        fb (p.commit_planes ++ [{ plane := j, layer := LayerRef.layer i }])
      rw [hzl] at hsrc
      generalize acceptBinding p.store j (LayerRef.layer i) l _ _ = r at hext hplane hsrc hus hraw
      obtain ⟨s', ns, c'⟩ := r
      dsimp only at hext hplane hsrc hus hraw ⊢
      have hcomp : ∀ q : Plan, q.below = p.below ++ [p.last_plane] → q.last_plane = ns →
          q.composition = p.composition ++ [ns] := by
        intro q h1 h2
        simp [Plan.composition, h1, h2]
      have hsto : p.store.Extends s' := (p.store.setInUse_extends j).trans hext
      refine
        { ext := h.ext.trans hsto
          bound := h.bound
          position := hdrop
          le := hlt
          planes := ?_
          states := ?_
          fresh := ?_
          availNodup := h.next_plane.availNodup
          scalarPrefer := fun hu => by simp [hus] at hu
          sources := ?_ }
      · rw [hcomp _ rfl rfl]
        refine ⟨?_, ?_, ?_⟩
        · have := h.planes.head
          rw [List.map_append, List.head?_append, this]; rfl
        · rw [List.map_append, List.map_append, List.nodup_append]
          refine ⟨h.planes.nodup, by simp, ?_⟩
          intro a ha hb
          simp only [List.map_cons, List.map_nil, List.mem_singleton] at hb
          simp only [List.mem_map] at ha
          obtain ⟨q, ⟨ps, hps, rfl⟩, rfl⟩ := ha
          exact hjfresh ps hps (by rw [hb, hplane])
        · intro q hq
          rw [List.map_append, List.mem_append] at hq
          rcases hq with hq | hq
          · exact hsto.planesInUse _ (h.planes.inUse q hq)
          · simp only [List.map_cons, List.map_nil, List.mem_singleton] at hq
            rw [hq, hplane]
            exact hext.planesInUse _ (List.mem_cons_self _ _)
      · rw [hcomp _ rfl rfl]
        intro ps hps
        rw [List.mem_append] at hps
        rcases hps with hps | hps
        · exact h.states ps hps
        · simp only [List.mem_singleton] at hps
          subst hps
          exact ⟨fun hl => by simp [hsrc] at hl, fun hu => by simp [hus] at hu,
            fun z hzm => by have := h.bound; simp [hsrc] at hzm; omega, by simp [hsrc],
            fun k hk => by rw [hraw] at hk; cases hk; simp [hsrc]⟩
      · rw [hcomp _ rfl rfl]
        intro ps hps q hq
        rw [List.mem_append] at hps
        rcases hps with hps | hps
        · exact h.fresh ps hps q (List.mem_cons_of_mem _ hq)
        · simp only [List.mem_singleton] at hps
          subst hps
          rw [hplane]
          exact hjn q hq
      · rw [hcomp _ rfl rfl, List.flatMap_append, h.sources]
        simp [hsrc, List.range_succ]
    · -- the layer is folded into the last plane state
      rw [if_neg hacc]
      have hpref : p.prefer_seperate_plane = false := by
        cases hp : p.prefer_seperate_plane
        · rfl
        · simp [hp] at hacc
      have hlu : p.last_plane.usesPlaneScalar = false := by
        cases hu : p.last_plane.usesPlaneScalar
        · rfl
        · have := h.scalarPrefer hu
          rw [hpref] at this
          cases this
      have hlast : p.last_plane ∈ p.composition := by simp [Plan.composition]
      obtain ⟨hext, hplane, hsrc, hus', hraw, hsurf⟩ := foldLayer_spec p.store p.last_plane l
      rw [hzl] at hsrc
      rw [hlu] at hus'
      have hus := hus'
      generalize foldLayer p.store p.last_plane l = r at hext hplane hsrc hus hraw hsurf
      obtain ⟨s', ns⟩ := r
      dsimp only at hext hplane hsrc hus hraw hsurf ⊢
      apply ih
      refine
        { ext := h.ext.trans hext
          bound := h.bound
          position := hdrop
          le := hlt
          planes := ?_
          states := ?_
          fresh := ?_
          availNodup := h.availNodup
          scalarPrefer := fun hu => by simp [hus] at hu
          sources := ?_ }
      · show PlanesOk p0 s' ((p.below ++ [ns]).map DisplayPlaneState.plane)
        have : (p.below ++ [ns]).map DisplayPlaneState.plane =
            p.composition.map DisplayPlaneState.plane := by
          simp [Plan.composition, hplane]
        rw [this]
        exact h.planes.mono hext
      · show ∀ ps ∈ p.below ++ [ns], StateOk L0 N ps
        intro ps hps
        rw [List.mem_append] at hps
        rcases hps with hps | hps
        · exact h.states ps (by simp [Plan.composition, hps])
        · simp only [List.mem_singleton] at hps
          subst hps
          exact (h.states _ hlast).of_folded hsrc (by have := h.bound; simp; omega) hraw hus
            hsurf
      · show ∀ ps ∈ p.below ++ [ns], ∀ q ∈ j :: planes, ps.plane.id ≠ q.id
        intro ps hps q hq
        rw [List.mem_append] at hps
        rcases hps with hps | hps
        · exact h.fresh ps (by simp [Plan.composition, hps]) q hq
        · simp only [List.mem_singleton] at hps
          subst hps
          rw [hplane]
          exact h.fresh _ hlast q hq
      · show (p.below ++ [ns]).flatMap DisplayPlaneState.sourceLayers = List.range (i + 1)
        have := h.sources
        simp only [Plan.composition, List.flatMap_append] at this
        simp only [List.flatMap_append, List.flatMap_cons, List.flatMap_nil,
          List.append_nil] at this ⊢
        rw [hsrc, ← List.append_assoc, this, List.range_succ]

theorem overlayPlaneLoop_inv (env : Env) (rve : Bool) {s0 : Store} {p0 : DisplayPlane}
    {L0 : OverlayLayer} {N : Nat} {all : List OverlayLayer}
    (hz : all.map OverlayLayer.zorder = List.range all.length) :
    ∀ (planes : List DisplayPlane) (i : Nat) (rem : List OverlayLayer) (p : Plan),
      PlanInv s0 p0 L0 N all planes i rem p →
      PlanInv s0 p0 L0 N all [] (overlayPlaneLoop env rve planes i rem p).2.1
        (overlayPlaneLoop env rve planes i rem p).2.2
        (overlayPlaneLoop env rve planes i rem p).1 := by
  intro planes
  induction planes with
  | nil =>
    intro i rem p h
    simpa only [overlayPlaneLoop] using h
  | cons j planes ih =>
    intro i rem p h
    rw [overlayPlaneLoop]
    split
    · exact ih _ _ _ h.next_plane
    · exact ih _ _ _ (overlayLayerLoop_inv env rve hz j planes rem i p h)

theorem foldl_AddLayer (ls : List OverlayLayer) (ps : DisplayPlaneState) :
    ls.foldl DisplayPlaneState.AddLayer ps =
      { ps with sourceLayers := ps.sourceLayers ++ ls.map OverlayLayer.zorder,
                forceGpu := ps.forceGpu || !ls.isEmpty } := by
  induction ls generalizing ps with
  | nil => simp
  | cons l ls ih =>
    rw [List.foldl_cons, ih]
    simp [DisplayPlaneState.AddLayer]

theorem retargetLastPlane_spec (s : Store) (lp : DisplayPlaneState) (v : Bool)
    (c : List OverlayPlane) :
    s.Extends (retargetLastPlane s lp v c).1 ∧
    (retargetLastPlane s lp v c).2.1.plane = lp.plane ∧
    (retargetLastPlane s lp v c).2.1.sourceLayers = lp.sourceLayers ∧
    (retargetLastPlane s lp v c).2.1.usesPlaneScalar = lp.usesPlaneScalar ∧
    (retargetLastPlane s lp v c).2.1.rawLayer = lp.rawLayer ∧
    (retargetLastPlane s lp v c).2.1.surfaces ≠ [] := by
  unfold retargetLastPlane
  dsimp only
  generalize (v && decide (lp.sourceLayers.length > 1) && lp.GetOffScreenTarget.isSome) = fbuf
  cases fbuf
  · simp only [Bool.false_eq_true, if_false, Bool.or_false]
    split
    · obtain ⟨id, hid⟩ := ResetPlaneTarget_state s lp c
      refine ⟨ResetPlaneTarget_extends _ _ _, ?_⟩
      rw [hid]
      exact ⟨rfl, rfl, rfl, rfl, by simp [DisplayPlaneState.SetOffScreenTarget,
        DisplayPlaneState.ForceGPURendering]⟩
    · rename_i hsome
      refine ⟨Store.Extends.refl _, rfl, rfl, rfl, rfl, ?_⟩
      intro hc
      simp only [DisplayPlaneState.GetOffScreenTarget, Option.isNone_iff_eq_none,
        List.head?_eq_none_iff] at hsome
      exact hsome hc
  · simp only [if_true, Bool.or_true]
    obtain ⟨id, hid⟩ := ResetPlaneTarget_state
      (match lp.GetOffScreenTarget with
        | some surface => s.updateSurface surface (fun fb => fb.SetInUse false)
        | none => s) { lp with surfaces := [] } c
    refine ⟨?_, ?_⟩
    · refine Store.Extends.trans ?_ (ResetPlaneTarget_extends _ _ _)
      split
      · exact s.updateSurface_extends _ _
      · exact Store.Extends.refl s
    · rw [hid]
      exact ⟨rfl, rfl, rfl, rfl, by simp [DisplayPlaneState.SetOffScreenTarget,
        DisplayPlaneState.ForceGPURendering]⟩

theorem range_append_drop {n i : Nat} (h : i ≤ n) :
    List.range i ++ (List.range n).drop i = List.range n := by
  have h1 : (List.range n).take i = List.range i := by
    rw [List.take_range, Nat.min_eq_left h]
  rw [← h1, List.take_append_drop]

theorem spillOver_spec (env : Env) {s0 : Store} {p0 : DisplayPlane} {L0 : OverlayLayer} {N : Nat}
    {all : List OverlayLayer} (hz : all.map OverlayLayer.zorder = List.range all.length)
    {i : Nat} {rem : List OverlayLayer} (render : Bool) {p : Plan}
    (h : PlanInv s0 p0 L0 N all [] i rem p) :
    ∃ p' b, spillOver env i rem render p = some (p', b) ∧
      CompInv s0 p0 L0 N p'.store p'.composition ∧
      p'.composition.flatMap DisplayPlaneState.sourceLayers = List.range all.length := by
  have hlast : p.last_plane ∈ p.composition := by simp [Plan.composition]
  have hrem : rem.map OverlayLayer.zorder = (List.range all.length).drop i := by
    rw [← h.position, List.map_drop, hz]
  have hsrcs := h.sources
  simp only [Plan.composition, List.flatMap_append, List.flatMap_cons, List.flatMap_nil,
    List.append_nil] at hsrcs
  cases hr : rem with
  | nil =>
    have hin : i = all.length := by
      have := h.position
      rw [hr] at this
      have hle := h.le
      have := List.drop_eq_nil_iff.mp this
      omega
    have e1 : ([] : List OverlayLayer).foldl DisplayPlaneState.AddLayer p.last_plane =
        p.last_plane := rfl
    have e2 : ({ p with last_plane := p.last_plane } : Plan) = p := rfl
    refine ⟨p, if p.last_plane.NeedsOffScreenComposition then true else render, ?_,
      ⟨h.ext, h.planes, h.states⟩, ?_⟩
    · unfold spillOver
      simp only [e1, List.getLast?_nil]
      split <;> rfl
    · rw [h.sources, hin]
  | cons l ls =>
    rw [← hr]
    have hne : rem ≠ [] := by rw [hr]; simp
    obtain ⟨prev, hprev⟩ : ∃ prev, rem.getLast? = some prev := by
      cases hg : rem.getLast? with
      | none => exact absurd (List.getLast?_eq_none_iff.mp hg) hne
      | some a => exact ⟨a, rfl⟩
    have hfold := foldl_AddLayer rem p.last_plane
    have hneeds : (rem.foldl DisplayPlaneState.AddLayer p.last_plane).NeedsOffScreenComposition
        = true := by
      rw [hfold]
      simp [DisplayPlaneState.NeedsOffScreenComposition, hr]
    obtain ⟨hext, hplane, hsrc, hus, hraw, hsurf⟩ :=
      retargetLastPlane_spec p.store (rem.foldl DisplayPlaneState.AddLayer p.last_plane)
        p.last_plane.videoPlane p.commit_planes
    obtain ⟨r, hv⟩ := ValidateForDisplayScaling_total env
      (retargetLastPlane p.store (rem.foldl DisplayPlaneState.AddLayer p.last_plane)
        p.last_plane.videoPlane p.commit_planes).1
      (retargetLastPlane p.store (rem.foldl DisplayPlaneState.AddLayer p.last_plane)
        p.last_plane.videoPlane p.commit_planes).2.2
      (retargetLastPlane p.store (rem.foldl DisplayPlaneState.AddLayer p.last_plane)
        p.last_plane.videoPlane p.commit_planes).2.1
      (LayerRef.layer (i + rem.length - 1)) prev false (Or.inl hsurf)
    obtain ⟨hext2, ⟨u, crop, hsame⟩, hscal⟩ := ValidateForDisplayScaling_spec hv
    obtain ⟨s3, c3, last3⟩ := r
    dsimp only at hext2 hsame hscal
    have hsrc3 : last3.sourceLayers = p.last_plane.sourceLayers ++ rem.map OverlayLayer.zorder := by
      rw [hsame]
      show (retargetLastPlane p.store (rem.foldl DisplayPlaneState.AddLayer p.last_plane)
        p.last_plane.videoPlane p.commit_planes).2.1.sourceLayers = _
      rw [hsrc, hfold]
    have hlen : 2 ≤ (retargetLastPlane p.store (rem.foldl DisplayPlaneState.AddLayer
        p.last_plane) p.last_plane.videoPlane p.commit_planes).2.1.sourceLayers.length := by
      rw [hsrc, hfold]
      have := (h.states _ hlast).nonempty
      have h1 : 0 < p.last_plane.sourceLayers.length := List.length_pos.mpr this
      simp only [List.length_append, List.length_map]
      have h2 : 0 < rem.length := List.length_pos.mpr hne
      omega
    have hus3 : last3.usesPlaneScalar = false := by
      cases hu3 : last3.usesPlaneScalar
      · rfl
      · have := (hscal hu3).1
        omega
    refine ⟨{ p with store := s3, last_plane := last3, commit_planes := c3 }, true, ?_, ?_, ?_⟩
    · unfold spillOver
      simp only [hneeds, if_true, hprev, hv]
    · refine ⟨h.ext.trans (hext.trans hext2), ?_, ?_⟩
      · show PlanesOk p0 s3 ((p.below ++ [last3]).map DisplayPlaneState.plane)
        have : (p.below ++ [last3]).map DisplayPlaneState.plane =
            p.composition.map DisplayPlaneState.plane := by
          have hp3 : last3.plane = p.last_plane.plane := by
            rw [hsame]
            show (retargetLastPlane p.store (rem.foldl DisplayPlaneState.AddLayer p.last_plane)
              p.last_plane.videoPlane p.commit_planes).2.1.plane = _
            rw [hplane, hfold]
          simp [Plan.composition, hp3]
        rw [this]
        exact h.planes.mono (hext.trans hext2)
      · show ∀ ps ∈ p.below ++ [last3], StateOk L0 N ps
        intro ps hps
        rw [List.mem_append] at hps
        rcases hps with hps | hps
        · exact h.states ps (by simp [Plan.composition, hps])
        · simp only [List.mem_singleton] at hps
          subst hps
          refine (h.states _ hlast).of_folded hsrc3 ?_ ?_ hus3 ?_
          · intro z hzm
            rw [hrem] at hzm
            have := List.mem_of_mem_drop hzm
            have hb := h.bound
            simp only [List.mem_range] at this
            omega
          · rw [hsame]
            show (retargetLastPlane p.store (rem.foldl DisplayPlaneState.AddLayer p.last_plane)
              p.last_plane.videoPlane p.commit_planes).2.1.rawLayer = _
            rw [hraw, hfold]
          · rw [hsame]
            exact hsurf
    · show (p.below ++ [last3]).flatMap DisplayPlaneState.sourceLayers = _
      simp only [List.flatMap_append, List.flatMap_cons, List.flatMap_nil, List.append_nil]
      rw [hsrc3, ← List.append_assoc, hsrcs, hrem, range_append_drop h.le]

theorem lastUsedScan_spec (m : DisplayPlaneManager) :
    ∀ (rev above : List DisplayPlaneState)
      (r : List DisplayPlaneState × DisplayPlaneState × List DisplayPlaneState),
      lastUsedScan m rev above = some r →
      rev.reverse ++ above = r.1 ++ r.2.1 :: r.2.2 ∧ isCursorOnly m r.2.1 = false := by
  intro rev
  induction rev with
  | nil => intro above r h; simp [lastUsedScan] at h
  | cons ps below ih =>
    intro above r h
    rw [lastUsedScan] at h
    split at h
    · obtain ⟨h1, h2⟩ := ih _ _ h
      refine ⟨?_, h2⟩
      rw [← h1]
      simp
    · rename_i hc
      cases h
      exact ⟨by simp, by simpa using hc⟩

theorem lastUsedScan_total (m : DisplayPlaneManager) :
    ∀ (rev above : List DisplayPlaneState),
      (∃ ps ∈ rev, isCursorOnly m ps = false) → ∃ r, lastUsedScan m rev above = some r := by
  intro rev
  induction rev with
  | nil => intro above h; obtain ⟨ps, hps, _⟩ := h; cases hps
  | cons ps below ih =>
    intro above h
    rw [lastUsedScan]
    split
    · rename_i hc
      apply ih
      obtain ⟨q, hq, hqc⟩ := h
      rcases List.mem_cons.mp hq with rfl | hq
      · rw [hc] at hqc; cases hqc
      · exact ⟨q, hq, hqc⟩
    · exact ⟨_, rfl⟩

theorem GetLastUsedOverlay_spec {m : DisplayPlaneManager} {composition : List DisplayPlaneState}
    {r : List DisplayPlaneState × DisplayPlaneState × List DisplayPlaneState}
    (h : GetLastUsedOverlay m composition = some r) :
    composition = r.1 ++ r.2.1 :: r.2.2 ∧ isCursorOnly m r.2.1 = false := by
  have := lastUsedScan_spec m _ _ _ h
  simpa using this

theorem GetLastUsedOverlay_total {m : DisplayPlaneManager}
    {composition : List DisplayPlaneState}
    (h : ∃ ps ∈ composition, isCursorOnly m ps = false) :
    ∃ r, GetLastUsedOverlay m composition = some r := by
  apply lastUsedScan_total
  obtain ⟨ps, hps, hc⟩ := h
  exact ⟨ps, List.mem_reverse.mpr hps, hc⟩

theorem isCursorOnly_congr {m m' : DisplayPlaneManager} {a b : DisplayPlaneState}
    (hm : m'.cursorPlane = m.cursorPlane) (hp : b.plane = a.plane) :
    isCursorOnly m' b = isCursorOnly m a := by
  unfold isCursorOnly
  rw [hm, hp]

theorem PreparePlaneForCursor_spec (s : Store) (lp : DisplayPlaneState) (v : Bool) :
    s.Extends (PreparePlaneForCursor s lp v).1 ∧
    (PreparePlaneForCursor s lp v).2.plane = lp.plane ∧
    (PreparePlaneForCursor s lp v).2.sourceLayers = lp.sourceLayers ∧
    (PreparePlaneForCursor s lp v).2.usesPlaneScalar = lp.usesPlaneScalar ∧
    (PreparePlaneForCursor s lp v).2.rawLayer = lp.rawLayer ∧
    (PreparePlaneForCursor s lp v).2.surfaces ≠ [] := by
  unfold PreparePlaneForCursor
  dsimp only
  have e1 : s.Extends (match lp.GetOffScreenTarget with
      | some surface => if v = true then s.updateSurface surface (fun fb => fb.SetInUse false)
                        else s
      | none => s) := by
    split
    · split
      · exact s.updateSurface_extends _ _
      · exact Store.Extends.refl s
    · exact Store.Extends.refl s
  generalize (match lp.GetOffScreenTarget with
      | some surface => if v = true then s.updateSurface surface (fun fb => fb.SetInUse false)
                        else s
      | none => s) = s1 at e1
  split
  · obtain ⟨id, hid⟩ := SetOffScreenPlaneTarget_state s1 lp
    refine ⟨e1.trans ((SetOffScreenPlaneTarget_extends _ _).trans
      (Store.updateSurfaces_extends _ _ _)), ?_⟩
    rw [hid]
    exact ⟨rfl, rfl, rfl, rfl, by simp [DisplayPlaneState.SetOffScreenTarget,
      DisplayPlaneState.ForceGPURendering]⟩
  · rename_i hsome
    refine ⟨e1.trans (Store.updateSurfaces_extends _ _ _), rfl, rfl, rfl, rfl, ?_⟩
    intro hc
    simp only [Bool.or_eq_true, not_or, Option.isNone_iff_eq_none,
      DisplayPlaneState.GetOffScreenTarget, List.head?_eq_none_iff] at hsome
    exact hsome.1 hc

theorem CompInv.replace {s0 : Store} {p0 : DisplayPlane} {L0 : OverlayLayer} {n : Nat}
    {s s' : Store} {b a : List DisplayPlaneState} {l l' : DisplayPlaneState}
    (h : CompInv s0 p0 L0 n s (b ++ l :: a)) (e : s.Extends s') (hp : l'.plane = l.plane)
    (hl : StateOk L0 n l') : CompInv s0 p0 L0 n s' (b ++ l' :: a) := by
  refine ⟨h.ext.trans e, ?_, ?_⟩
  · have : (b ++ l' :: a).map DisplayPlaneState.plane =
        (b ++ l :: a).map DisplayPlaneState.plane := by simp [hp]
    rw [this]
    exact h.planes.mono e
  · intro ps hps
    rw [List.mem_append, List.mem_cons] at hps
    rcases hps with hps | rfl | hps
    · exact h.states ps (by simp [hps])
    · exact hl
    · exact h.states ps (by simp [hps])

theorem CompInv.append {s0 : Store} {p0 : DisplayPlane} {L0 : OverlayLayer} {n : Nat}
    {s s' : Store} {composition : List DisplayPlaneState} {ns : DisplayPlaneState}
    (h : CompInv s0 p0 L0 n s composition) (e : s.Extends s')
    (hin : ns.plane.id ∈ s'.mgr.planesInUse) (hnot : ns.plane.id ∉ s.mgr.planesInUse)
    (hl : StateOk L0 n ns) : CompInv s0 p0 L0 n s' (composition ++ [ns]) := by
  refine ⟨h.ext.trans e, ⟨?_, ?_, ?_⟩, ?_⟩
  · rw [List.map_append, List.head?_append, h.planes.head]; rfl
  · rw [List.map_append, List.map_append, List.nodup_append]
    refine ⟨h.planes.nodup, by simp, ?_⟩
    intro x hx hy
    simp only [List.map_cons, List.map_nil, List.mem_singleton] at hy
    obtain ⟨q, hq, rfl⟩ := List.mem_map.mp hx
    exact hnot (hy ▸ h.planes.inUse q hq)
  · intro q hq
    rw [List.map_append, List.mem_append] at hq
    rcases hq with hq | hq
    · exact e.planesInUse _ (h.planes.inUse q hq)
    · simp only [List.map_cons, List.map_nil, List.mem_singleton] at hq
      rw [hq]
      exact hin
  · intro ps hps
    rw [List.mem_append] at hps
    rcases hps with hps | hps
    · exact h.states ps hps
    · simp only [List.mem_singleton] at hps
      exact hps ▸ hl

theorem foldCursorLayer_inv (env : Env) {s0 : Store} {p0 : DisplayPlane} {L0 : OverlayLayer}
    {n : Nat} {p : CursorPlan} (h : CursorInv s0 p0 L0 n p) (ref : LayerRef)
    (c : OverlayLayer) (hc : c.zorder < n) :
    ∃ p', foldCursorLayer env p ref c = some p' ∧ CursorInv s0 p0 L0 n p' := by
  have e1 := p.store.updateLayer_extends ref OverlayLayer.GPURendered (fun _ => rfl)
  obtain ⟨hext, hplane, hsrc, hus, hraw, hsurf⟩ :=
    PreparePlaneForCursor_spec (p.store.updateLayer ref OverlayLayer.GPURendered)
      (p.last_plane.AddLayer c) p.is_video
  unfold foldCursorLayer
  dsimp only
  generalize (if ((p.last_plane.AddLayer c).GetOffScreenTarget.isNone || p.is_video) = true then
      List.map DisplayPlaneState.binding
        (p.below ++ (PreparePlaneForCursor (p.store.updateLayer ref OverlayLayer.GPURendered)
          (p.last_plane.AddLayer c) p.is_video).2 :: p.above)
      else p.commit_planes) = commit2
  obtain ⟨r, hv⟩ := ValidateForDisplayScaling_total env
    (PreparePlaneForCursor (p.store.updateLayer ref OverlayLayer.GPURendered)
      (p.last_plane.AddLayer c) p.is_video).1 commit2
    (PreparePlaneForCursor (p.store.updateLayer ref OverlayLayer.GPURendered)
      (p.last_plane.AddLayer c) p.is_video).2 ref c false (Or.inl hsurf)
  obtain ⟨hext2, ⟨u, crop, hsame⟩, hscal⟩ := ValidateForDisplayScaling_spec hv
  obtain ⟨s3, c3, last3⟩ := r
  dsimp only at hext2 hsame hscal
  rw [hv]
  refine ⟨_, rfl, ?_⟩
  have hlast : p.last_plane ∈ p.composition := by simp [CursorPlan.composition]
  have hl := h.comp.states _ hlast
  have hp3 : last3.plane = p.last_plane.plane := by rw [hsame]; exact hplane
  have hsrc3 : last3.sourceLayers = p.last_plane.sourceLayers ++ [c.zorder] := by
    rw [hsame]; exact hsrc
  have hus3 : last3.usesPlaneScalar = false := by
    cases hu3 : last3.usesPlaneScalar
    · rfl
    · have h1 := (hscal hu3).1
      rw [hsrc] at h1
      have h2 : 0 < p.last_plane.sourceLayers.length := List.length_pos.mpr hl.nonempty
      simp only [DisplayPlaneState.AddLayer, List.length_append, List.length_singleton] at h1
      omega
  have hext3 := e1.trans (hext.trans hext2)
  refine ⟨?_, ?_⟩
  · exact h.comp.replace hext3 hp3
      (hl.of_folded hsrc3 (by simpa using hc) (by rw [hsame]; exact hraw) hus3
        (by rw [hsame]; exact hsurf))
  · show isCursorOnly s3.mgr last3 = false
    rw [isCursorOnly_congr hext3.cursorPlane hp3]
    exact h.lastOk

theorem acceptCursorLayer_inv {s0 : Store} {p0 : DisplayPlane} {L0 : OverlayLayer}
    {n : Nat} {p : CursorPlan} (h : CursorInv s0 p0 L0 n p) (plane : DisplayPlane) (k : Nat)
    (c : OverlayLayer) (commit1 : List OverlayPlane) (hc : c.zorder < n)
    (hfree : p.store.InUse plane = false) :
    ∃ p', acceptCursorLayer p plane (LayerRef.cursor k) c commit1 = some p' ∧
      CursorInv s0 p0 L0 n p' := by
  have hlast : p.last_plane ∈ p.composition := by simp [CursorPlan.composition]
  have hcomp : CompInv s0 p0 L0 n (p.store.setInUse plane)
      (p.composition ++ [DisplayPlaneState.create plane (LayerRef.cursor k) c c.zorder]) := by
    refine h.comp.append (p.store.setInUse_extends plane) (List.mem_cons_self _ _) ?_
      (StateOk.created _ _ _ hc (fun _ hk => by cases hk))
    simpa [Store.InUse, DisplayPlaneState.create] using hfree
  have hlastOk : isCursorOnly (p.store.setInUse plane).mgr p.last_plane = false :=
    (isCursorOnly_congr rfl rfl).trans h.lastOk
  obtain ⟨r, hr⟩ := @GetLastUsedOverlay_total (p.store.setInUse plane).mgr
    (p.composition ++ [DisplayPlaneState.create plane (LayerRef.cursor k) c c.zorder])
    ⟨p.last_plane, List.mem_append_left _ hlast, hlastOk⟩
  obtain ⟨hsplit, hok⟩ := GetLastUsedOverlay_spec hr
  obtain ⟨b, l, a⟩ := r
  unfold acceptCursorLayer
  dsimp only at hsplit hok ⊢
  rw [hr]
  refine ⟨_, rfl, ⟨?_, hok⟩⟩
  show CompInv s0 p0 L0 n (p.store.setInUse plane) (b ++ l :: a)
  rw [← hsplit]
  exact hcomp

theorem cursorPlaneLoop_inv (env : Env) {s0 : Store} {p0 : DisplayPlane} {L0 : OverlayLayer}
    {n : Nat} :
    ∀ (planes : List DisplayPlane) (k : Nat) (cs : List OverlayLayer) (p : CursorPlan),
      CursorInv s0 p0 L0 n p → (∀ c ∈ cs, c.zorder < n) →
      ∃ r, cursorPlaneLoop env planes k cs p = some r ∧ CursorInv s0 p0 L0 n r.1 ∧
        (∀ c ∈ r.2.2, c.zorder < n) := by
  intro planes
  induction planes with
  | nil =>
    intro k cs p h hcs
    exact ⟨_, by rw [cursorPlaneLoop], h, hcs⟩
  | cons plane planes ih =>
    intro k cs p h hcs
    cases cs with
    | nil => exact ⟨_, by rw [cursorPlaneLoop], h, hcs⟩
    | cons c cs =>
      rw [cursorPlaneLoop]
      by_cases huse : p.store.InUse plane = true
      · rw [if_pos huse]
        exact ⟨_, rfl, h, hcs⟩
      · rw [if_neg huse]
        split
        · exact ih _ _ _ h hcs
        · dsimp only
          have hc : c.zorder < n := hcs c (List.mem_cons_self _ _)
          have hcs' : ∀ c' ∈ cs, c'.zorder < n := fun c' hc' => hcs c' (List.mem_cons_of_mem _ hc')
          have hstep : ∃ p1,
              (if FallbacktoGPU env p.store plane (LayerRef.cursor k)
                    (p.commit_planes ++ [{ plane := plane, layer := LayerRef.cursor k }]) = true
                then foldCursorLayer env p (LayerRef.cursor k) c
                else acceptCursorLayer p plane (LayerRef.cursor k) c
                  (p.commit_planes ++ [{ plane := plane, layer := LayerRef.cursor k }])) =
                some p1 ∧ CursorInv s0 p0 L0 n p1 := by
            split
            · exact foldCursorLayer_inv env h _ c hc
            · exact acceptCursorLayer_inv h plane k c _ hc (by simpa using huse)
          obtain ⟨p1, hp1, hinv⟩ := hstep
          rw [hp1]
          exact ih _ _ _ hinv hcs'

theorem foldCursors_spec :
    ∀ (cs : List OverlayLayer) (i : Nat) (s : Store) (lp : DisplayPlaneState),
      s.Extends (foldCursors i cs s lp).1 ∧
      (foldCursors i cs s lp).2 =
        { lp with sourceLayers := lp.sourceLayers ++ cs.map OverlayLayer.zorder,
                  forceGpu := lp.forceGpu || !cs.isEmpty } := by
  intro cs
  induction cs with
  | nil => intro i s lp; simp [foldCursors, Store.Extends.refl]
  | cons c cs ih =>
    intro i s lp
    rw [foldCursors]
    obtain ⟨h1, h2⟩ := ih (i + 1) (s.updateLayer (LayerRef.cursor i) OverlayLayer.GPURendered)
      (lp.AddLayer c)
    refine ⟨(s.updateLayer_extends (LayerRef.cursor i) OverlayLayer.GPURendered
      (fun _ => rfl)).trans h1, ?_⟩
    rw [h2]
    simp [DisplayPlaneState.AddLayer]

theorem ValidateCursorLayer_nil (env : Env) (s : Store) (composition : List DisplayPlaneState)
    (h : s.cursorLayers = []) :
    ValidateCursorLayer env s composition = some (false, s, composition) := by
  unfold ValidateCursorLayer
  simp [h]

theorem ValidateCursorLayer_spec (env : Env) {s0 : Store} {p0 : DisplayPlane}
    {L0 : OverlayLayer} {n : Nat} {s : Store} {composition : List DisplayPlaneState}
    (h : CompInv s0 p0 L0 n s composition)
    (hcur : ∀ c ∈ s.cursorLayers, c.zorder < n)
    (hp0 : ∀ c, s0.mgr.cursorPlane = some c → c.id ≠ p0.id) :
    ∃ r, ValidateCursorLayer env s composition = some r ∧
      CompInv s0 p0 L0 n r.2.1 r.2.2 := by
  unfold ValidateCursorLayer
  split
  · exact ⟨_, rfl, h⟩
  · -- the primary plane state is not on a cursor-only plane
    have hex : ∃ ps ∈ composition, isCursorOnly s.mgr ps = false := by
      have hh := h.planes.head
      cases hcomp : composition with
      | nil => rw [hcomp] at hh; cases hh
      | cons first rest =>
        rw [hcomp] at hh
        simp only [List.map_cons, List.head?_cons, Option.some.injEq] at hh
        refine ⟨first, List.mem_cons_self _ _, ?_⟩
        unfold isCursorOnly
        rw [h.ext.cursorPlane]
        cases hcp : s0.mgr.cursorPlane with
        | none => rfl
        | some c =>
          have := hp0 c hcp
          simp [hh, this]
    obtain ⟨r0, hr0⟩ := GetLastUsedOverlay_total hex
    obtain ⟨hsplit, hok⟩ := GetLastUsedOverlay_spec hr0
    obtain ⟨b, l, a⟩ := r0
    dsimp only at hsplit hok
    rw [hr0]
    dsimp only
    have hinv0 : CursorInv s0 p0 L0 n
        { store := s, below := b, last_plane := l, above := a,
          commit_planes := composition.map DisplayPlaneState.binding,
          is_video := l.videoPlane, status := false } :=
      ⟨by show CompInv s0 p0 L0 n s (b ++ l :: a); rw [← hsplit]; exact h, hok⟩
    obtain ⟨r1, hr1, hinv1, hcs1⟩ := cursorPlaneLoop_inv env s.mgr.overlayPlanes.reverse 0
      s.cursorLayers _ hinv0 hcur
    obtain ⟨p, k, cs⟩ := r1
    dsimp only at hinv1 hcs1
    rw [hr1]
    dsimp only
    have hlast : p.last_plane ∈ p.composition := by simp [CursorPlan.composition]
    have hl := hinv1.comp.states _ hlast
    obtain ⟨hfe, hfs⟩ := foldCursors_spec cs k p.store p.last_plane
    cases hg : cs.getLast? with
    | none =>
      have hnil : cs = [] := List.getLast?_eq_none_iff.mp hg
      subst hnil
      refine ⟨_, rfl, ?_⟩
      have : (foldCursors k [] p.store p.last_plane) = (p.store, p.last_plane) := rfl
      rw [this]
      exact hinv1.comp
    | some last_layer =>
      have hne : cs ≠ [] := by intro hc; rw [hc] at hg; cases hg
      obtain ⟨hext, hplane, hsrc, hus, hraw, hsurf⟩ :=
        PreparePlaneForCursor_spec (foldCursors k cs p.store p.last_plane).1
          (foldCursors k cs p.store p.last_plane).2 p.is_video
      obtain ⟨r, hv⟩ := ValidateForDisplayScaling_total env
        (PreparePlaneForCursor (foldCursors k cs p.store p.last_plane).1
          (foldCursors k cs p.store p.last_plane).2 p.is_video).1 p.commit_planes
        (PreparePlaneForCursor (foldCursors k cs p.store p.last_plane).1
          (foldCursors k cs p.store p.last_plane).2 p.is_video).2
        (LayerRef.cursor (k + cs.length - 1)) last_layer false (Or.inl hsurf)
      obtain ⟨hext2, ⟨u, crop, hsame⟩, hscal⟩ := ValidateForDisplayScaling_spec hv
      obtain ⟨s3, c3, last3⟩ := r
      dsimp only at hext2 hsame hscal
      dsimp only
      rw [hv]
      refine ⟨_, rfl, ?_⟩
      dsimp only
      have hsrc3 : last3.sourceLayers =
          p.last_plane.sourceLayers ++ cs.map OverlayLayer.zorder := by
        rw [hsame]
        show (PreparePlaneForCursor _ _ _).2.sourceLayers = _
        rw [hsrc, hfs]
      have hlen : 0 < cs.length := List.length_pos.mpr hne
      have hus3 : last3.usesPlaneScalar = false := by
        cases hu3 : last3.usesPlaneScalar
        · rfl
        · have h1 := (hscal hu3).1
          rw [hsrc, hfs] at h1
          have h2 : 0 < p.last_plane.sourceLayers.length := List.length_pos.mpr hl.nonempty
          simp only [List.length_append, List.length_map] at h1
          omega
      refine hinv1.comp.replace (hfe.trans (hext.trans hext2)) ?_
        (hl.of_folded hsrc3 ?_ ?_ hus3 ?_)
      · rw [hsame]
        show (PreparePlaneForCursor _ _ _).2.plane = _
        rw [hplane, hfs]
      · intro z hzm
        obtain ⟨c, hc, rfl⟩ := List.mem_map.mp hzm
        exact hcs1 c hc
      · rw [hsame]
        show (PreparePlaneForCursor _ _ _).2.rawLayer = _
        rw [hraw, hfs]
      · rw [hsame]
        exact hsurf

theorem ensureTargets_spec :
    ∀ (composition : List DisplayPlaneState) (s : Store),
      s.Extends (ensureTargets composition s).1 ∧
      List.Forall₂ DisplayPlaneState.Retargeted composition (ensureTargets composition s).2 := by
  intro composition
  induction composition with
  | nil => intro s; exact ⟨Store.Extends.refl s, List.Forall₂.nil⟩
  | cons ps rest ih =>
    intro s
    rw [ensureTargets]
    dsimp only
    split
    · rename_i hc
      obtain ⟨id, hid⟩ := EnsureOffScreenTarget_state s ps
      obtain ⟨h1, h2⟩ := ih (EnsureOffScreenTarget s ps).1
      refine ⟨(EnsureOffScreenTarget_extends s ps).trans h1, List.Forall₂.cons ?_ h2⟩
      rw [hid]
      exact ⟨[id], rfl, fun _ => by simp⟩
    · rename_i hc
      obtain ⟨h1, h2⟩ := ih s
      refine ⟨h1, List.Forall₂.cons ⟨[], rfl, ?_⟩ h2⟩
      intro hf
      simp only [DisplayPlaneState.NeedsOffScreenComposition, hf, Bool.true_and,
        Option.isNone_iff_eq_none, DisplayPlaneState.GetOffScreenTarget,
        List.head?_eq_none_iff] at hc
      simpa using hc

theorem StateOk.retargeted {L0 : OverlayLayer} {n : Nat} {a b : DisplayPlaneState}
    (h : StateOk L0 n a) (hr : a.Retargeted b) : StateOk L0 n b := by
  obtain ⟨ids, rfl, _⟩ := hr
  exact h.of_same rfl rfl (fun hu => hu) (fun hs => by simp [hs])

theorem Forall₂_retargeted_map {α : Type} (f : DisplayPlaneState → α)
    (hf : ∀ a b, DisplayPlaneState.Retargeted a b → f b = f a)
    {l l' : List DisplayPlaneState} (h : List.Forall₂ DisplayPlaneState.Retargeted l l') :
    l'.map f = l.map f := by
  induction h with
  | nil => rfl
  | cons hab _ ih => simp [hf _ _ hab, ih]

theorem Forall₂_retargeted_mem {l l' : List DisplayPlaneState}
    (h : List.Forall₂ DisplayPlaneState.Retargeted l l') :
    ∀ b ∈ l', ∃ a ∈ l, DisplayPlaneState.Retargeted a b := by
  induction h with
  | nil => intro b hb; cases hb
  | cons hab _ ih =>
    intro b hb
    rcases List.mem_cons.mp hb with rfl | hb
    · exact ⟨_, List.mem_cons_self _ _, hab⟩
    · obtain ⟨a, ha, hr⟩ := ih b hb
      exact ⟨a, List.mem_cons_of_mem _ ha, hr⟩

theorem ensureTargets_inv {s0 : Store} {p0 : DisplayPlane} {L0 : OverlayLayer} {n : Nat}
    {s : Store} {composition : List DisplayPlaneState}
    (h : CompInv s0 p0 L0 n s composition) :
    CompInv s0 p0 L0 n (ensureTargets composition s).1 (ensureTargets composition s).2 := by
  obtain ⟨h1, h2⟩ := ensureTargets_spec composition s
  refine ⟨h.ext.trans h1, ?_, ?_⟩
  · rw [Forall₂_retargeted_map DisplayPlaneState.plane
      (fun a b hr => by obtain ⟨ids, rfl, _⟩ := hr; rfl) h2]
    exact h.planes.mono h1
  · intro b hb
    obtain ⟨a, ha, hr⟩ := Forall₂_retargeted_mem h2 b hb
    exact (h.states a ha).retargeted hr

theorem ensureTargets_sources (composition : List DisplayPlaneState) (s : Store) :
    (ensureTargets composition s).2.flatMap DisplayPlaneState.sourceLayers =
      composition.flatMap DisplayPlaneState.sourceLayers := by
  obtain ⟨_, h2⟩ := ensureTargets_spec composition s
  have := Forall₂_retargeted_map DisplayPlaneState.sourceLayers
      (fun a b hr => by obtain ⟨ids, rfl, _⟩ := hr; rfl) h2
  simp only [List.flatMap, this]

theorem releaseTargets_extends :
    ∀ (composition : List DisplayPlaneState) (s : Store),
      s.Extends (releaseTargets composition s) := by
  intro composition
  induction composition with
  | nil => intro s; exact Store.Extends.refl s
  | cons ps rest ih =>
    intro s
    rw [releaseTargets]
    split
    · exact (s.updateSurface_extends _ _).trans (ih _)
    · exact ih s

theorem ValidateFinalLayers_spec (env : Env) {s0 : Store} {p0 : DisplayPlane}
    {L0 : OverlayLayer} {N : Nat} {s : Store} {composition : List DisplayPlaneState}
    (h : CompInv s0 p0 L0 N s composition) (hN : s0.layers.length ≤ N)
    (hz : s0.layers.map OverlayLayer.zorder = List.range s0.layers.length)
    (hne : s0.layers ≠ []) (hp : s0.mgr.primaryPlane = some p0) :
    ∃ r, ValidateFinalLayers env s composition = some r ∧
      CompInv s0 p0 L0 N r.1 r.2 ∧
      (finalTestCommit env s composition = true → r = ensureTargets composition s) ∧
      (finalTestCommit env s composition = false → IsCollapsed p0 s0.layers.length r.2) := by
  have hinv := ensureTargets_inv h
  unfold ValidateFinalLayers finalTestCommit
  dsimp only
  cases htc : env.testCommit ((ensureTargets composition s).1.view
      ((ensureTargets composition s).2.map DisplayPlaneState.binding))
  · simp only [Bool.not_false, if_true]
    have hrel := releaseTargets_extends (ensureTargets composition s).2
      (ensureTargets composition s).1
    have hext := hinv.ext.trans hrel
    generalize releaseTargets (ensureTargets composition s).2 (ensureTargets composition s).1
      = s1 at hrel hext
    have hpp : s1.mgr.primaryPlane = some p0 := by rw [hext.primaryPlane, hp]
    have hlz : s1.layers.map OverlayLayer.zorder = List.range s0.layers.length := by
      rw [hext.layers, hz]
    cases hl : s1.layers with
    | nil =>
      rw [hl] at hlz
      have : s0.layers.length = 0 := by
        have := congrArg List.length hlz
        simpa using this.symm
      exact absurd (List.length_eq_zero.mp this) hne
    | cons primary_layer rest =>
      rw [hpp]
      dsimp only
      obtain ⟨id, hid⟩ := EnsureOffScreenTarget_state (s1.setInUse p0)
        (rest.foldl DisplayPlaneState.AddLayer
          (DisplayPlaneState.create p0 (LayerRef.layer 0) primary_layer
            primary_layer.zorder).ForceGPURendering)
      have hee := EnsureOffScreenTarget_extends (s1.setInUse p0)
        (rest.foldl DisplayPlaneState.AddLayer
          (DisplayPlaneState.create p0 (LayerRef.layer 0) primary_layer
            primary_layer.zorder).ForceGPURendering)
      rw [hl] at hlz
      have hsrc : primary_layer.zorder :: rest.map OverlayLayer.zorder =
          List.range s0.layers.length := by simpa using hlz
      have hpos : 0 < s0.layers.length := List.length_pos.mpr hne
      have hcol : IsCollapsed p0 s0.layers.length
          [(EnsureOffScreenTarget (s1.setInUse p0)
            (rest.foldl DisplayPlaneState.AddLayer
              (DisplayPlaneState.create p0 (LayerRef.layer 0) primary_layer
                primary_layer.zorder).ForceGPURendering)).2] := by
        refine ⟨_, rfl, ?_⟩
        rw [hid, foldl_AddLayer]
        refine ⟨rfl, ?_, by simp [DisplayPlaneState.SetOffScreenTarget], ?_, rfl, rfl⟩
        · simpa [DisplayPlaneState.SetOffScreenTarget, DisplayPlaneState.create,
            DisplayPlaneState.ForceGPURendering] using hsrc
        · simp [DisplayPlaneState.SetOffScreenTarget, DisplayPlaneState.create,
            DisplayPlaneState.ForceGPURendering]
      refine ⟨_, rfl, ?_, fun hc => absurd hc (by decide), fun _ => hcol⟩
      obtain ⟨ps, hps, hplane, hsrcs, hsurf, hforce, huse, hraw⟩ := hcol
      dsimp only
      rw [hps]
      refine ⟨?_, ⟨?_, ?_, ?_⟩, ?_⟩
      · refine hext.trans ((s1.setInUse_extends p0).trans (hee.trans ?_))
        exact ⟨rfl, rfl, rfl, fun _ hi => hi, rfl, rfl⟩
      · simp [hplane]
      · simp
      · intro q hq
        simp only [List.map_cons, List.map_nil, List.mem_singleton] at hq
        rw [hq, hplane]
        show p0.id ∈ (ReleaseFreeOffScreenTargets _).planesInUse
        exact hee.planesInUse _ (List.mem_cons_self _ _)
      · intro q hq
        simp only [List.mem_singleton] at hq
        subst hq
        exact ⟨fun _ => hsurf, fun hu => by simp [huse] at hu,
          fun z hzm => by rw [hsrcs, List.mem_range] at hzm; omega,
          by rw [hsrcs]; intro hc; rw [List.range_eq_nil] at hc; omega,
          fun k hk => by rw [hraw] at hk; cases hk; rw [hsrcs]; simpa using hpos⟩
  · simp only [Bool.not_true, Bool.false_eq_true, if_false]
    exact ⟨_, rfl, hinv, fun _ => rfl, fun hc => absurd hc (by decide)⟩

theorem modifyAt_getElem? {α : Type} (f : α → α) :
    ∀ (l : List α) (i k : Nat),
      (modifyAt f i l)[k]? = if k = i then l[k]?.map f else l[k]? := by
  intro l
  induction l with
  | nil => intro i k; cases i <;> simp [modifyAt]
  | cons a l ih =>
    intro i k
    cases i with
    | zero =>
      cases k with
      | zero => simp [modifyAt]
      | succ k => simp [modifyAt]
    | succ i =>
      cases k with
      | zero => simp [modifyAt]
      | succ k => simp [modifyAt, ih]

theorem Marked.unchanged (layers : List OverlayLayer) : Marked (fun _ => False) layers layers :=
  ⟨rfl, fun _ l h => ⟨l, h, rfl, fun _ => rfl, fun hm => hm.elim False.elim id⟩⟩

theorem Marked.congr {M M' : Nat → Prop} {a b : List OverlayLayer} (h : Marked M a b)
    (hm : ∀ k, M k ↔ M' k) : Marked M' a b := by
  refine ⟨h.1, fun k l hl => ?_⟩
  obtain ⟨l', h1, h2, h3, h4⟩ := h.2 k l hl
  exact ⟨l', h1, h2, fun hn => h3 (fun hc => hn ((hm k).mp hc)),
    fun hc => h4 (hc.imp_left (hm k).mpr)⟩

theorem Marked.andThen {M1 M2 : Nat → Prop} {a b c : List OverlayLayer} (h1 : Marked M1 a b)
    (h2 : Marked M2 b c) : Marked (fun k => M1 k ∨ M2 k) a c := by
  refine ⟨h2.1.trans h1.1, fun k l hl => ?_⟩
  obtain ⟨l1, e1, z1, u1, g1⟩ := h1.2 k l hl
  obtain ⟨l2, e2, z2, u2, g2⟩ := h2.2 k l1 e1
  refine ⟨l2, e2, z2.trans z1, ?_, ?_⟩
  · intro hn
    rw [u2 (fun hc => hn (Or.inr hc)), u1 (fun hc => hn (Or.inl hc))]
  · rintro ((hm | hm) | hg)
    · exact g2 (Or.inr (g1 (Or.inl hm)))
    · exact g2 (Or.inl hm)
    · exact g2 (Or.inr (g1 (Or.inr hg)))

theorem markSourceLayers_spec (u : Bool) :
    ∀ (src : List Nat) (layers : List OverlayLayer), (∀ z ∈ src, z < layers.length) →
      ∃ r, markSourceLayers u src layers = some r ∧ Marked (fun k => k ∈ src) layers r := by
  intro src
  induction src with
  | nil =>
    intro layers _
    exact ⟨layers, rfl, (Marked.unchanged layers).congr (fun k => by simp)⟩
  | cons i src ih =>
    intro layers hb
    have hi : i < layers.length := hb i (List.mem_cons_self _ _)
    rw [markSourceLayers]
    have hget : layers[i]? = some layers[i] := List.getElem?_eq_getElem hi
    rw [hget]
    dsimp only
    have hstep : Marked (fun k => k = i) layers
        (modifyAt (fun layer => layer.GPURendered.UsePlaneScalar u) i layers) := by
      refine ⟨modifyAt_length _ _ _, fun k l hl => ?_⟩
      rw [modifyAt_getElem?]
      by_cases hk : k = i
      · rw [if_pos hk, hl]
        exact ⟨_, rfl, rfl, fun hn => absurd hk hn, fun _ => rfl⟩
      · rw [if_neg hk]
        exact ⟨l, hl, rfl, fun _ => rfl, fun hc => hc.elim (fun h => absurd h hk) id⟩
    obtain ⟨r, hr, hm⟩ := ih (modifyAt (fun layer => layer.GPURendered.UsePlaneScalar u) i layers)
      (fun z hz => by rw [modifyAt_length]; exact hb z (List.mem_cons_of_mem _ hz))
    exact ⟨r, hr, (hstep.andThen hm).congr (fun k => by simp)⟩

theorem markRendered_spec :
    ∀ (composition : List DisplayPlaneState) (layers : List OverlayLayer),
      (∀ ps ∈ composition, ∀ z ∈ ps.sourceLayers, z < layers.length) →
      ∃ r, markRendered composition layers = some r ∧
        Marked (fun k => ∃ ps ∈ composition, ps.forceGpu = true ∧ k ∈ ps.sourceLayers)
          layers r := by
  intro composition
  induction composition with
  | nil =>
    intro layers _
    exact ⟨layers, rfl, (Marked.unchanged layers).congr (fun k => by simp)⟩
  | cons ps rest ih =>
    intro layers hb
    rw [markRendered]
    by_cases hn : ps.NeedsOffScreenComposition = true
    · rw [if_pos hn]
      obtain ⟨r1, hr1, hm1⟩ := markSourceLayers_spec ps.usesPlaneScalar ps.sourceLayers layers
        (hb ps (List.mem_cons_self _ _))
      rw [hr1]
      dsimp only
      obtain ⟨r, hr, hm⟩ := ih r1 (fun q hq z hz => by
        rw [hm1.1]; exact hb q (List.mem_cons_of_mem _ hq) z hz)
      refine ⟨r, hr, (hm1.andThen hm).congr (fun k => ?_)⟩
      simp only [List.mem_cons, exists_eq_or_imp]
      constructor
      · rintro (h | h)
        · exact Or.inl ⟨hn, h⟩
        · exact Or.inr h
      · rintro (⟨_, h⟩ | h)
        · exact Or.inl h
        · exact Or.inr h
    · rw [if_neg hn]
      obtain ⟨r, hr, hm⟩ := ih layers (fun q hq z hz => hb q (List.mem_cons_of_mem _ hq) z hz)
      refine ⟨r, hr, hm.congr (fun k => ?_)⟩
      simp only [List.mem_cons, exists_eq_or_imp]
      constructor
      · exact fun h => Or.inr h
      · rintro (⟨hf, _⟩ | h)
        · exact absurd hf hn
        · exact h

theorem Store.view_setInUse (s : Store) (j : DisplayPlane) (c : List OverlayPlane) :
    (s.setInUse j).view c = s.view c := rfl

theorem FallbacktoGPU_false {env : Env} {s : Store} {j : DisplayPlane} {ref : LayerRef}
    {c : List OverlayPlane} (h : FallbacktoGPU env s j ref c = false) :
    env.testCommit (s.view c) = true := by
  unfold FallbacktoGPU at h
  split at h
  · cases h
  · split at h
    · cases h
    · split at h
      · cases h
      · rename_i hc
        simpa using hc

theorem acceptBinding_forced (s : Store) (j : DisplayPlane) (ref : LayerRef) (l : OverlayLayer)
    (c : List OverlayPlane) : (acceptBinding s j ref l true c).2.1.forceGpu = true := by
  unfold acceptBinding
  dsimp only
  obtain ⟨id, hid⟩ := ResetPlaneTarget_state (s.setInUse j)
    (if l.isVideo = true then (DisplayPlaneState.create j ref l l.zorder).SetVideoPlane
      else DisplayPlaneState.create j ref l l.zorder) c
  simp only [if_true]
  rw [hid]
  rfl

theorem foldLayer_forced (s : Store) (lp : DisplayPlaneState) (l : OverlayLayer) :
    (foldLayer s lp l).2.forceGpu = true := by
  unfold foldLayer
  dsimp only
  split
  · obtain ⟨id, hid⟩ := SetOffScreenPlaneTarget_state s (lp.AddLayer l)
    rw [hid]
    rfl
  · rfl

theorem overlayLayerLoop_tested (env : Env) (rve : Bool) (j : DisplayPlane) :
    ∀ (rem : List OverlayLayer) (i : Nat) (p : Plan), p.Tested env →
      (overlayLayerLoop env rve j i rem p).1.Tested env ∧
      (Clean (overlayLayerLoop env rve j i rem p).1.composition → Clean p.composition) := by
  intro rem
  induction rem with
  | nil =>
    intro i p h
    simp only [overlayLayerLoop]
    exact ⟨h, fun hc => hc⟩
  | cons l ls ih =>
    intro i p h
    rw [overlayLayerLoop]
    dsimp only
    by_cases hrv : (rve && l.isVideo) = true
    · -- a video layer under `request_video_effect` always falls back
      rw [if_pos hrv]
      by_cases hacc : (!true || p.prefer_seperate_plane || l.preferSeparatePlane) = true
      · rw [if_pos hacc]
        have hf := acceptBinding_forced p.store j (LayerRef.layer i) l
          (p.commit_planes ++ [{ plane := j, layer := LayerRef.layer i }])
        have hnot : ¬ Clean (p.below ++ [p.last_plane] ++
            [(acceptBinding p.store j (LayerRef.layer i) l true
              (p.commit_planes ++ [{ plane := j, layer := LayerRef.layer i }])).2.1]) := by
          intro hc
          have := hc _ (List.mem_append_right _ (List.mem_singleton.mpr rfl))
          rw [hf] at this
          cases this
        exact ⟨fun hc => absurd hc hnot, fun hc => absurd hc hnot⟩
      · rw [if_neg hacc]
        have hf := foldLayer_forced p.store p.last_plane l
        have hnot : ¬ Clean (p.below ++ [(foldLayer p.store p.last_plane l).2]) := by
          intro hc
          have := hc _ (List.mem_append_right _ (List.mem_singleton.mpr rfl))
          rw [hf] at this
          cases this
        obtain ⟨h1, h2⟩ := ih (i + 1)
          { p with store := (foldLayer p.store p.last_plane l).1,
                   last_plane := (foldLayer p.store p.last_plane l).2 }
          (fun hc => absurd hc hnot)
        exact ⟨h1, fun hc => absurd (h2 hc) hnot⟩
    · rw [if_neg hrv]
      cases hfb : FallbacktoGPU env p.store j (LayerRef.layer i)
          (p.commit_planes ++ [{ plane := j, layer := LayerRef.layer i }])
      · -- scanned out directly
        simp only [Bool.not_false, Bool.true_or, if_true]
        have htc := FallbacktoGPU_false hfb
        refine ⟨?_, ?_⟩
        · intro hc
          have hcp : Clean p.composition :=
            fun ps hps => hc ps (List.mem_append_left _ hps)
          obtain ⟨hcommit0, _⟩ := h hcp
          have hcommit : p.commit_planes =
              (p.below ++ [p.last_plane]).map DisplayPlaneState.binding := hcommit0
          refine ⟨?_, ?_⟩
          · show p.commit_planes ++ [{ plane := j, layer := LayerRef.layer i }] =
              (p.below ++ [p.last_plane] ++
                [DisplayPlaneState.create j (LayerRef.layer i) l l.zorder]).map
                DisplayPlaneState.binding
            rw [List.map_append, ← hcommit]
            rfl
          · exact htc
        · intro hc ps hps
          exact hc ps (List.mem_append_left _ hps)
      · by_cases hacc : (!true || p.prefer_seperate_plane || l.preferSeparatePlane) = true
        · rw [if_pos hacc]
          have hf := acceptBinding_forced p.store j (LayerRef.layer i) l
            (p.commit_planes ++ [{ plane := j, layer := LayerRef.layer i }])
          have hnot : ¬ Clean (p.below ++ [p.last_plane] ++
              [(acceptBinding p.store j (LayerRef.layer i) l true
                (p.commit_planes ++ [{ plane := j, layer := LayerRef.layer i }])).2.1]) := by
            intro hc
            have := hc _ (List.mem_append_right _ (List.mem_singleton.mpr rfl))
            rw [hf] at this
            cases this
          exact ⟨fun hc => absurd hc hnot, fun hc => absurd hc hnot⟩
        · rw [if_neg hacc]
          have hf := foldLayer_forced p.store p.last_plane l
          have hnot : ¬ Clean (p.below ++ [(foldLayer p.store p.last_plane l).2]) := by
            intro hc
            have := hc _ (List.mem_append_right _ (List.mem_singleton.mpr rfl))
            rw [hf] at this
            cases this
          obtain ⟨h1, h2⟩ := ih (i + 1)
            { p with store := (foldLayer p.store p.last_plane l).1,
                     last_plane := (foldLayer p.store p.last_plane l).2 }
            (fun hc => absurd hc hnot)
          exact ⟨h1, fun hc => absurd (h2 hc) hnot⟩

theorem overlayPlaneLoop_tested (env : Env) (rve : Bool) :
    ∀ (planes : List DisplayPlane) (i : Nat) (rem : List OverlayLayer) (p : Plan),
      p.Tested env →
      (overlayPlaneLoop env rve planes i rem p).1.Tested env ∧
      (Clean (overlayPlaneLoop env rve planes i rem p).1.composition →
        Clean p.composition) := by
  intro planes
  induction planes with
  | nil =>
    intro i rem p h
    simp only [overlayPlaneLoop]
    exact ⟨h, fun hc => hc⟩
  | cons j planes ih =>
    intro i rem p h
    rw [overlayPlaneLoop]
    split
    · exact ih _ _ _ h
    · obtain ⟨h1, h2⟩ := overlayLayerLoop_tested env rve j rem i p h
      obtain ⟨h3, h4⟩ := ih (overlayLayerLoop env rve j i rem p).2.1
        (overlayLayerLoop env rve j i rem p).2.2 _ h1
      exact ⟨h3, fun hc => h2 (h4 hc)⟩

theorem retargetLastPlane_forced (s : Store) (lp : DisplayPlaneState) (v : Bool)
    (c : List OverlayPlane) (h : lp.forceGpu = true) :
    (retargetLastPlane s lp v c).2.1.forceGpu = true := by
  unfold retargetLastPlane
  dsimp only
  generalize (v && decide (lp.sourceLayers.length > 1) && lp.GetOffScreenTarget.isSome) = fbuf
  cases fbuf
  · simp only [Bool.false_eq_true, if_false, Bool.or_false]
    split
    · obtain ⟨id, hid⟩ := ResetPlaneTarget_state s lp c
      rw [hid]
      rfl
    · exact h
  · simp only [if_true, Bool.or_true]
    obtain ⟨id, hid⟩ := ResetPlaneTarget_state
      (match lp.GetOffScreenTarget with
        | some surface => s.updateSurface surface (fun fb => fb.SetInUse false)
        | none => s) { lp with surfaces := [] } c
    rw [hid]
    rfl

theorem spillOver_tested (env : Env) (i : Nat) (rem : List OverlayLayer) (render : Bool)
    {p p' : Plan} {b : Bool} (h : p.Tested env)
    (hs : spillOver env i rem render p = some (p', b)) : p'.Tested env := by
  cases rem with
  | nil =>
    unfold spillOver at hs
    simp only [List.foldl_nil, List.getLast?_nil] at hs
    split at hs
    · cases hs
      exact h
    · cases hs
      exact h
  | cons l ls =>
    have hfold := foldl_AddLayer (l :: ls) p.last_plane
    have hforce : ((l :: ls).foldl DisplayPlaneState.AddLayer p.last_plane).forceGpu = true := by
      rw [hfold]
      simp
    unfold spillOver at hs
    dsimp only at hs
    rw [show ((l :: ls).foldl DisplayPlaneState.AddLayer
      p.last_plane).NeedsOffScreenComposition = true from hforce] at hs
    simp only [if_true] at hs
    split at hs
    · rename_i prev hprev
      split at hs
      · cases hs
      · rename_i s3 c3 last3 hv
        cases hs
        obtain ⟨_, ⟨u, crop, hsame⟩, _⟩ := ValidateForDisplayScaling_spec hv
        have hf3 : last3.forceGpu = true := by
          have h0 := retargetLastPlane_forced p.store
            ((l :: ls).foldl DisplayPlaneState.AddLayer p.last_plane) p.last_plane.videoPlane
            p.commit_planes hforce
          have h1 : last3 = { (retargetLastPlane p.store
              ((l :: ls).foldl DisplayPlaneState.AddLayer p.last_plane) p.last_plane.videoPlane
              p.commit_planes).2.1 with usesPlaneScalar := u, sourceCrop := crop } := hsame
          rw [h1]
          exact h0
        intro hc
        have := hc last3 (by simp [Plan.composition])
        rw [hf3] at this
        cases this
    · rename_i hnone
      simp at hnone

theorem foldAllLayers_spec :
    ∀ (ls : List OverlayLayer) (i : Nat) (s : Store) (lp : DisplayPlaneState),
      s.Extends (foldAllLayers i ls s lp).1 ∧
      (foldAllLayers i ls s lp).2 =
        { lp with sourceLayers := lp.sourceLayers ++ ls.map OverlayLayer.zorder,
                  forceGpu := lp.forceGpu || !ls.isEmpty } := by
  intro ls
  induction ls with
  | nil => intro i s lp; simp [foldAllLayers, Store.Extends.refl]
  | cons c cs ih =>
    intro i s lp
    rw [foldAllLayers]
    obtain ⟨h1, h2⟩ := ih (i + 1) (s.updateLayer (LayerRef.layer i) OverlayLayer.GPURendered)
      (lp.AddLayer c)
    refine ⟨(s.updateLayer_extends (LayerRef.layer i) OverlayLayer.GPURendered
      (fun _ => rfl)).trans h1, ?_⟩
    rw [h2]
    simp [DisplayPlaneState.AddLayer]

theorem planOverlays_cases (env : Env) (rve : Bool) {m : DisplayPlaneManager}
    {p0 : DisplayPlane} {L0 : OverlayLayer} {N : Nat} {rest cursors : List OverlayLayer}
    (hz : (L0 :: rest).map OverlayLayer.zorder = List.range (L0 :: rest).length)
    (hcur : ∀ c ∈ cursors, c.zorder < N)
    (hp0 : ∀ c, m.cursorPlane = some c → c.id ≠ p0.id) (render : Bool) {p : Plan}
    (h : PlanInv (initialStore m (L0 :: rest) cursors) p0 L0 N (L0 :: rest)
      (p.store.mgr.overlayPlanes.drop 1) 1 rest p) :
    (rest = [] ∧ planOverlays env rve rest render p = some (Planned.returned
      { render_layers := render, composition := p.composition, store := p.store })) ∨
    (∃ r s composition,
      planOverlays env rve rest render p = some (Planned.proposed r s composition) ∧
      Produced m p0 L0 N (L0 :: rest) cursors s composition ∧
      (cursors = [] → p.Tested env → Clean composition →
        env.testCommit (s.view (composition.map DisplayPlaneState.binding)) = true)) := by
  unfold planOverlays
  cases hrest : rest with
  | nil => exact Or.inl ⟨rfl, rfl⟩
  | cons l ls =>
    rw [← hrest]
    have hlen : ¬ (rest.length + 1 == 1) = true := by simp [hrest]
    have hemp : (!rest.isEmpty) = true := by simp [hrest]
    rw [if_neg hlen]
    dsimp only
    rw [if_pos hemp]
    have hloop := overlayPlaneLoop_inv env rve hz _ _ _ _ h
    obtain ⟨p1, b, hsp, hinv, hsrc⟩ := spillOver_spec env hz render hloop
    rw [hsp]
    dsimp only
    have hcur1 : ∀ c ∈ p1.store.cursorLayers, c.zorder < N := by
      intro c hc
      have h1 : c.zorder ∈ p1.store.cursorLayers.map OverlayLayer.zorder :=
        List.mem_map_of_mem _ hc
      rw [hinv.ext.cursorLayers] at h1
      obtain ⟨c', hc', he⟩ := List.mem_map.mp h1
      rw [← he]
      exact hcur c' hc'
    obtain ⟨r, hr, hcinv⟩ := ValidateCursorLayer_spec env hinv hcur1 hp0
    rw [hr]
    obtain ⟨rc, s2, comp2⟩ := r
    have hnil1 : cursors = [] → p1.store.cursorLayers = [] := by
      intro hnil
      have := hinv.ext.cursorLayers
      rw [show (initialStore m (L0 :: rest) cursors).cursorLayers = cursors from rfl, hnil] at this
      simpa using this
    refine Or.inr ⟨_, _, _, rfl, ⟨hcinv, ?_⟩, ?_⟩
    · intro hnil
      rw [ValidateCursorLayer_nil env _ _ (hnil1 hnil)] at hr
      cases hr
      exact hsrc
    · intro hnil ht hclean
      rw [ValidateCursorLayer_nil env _ _ (hnil1 hnil)] at hr
      cases hr
      have ht1 := spillOver_tested env _ _ render
        (overlayPlaneLoop_tested env rve _ _ _ _ ht).1 hsp
      obtain ⟨hc1, hc2⟩ := ht1 hclean
      rw [← hc1]
      exact hc2

theorem planOverlays_spec (env : Env) (rve : Bool) {m : DisplayPlaneManager}
    {p0 : DisplayPlane} {L0 : OverlayLayer} {N : Nat} {rest cursors : List OverlayLayer}
    (hz : (L0 :: rest).map OverlayLayer.zorder = List.range (L0 :: rest).length)
    (hcur : ∀ c ∈ cursors, c.zorder < N)
    (hp0 : ∀ c, m.cursorPlane = some c → c.id ≠ p0.id) (render : Bool) {p : Plan}
    (h : PlanInv (initialStore m (L0 :: rest) cursors) p0 L0 N (L0 :: rest)
      (p.store.mgr.overlayPlanes.drop 1) 1 rest p) :
    ∃ pl, planOverlays env rve rest render p = some pl ∧
      match pl with
      | Planned.returned o => Produced m p0 L0 N (L0 :: rest) cursors o.store o.composition
      | Planned.proposed _ s composition => Produced m p0 L0 N (L0 :: rest) cursors s composition := by
  rcases planOverlays_cases env rve hz hcur hp0 render h with ⟨hrest, hpl⟩ | ⟨r, s, comp, hpl, hprod, _⟩
  · refine ⟨_, hpl, ?_⟩
    subst hrest
    exact ⟨⟨h.ext, h.planes, h.states⟩, fun _ => h.sources⟩
  · exact ⟨_, hpl, hprod⟩

theorem planLayers_cases (env : Env) (pm dis rve : Bool) {m : DisplayPlaneManager}
    {p0 : DisplayPlane} {L0 : OverlayLayer} {N : Nat} {rest : List OverlayLayer}
    (cursors : List OverlayLayer)
    (hv : ValidInput m p0 (L0 :: rest)) (hN : (L0 :: rest).length ≤ N) :
    (∃ o ps, planLayers env m (L0 :: rest) cursors pm dis [] rve = some (Planned.returned o) ∧
      Produced m p0 L0 N (L0 :: rest) cursors o.store o.composition ∧
      o.composition = [ps] ∧ ps.plane = p0) ∨
    (∃ render p, planLayers env m (L0 :: rest) cursors pm dis [] rve =
        planOverlays env rve rest render p ∧
      PlanInv (initialStore m (L0 :: rest) cursors) p0 L0 N (L0 :: rest)
        (p.store.mgr.overlayPlanes.drop 1) 1 rest p ∧
      p.below = [] ∧ p.last_plane.plane = p0 ∧ p.Tested env) := by
  have hz := hv.zorder
  have hz0 : L0.zorder = 0 := (drop_zorder hz (i := 0) rfl).1
  have hpos : 0 < N := by simp at hN; omega
  -- the planes after the primary one are distinct from it and from each other
  obtain ⟨others, hplanes⟩ : ∃ others, m.overlayPlanes = p0 :: others := by
    have := hv.planes
    cases hop : m.overlayPlanes with
    | nil => rw [hop] at this; cases this
    | cons a l => rw [hop] at this; cases this; exact ⟨l, rfl⟩
  have hnd := hv.distinct
  rw [hplanes, List.map_cons, List.nodup_cons] at hnd
  have s0 := initialStore m (L0 :: rest) cursors
  have base : ∀ (s : Store) (lp : DisplayPlaneState) (c : List OverlayPlane) (pref : Bool),
      ((initialStore m (L0 :: rest) cursors).setInUse p0).Extends s → lp.plane = p0 →
      StateOk L0 N lp → lp.sourceLayers = [0] → (lp.usesPlaneScalar = true → pref = true) →
      PlanInv (initialStore m (L0 :: rest) cursors) p0 L0 N (L0 :: rest)
        (s.mgr.overlayPlanes.drop 1) 1 rest
        { store := s, below := [], last_plane := lp, commit_planes := c,
          prefer_seperate_plane := pref } := by
    intro s lp c pref hext hplane hok hsrc hpref
    have hops : s.mgr.overlayPlanes = p0 :: others := by
      rw [hext.overlayPlanes]; exact hplanes
    refine
      { ext := (Store.setInUse_extends _ p0).trans hext
        bound := hN
        position := rfl
        le := by simp
        planes := ⟨by simp [Plan.composition, hplane], by simp [Plan.composition], ?_⟩
        states := by
          intro ps hps
          simp only [Plan.composition, List.nil_append, List.mem_singleton] at hps
          exact hps ▸ hok
        fresh := ?_
        availNodup := by rw [hops]; exact hnd.2
        scalarPrefer := hpref
        sources := by simp [Plan.composition, hsrc, List.range_succ] }
    · intro q hq
      simp only [Plan.composition, List.nil_append, List.map_cons, List.map_nil,
        List.mem_singleton] at hq
      rw [hq, hplane]
      exact hext.planesInUse _ (List.mem_cons_self _ _)
    · intro ps hps q hq
      simp only [Plan.composition, List.nil_append, List.mem_singleton] at hps
      rw [hops] at hq
      simp only [List.drop_succ_cons, List.drop_zero] at hq
      rw [hps, hplane]
      intro hc
      exact hnd.1 (List.mem_map.mpr ⟨q, hq, hc.symm⟩)
  have hcreated : StateOk L0 N
      (DisplayPlaneState.create p0 (LayerRef.layer 0) L0 L0.zorder) :=
    StateOk.created _ _ _ (by omega) (fun k hk => by cases hk; exact hz0.symm)
  unfold planLayers
  dsimp only
  rw [hv.primary]
  dsimp only
  split
  · split
    · -- everything is folded into the primary plane state (line 111)
      obtain ⟨hfe, hfs⟩ := foldAllLayers_spec rest 1
        ((initialStore m (L0 :: rest) cursors).setInUse p0)
        (DisplayPlaneState.create p0 (LayerRef.layer 0) L0 L0.zorder)
      obtain ⟨id, hid⟩ := ResetPlaneTarget_state
        (foldAllLayers 1 rest ((initialStore m (L0 :: rest) cursors).setInUse p0)
          (DisplayPlaneState.create p0 (LayerRef.layer 0) L0 L0.zorder)).1
        (foldAllLayers 1 rest ((initialStore m (L0 :: rest) cursors).setInUse p0)
          (DisplayPlaneState.create p0 (LayerRef.layer 0) L0 L0.zorder)).2
        [{ plane := p0, layer := LayerRef.layer 0 }]
      have hre := ResetPlaneTarget_extends
        (foldAllLayers 1 rest ((initialStore m (L0 :: rest) cursors).setInUse p0)
          (DisplayPlaneState.create p0 (LayerRef.layer 0) L0 L0.zorder)).1
        (foldAllLayers 1 rest ((initialStore m (L0 :: rest) cursors).setInUse p0)
          (DisplayPlaneState.create p0 (LayerRef.layer 0) L0 L0.zorder)).2
        [{ plane := p0, layer := LayerRef.layer 0 }]
      have hsrc : (L0.zorder :: rest.map OverlayLayer.zorder) =
          List.range (L0 :: rest).length := by simpa using hz
      have hfacts : (ResetPlaneTarget
          (foldAllLayers 1 rest ((initialStore m (L0 :: rest) cursors).setInUse p0)
            (DisplayPlaneState.create p0 (LayerRef.layer 0) L0 L0.zorder)).1
          (foldAllLayers 1 rest ((initialStore m (L0 :: rest) cursors).setInUse p0)
            (DisplayPlaneState.create p0 (LayerRef.layer 0) L0 L0.zorder)).2
          [{ plane := p0, layer := LayerRef.layer 0 }]).2.1 =
          { (DisplayPlaneState.create p0 (LayerRef.layer 0) L0 L0.zorder) with
            sourceLayers := List.range (L0 :: rest).length, surfaces := [id],
            forceGpu := true } := by
        rw [hid, hfs]
        simp only [DisplayPlaneState.SetOffScreenTarget, DisplayPlaneState.ForceGPURendering,
          DisplayPlaneState.create, List.singleton_append, hsrc]
      have hext := (Store.setInUse_extends _ p0).trans (hfe.trans hre)
      generalize ResetPlaneTarget
          (foldAllLayers 1 rest ((initialStore m (L0 :: rest) cursors).setInUse p0)
            (DisplayPlaneState.create p0 (LayerRef.layer 0) L0 L0.zorder)).1
          (foldAllLayers 1 rest ((initialStore m (L0 :: rest) cursors).setInUse p0)
            (DisplayPlaneState.create p0 (LayerRef.layer 0) L0 L0.zorder)).2
          [{ plane := p0, layer := LayerRef.layer 0 }] = r2 at hfacts hext hre
      refine Or.inl ⟨_, r2.2.1, rfl, ?_, rfl, by rw [hfacts]; rfl⟩
      show Produced m p0 L0 N (L0 :: rest) cursors r2.1 ([] ++ [r2.2.1])
      rw [hfacts]
      refine ⟨⟨hext, ⟨rfl, by simp, ?_⟩, ?_⟩, ?_⟩
      · intro q hq
        simp only [List.nil_append, List.map_cons, List.map_nil, List.mem_singleton] at hq
        rw [hq]
        exact (hfe.trans hre).planesInUse _ (List.mem_cons_self _ _)
      · intro ps hps
        simp only [List.nil_append, List.mem_singleton] at hps
        subst hps
        refine ⟨fun _ => by simp, fun hu => by simp [DisplayPlaneState.create] at hu, ?_,
          ?_, fun k hk => ?_⟩
        · intro z hzm
          simp only [List.mem_range] at hzm
          omega
        · simp
        · have : k = 0 := by simpa [DisplayPlaneState.create] using hk.symm
          simp [this]
      · intro _
        simp
    · -- the primary layer is composed alone (lines 113-123)
      rename_i hfall hpref
      have hpref' : L0.preferSeparatePlane = true := by
        simp only [Bool.or_eq_true, Bool.not_eq_true', not_or, Bool.not_eq_false] at hpref
        exact hpref.2
      obtain ⟨id, hid⟩ := ResetPlaneTarget_state
        ((initialStore m (L0 :: rest) cursors).setInUse p0)
        (if L0.isVideo = true then
          (DisplayPlaneState.create p0 (LayerRef.layer 0) L0 L0.zorder).SetVideoPlane
         else DisplayPlaneState.create p0 (LayerRef.layer 0) L0 L0.zorder)
        [{ plane := p0, layer := LayerRef.layer 0 }]
      have hre := ResetPlaneTarget_extends
        ((initialStore m (L0 :: rest) cursors).setInUse p0)
        (if L0.isVideo = true then
          (DisplayPlaneState.create p0 (LayerRef.layer 0) L0 L0.zorder).SetVideoPlane
         else DisplayPlaneState.create p0 (LayerRef.layer 0) L0 L0.zorder)
        [{ plane := p0, layer := LayerRef.layer 0 }]
      have hfacts : (ResetPlaneTarget ((initialStore m (L0 :: rest) cursors).setInUse p0)
          (if L0.isVideo = true then
            (DisplayPlaneState.create p0 (LayerRef.layer 0) L0 L0.zorder).SetVideoPlane
           else DisplayPlaneState.create p0 (LayerRef.layer 0) L0 L0.zorder)
          [{ plane := p0, layer := LayerRef.layer 0 }]).2.1.surfaces ≠ [] ∧
          (ResetPlaneTarget ((initialStore m (L0 :: rest) cursors).setInUse p0)
          (if L0.isVideo = true then
            (DisplayPlaneState.create p0 (LayerRef.layer 0) L0 L0.zorder).SetVideoPlane
           else DisplayPlaneState.create p0 (LayerRef.layer 0) L0 L0.zorder)
          [{ plane := p0, layer := LayerRef.layer 0 }]).2.1.plane = p0 ∧
          (ResetPlaneTarget ((initialStore m (L0 :: rest) cursors).setInUse p0)
          (if L0.isVideo = true then
            (DisplayPlaneState.create p0 (LayerRef.layer 0) L0 L0.zorder).SetVideoPlane
           else DisplayPlaneState.create p0 (LayerRef.layer 0) L0 L0.zorder)
          [{ plane := p0, layer := LayerRef.layer 0 }]).2.1.sourceLayers = [0] ∧
          (ResetPlaneTarget ((initialStore m (L0 :: rest) cursors).setInUse p0)
          (if L0.isVideo = true then
            (DisplayPlaneState.create p0 (LayerRef.layer 0) L0 L0.zorder).SetVideoPlane
           else DisplayPlaneState.create p0 (LayerRef.layer 0) L0 L0.zorder)
          [{ plane := p0, layer := LayerRef.layer 0 }]).2.1.rawLayer = LayerRef.layer 0 ∧
          (ResetPlaneTarget ((initialStore m (L0 :: rest) cursors).setInUse p0)
          (if L0.isVideo = true then
            (DisplayPlaneState.create p0 (LayerRef.layer 0) L0 L0.zorder).SetVideoPlane
           else DisplayPlaneState.create p0 (LayerRef.layer 0) L0 L0.zorder)
          [{ plane := p0, layer := LayerRef.layer 0 }]).2.1.forceGpu = true := by
        rw [hid]
        split <;> simp [DisplayPlaneState.SetOffScreenTarget,
          DisplayPlaneState.ForceGPURendering, DisplayPlaneState.create,
          DisplayPlaneState.SetVideoPlane, hz0]
      generalize ResetPlaneTarget ((initialStore m (L0 :: rest) cursors).setInUse p0)
          (if L0.isVideo = true then
            (DisplayPlaneState.create p0 (LayerRef.layer 0) L0 L0.zorder).SetVideoPlane
           else DisplayPlaneState.create p0 (LayerRef.layer 0) L0 L0.zorder)
          [{ plane := p0, layer := LayerRef.layer 0 }] = r2 at hre hfacts
      obtain ⟨hsurf, hplane, hsrc, hraw, hforce⟩ := hfacts
      obtain ⟨r, hvf⟩ := ValidateForDisplayScaling_total env r2.1 r2.2.2 r2.2.1
        (LayerRef.layer 0) L0 false (Or.inl hsurf)
      obtain ⟨hext2, ⟨u, crop, hsame⟩, hscal⟩ := ValidateForDisplayScaling_spec hvf
      obtain ⟨s3, c3, last3⟩ := r
      dsimp only at hext2 hsame hscal
      rw [hvf]
      dsimp only
      have hforce3 : last3.forceGpu = true := by
        rw [hsame]
        exact hforce
      refine Or.inr ⟨true, _, rfl,
        base s3 last3 c3 L0.preferSeparatePlane (hre.trans hext2) (by rw [hsame]; exact hplane)
          ?_ (by rw [hsame]; exact hsrc) (fun _ => hpref'), rfl, by rw [hsame]; exact hplane,
        fun hc => by
          have := hc last3 (by simp [Plan.composition])
          rw [hforce3] at this
          cases this⟩
      refine ⟨fun hl => by rw [hsame] at hl; simp [hsrc] at hl, ?_, ?_, ?_, ?_⟩
      · intro hu
        refine ⟨?_, scalarRejected_false (hscal hu).2⟩
        rw [hsame]
        show r2.2.1.sourceLayers = _
        rw [hsrc, hz0]
      · intro z hzm
        rw [hsame] at hzm
        have : z ∈ r2.2.1.sourceLayers := hzm
        rw [hsrc] at this
        simp only [List.mem_singleton] at this
        omega
      · rw [hsame]
        show r2.2.1.sourceLayers ≠ []
        rw [hsrc]
        simp
      · intro k hk
        rw [hsame] at hk ⊢
        have hk' : r2.2.1.rawLayer = LayerRef.layer k := hk
        rw [hraw] at hk'
        cases hk'
        show 0 ∈ r2.2.1.sourceLayers
        rw [hsrc]
        simp
  · -- the primary layer is scanned out directly
    rename_i hfall
    have hfb : FallbacktoGPU env ((initialStore m (L0 :: rest) cursors).setInUse p0) p0
        (LayerRef.layer 0) [{ plane := p0, layer := LayerRef.layer 0 }] = false := by
      simp only [Bool.or_eq_true, not_or, Bool.not_eq_true] at hfall
      exact hfall.2
    exact Or.inr ⟨false, _, rfl,
      base _ _ _ _ (Store.Extends.refl _) rfl hcreated (by simp [DisplayPlaneState.create, hz0])
        (fun hu => by simp [DisplayPlaneState.create] at hu), rfl, rfl,
      fun _ => ⟨rfl, FallbacktoGPU_false hfb⟩⟩

theorem planLayers_spec (env : Env) (pm dis rve : Bool) {m : DisplayPlaneManager}
    {p0 : DisplayPlane} {L0 : OverlayLayer} {N : Nat} {rest cursors : List OverlayLayer}
    (hv : ValidInput m p0 (L0 :: rest)) (hN : (L0 :: rest).length ≤ N)
    (hcur : ∀ c ∈ cursors, c.zorder < N) :
    ∃ pl, planLayers env m (L0 :: rest) cursors pm dis [] rve = some pl ∧
      match pl with
      | Planned.returned o => Produced m p0 L0 N (L0 :: rest) cursors o.store o.composition
      | Planned.proposed _ s composition =>
        Produced m p0 L0 N (L0 :: rest) cursors s composition := by
  rcases planLayers_cases env pm dis rve cursors hv hN with
    ⟨o, ps, hpl, hprod, _, _⟩ | ⟨render, p, hpl, hinv, _, _, _⟩
  · exact ⟨_, hpl, hprod⟩
  · rw [hpl]
    exact planOverlays_spec env rve hv.zorder hcur hv.cursorPlane render hinv

theorem markSourceLayers_zorder (u : Bool) :
    ∀ (src : List Nat) (layers r : List OverlayLayer),
      markSourceLayers u src layers = some r →
      r.map OverlayLayer.zorder = layers.map OverlayLayer.zorder := by
  intro src
  induction src with
  | nil => intro layers r h; cases h; rfl
  | cons i src ih =>
    intro layers r h
    rw [markSourceLayers] at h
    split at h
    · cases h
    · rw [ih _ _ h]
      exact modifyAt_map_of_eq (fun layer => layer.GPURendered.UsePlaneScalar u)
        OverlayLayer.zorder (fun _ => rfl) _ _

theorem markRendered_zorder :
    ∀ (composition : List DisplayPlaneState) (layers r : List OverlayLayer),
      markRendered composition layers = some r →
      r.map OverlayLayer.zorder = layers.map OverlayLayer.zorder := by
  intro composition
  induction composition with
  | nil => intro layers r h; cases h; rfl
  | cons ps rest ih =>
    intro layers r h
    rw [markRendered] at h
    split at h
    · split at h
      · cases h
      · rename_i l1 hl1
        rw [ih _ _ h, markSourceLayers_zorder _ _ _ _ hl1]
    · exact ih _ _ h

theorem Produced.with_layers {m : DisplayPlaneManager} {p0 : DisplayPlane} {L0 : OverlayLayer}
    {N : Nat} {layers cursors : List OverlayLayer} {s : Store}
    {composition : List DisplayPlaneState} (h : Produced m p0 L0 N layers cursors s composition)
    {marked : List OverlayLayer}
    (hm : marked.map OverlayLayer.zorder = s.layers.map OverlayLayer.zorder) :
    Produced m p0 L0 N layers cursors { s with layers := marked } composition :=
  ⟨⟨h.inv.ext.trans ⟨rfl, rfl, rfl, fun _ hi => hi, hm, rfl⟩,
    ⟨h.inv.planes.head, h.inv.planes.nodup, h.inv.planes.inUse⟩, h.inv.states⟩, h.sources⟩

/-- The outcome of `ValidateLayers` on a valid input, in terms of `planLayers`: either the
early return, or the proposal taken through lines 227-244. -/
theorem ValidateLayers_produced (env : Env) (pm dis rve : Bool) {m : DisplayPlaneManager}
    {p0 : DisplayPlane} {L0 : OverlayLayer} {N : Nat} {rest cursors : List OverlayLayer}
    (hv : ValidInput m p0 (L0 :: rest)) (hN : (L0 :: rest).length ≤ N)
    (hcur : ∀ c ∈ cursors, c.zorder < N) :
    (∀ o, ValidateLayers env m (L0 :: rest) cursors pm dis [] rve = some o →
      Produced m p0 L0 N (L0 :: rest) cursors o.store o.composition) ∧
    (N = (L0 :: rest).length →
      ∃ o, ValidateLayers env m (L0 :: rest) cursors pm dis [] rve = some o) := by
  obtain ⟨pl, hpl, hprod⟩ := planLayers_spec env pm dis rve hv hN hcur
  unfold ValidateLayers
  rw [hpl]
  cases pl with
  | returned o =>
    dsimp only at hprod ⊢
    exact ⟨fun o' ho' => by cases ho'; exact hprod, fun _ => ⟨o, rfl⟩⟩
  | proposed render s composition =>
    dsimp only at hprod ⊢
    cases render with
    | false =>
      simp only [Bool.false_eq_true, if_false]
      exact ⟨fun o' ho' => by cases ho'; exact hprod, fun _ => ⟨_, rfl⟩⟩
    | true =>
      simp only [if_true]
      obtain ⟨r, hr, hinv, hpass, hfail⟩ := ValidateFinalLayers_spec env hprod.inv hN
        hv.zorder hv.nonempty hv.primary
      rw [hr]
      obtain ⟨s2, comp2⟩ := r
      dsimp only at hinv hpass hfail ⊢
      have hprod2 : Produced m p0 L0 N (L0 :: rest) cursors s2 comp2 := by
        refine ⟨hinv, fun hnil => ?_⟩
        cases htc : finalTestCommit env s composition
        · obtain ⟨ps, hps, _, hsrc, _⟩ := hfail htc
          rw [hps]
          simpa using hsrc
        · have := hpass htc
          have h2 : comp2 = (ensureTargets composition s).2 := by rw [← this]
          rw [h2, ensureTargets_sources]
          exact hprod.sources hnil
      refine ⟨?_, ?_⟩
      · intro o ho
        split at ho
        · cases ho
        · rename_i marked hmarked
          cases ho
          exact hprod2.with_layers (markRendered_zorder _ _ _ hmarked)
      · intro hNeq
        have hlen : s2.layers.length = (L0 :: rest).length := by
          have := congrArg List.length hinv.ext.layers
          simpa [initialStore] using this
        obtain ⟨marked, hmarked, _⟩ := markRendered_spec comp2 s2.layers
          (fun ps hps z hzm => by
            have := (hinv.states ps hps).bounded z hzm
            omega)
        rw [hmarked]
        exact ⟨_, rfl⟩

theorem flatMap_nodup_unique {α β : Type} {f : α → List β} :
    ∀ {l : List α}, (l.flatMap f).Nodup → ∀ {a b : α}, a ∈ l → b ∈ l →
      ∀ {x : β}, x ∈ f a → x ∈ f b → a = b := by
  intro l
  induction l with
  | nil => intro _ a b ha; cases ha
  | cons c l ih =>
    intro h a b ha hb x hxa hxb
    rw [List.flatMap_cons, List.nodup_append] at h
    obtain ⟨_, h2, h3⟩ := h
    rcases List.mem_cons.mp ha with hac | hal
    · rcases List.mem_cons.mp hb with hbc | hbl
      · rw [hac, hbc]
      · rw [hac] at hxa
        exact (h3 hxa (List.mem_flatMap.mpr ⟨b, hbl, hxb⟩)).elim
    · rcases List.mem_cons.mp hb with hbc | hbl
      · rw [hbc] at hxb
        exact (h3 hxb (List.mem_flatMap.mpr ⟨a, hal, hxa⟩)).elim
      · exact ih h2 hal hbl hxa hxb

theorem view_marked {L0 : OverlayLayer} {N : Nat} {s : Store}
    {composition : List DisplayPlaneState} {marked : List OverlayLayer}
    (hst : ∀ ps ∈ composition, StateOk L0 N ps)
    (hnd : (composition.flatMap DisplayPlaneState.sourceLayers).Nodup)
    (htg : ∀ ps ∈ composition, ps.forceGpu = true → ps.surfaces ≠ [])
    (hm : Marked (fun k => ∃ ps ∈ composition, ps.forceGpu = true ∧ k ∈ ps.sourceLayers)
      s.layers marked) :
    ({ s with layers := marked } : Store).view (composition.map DisplayPlaneState.binding) =
      s.view (composition.map DisplayPlaneState.binding) := by
  unfold Store.view
  rw [List.map_map, List.map_map]
  apply List.map_congr_left
  intro ps hps
  simp only [Function.comp, DisplayPlaneState.binding, DisplayPlaneState.GetOverlayLayer]
  congr 1
  cases hs : ps.surfaces with
  | cons a l => rfl
  | nil =>
    dsimp only
    have hng : ps.forceGpu = false := by
      cases hf : ps.forceGpu
      · rfl
      · exact absurd hs (htg ps hps hf)
    cases hr : ps.rawLayer with
    | cursor k => rfl
    | surface id => rfl
    | layer k =>
      show marked[k]? = s.layers[k]?
      have hk := (hst ps hps).raw k hr
      cases hl : s.layers[k]? with
      | none =>
        rw [List.getElem?_eq_none_iff] at hl ⊢
        rw [hm.1]
        exact hl
      | some l =>
        obtain ⟨l', h1, _, h2, _⟩ := hm.2 k l hl
        rw [h1, h2]
        rintro ⟨ps', hps', hf', hk'⟩
        have := flatMap_nodup_unique hnd hps hps' hk hk'
        rw [← this, hng] at hf'
        cases hf'

theorem view_single (s : Store) (ps : DisplayPlaneState) :
    s.view ([ps].map DisplayPlaneState.binding) = [(ps.plane, s.deref ps.GetOverlayLayer)] :=
  rfl

/-- A manager initialised from a non-empty list of distinct planes, with no cursor plane set
before, is a valid manager: the primary plane is the first plane and the cursor plane, if
any, is another plane. -/
theorem Initialize_valid (env : Env) (m : DisplayPlaneManager) (width height : Nat)
    (p0 : DisplayPlane) (others : List DisplayPlane) (status : Bool)
    (hm : m.cursorPlane = none)
    (hd : ((p0 :: others).map DisplayPlane.id).Nodup) :
    (Initialize env m width height (p0 :: others) status).1.primaryPlane = some p0 ∧
    (Initialize env m width height (p0 :: others) status).1.overlayPlanes = p0 :: others ∧
    ∀ c, (Initialize env m width height (p0 :: others) status).1.cursorPlane = some c →
      c.id ≠ p0.id := by
  unfold Initialize
  dsimp only
  split
  · rename_i hlen
    cases hg : (p0 :: others).getLast? with
    | none => simp at hg
    | some back =>
      dsimp only
      have hback : back ∈ others := by
        cases others with
        | nil => simp at hlen
        | cons a l =>
          rw [List.getLast?_cons_cons] at hg
          exact List.mem_of_getLast?_eq_some hg
      have hne : back.id ≠ p0.id := by
        rw [List.map_cons, List.nodup_cons] at hd
        intro hc
        exact hd.1 (List.mem_map.mpr ⟨back, hback, hc⟩)
      split
      · exact ⟨rfl, rfl, fun c hc => by cases hc⟩
      · refine ⟨rfl, rfl, fun c hc => ?_⟩
        have : back = c := by simpa using hc
        rw [← this]
        exact hne
  · refine ⟨rfl, rfl, fun c hc => ?_⟩
    have : m.cursorPlane = some c := hc
    rw [hm] at this
    cases this

theorem exists_bound (n : Nat) (cursors : List OverlayLayer) :
    ∃ N, n ≤ N ∧ ∀ c ∈ cursors, c.zorder < N := by
  induction cursors with
  | nil => exact ⟨n, le_refl n, fun c hc => by cases hc⟩
  | cons c cs ih =>
    obtain ⟨N, h1, h2⟩ := ih
    refine ⟨max N (c.zorder + 1), le_trans h1 (le_max_left _ _), fun c' hc' => ?_⟩
    rcases List.mem_cons.mp hc' with rfl | hc'
    · exact lt_of_lt_of_le (Nat.lt_succ_self _) (le_max_right _ _)
    · exact lt_of_lt_of_le (h2 c' hc') (le_max_left _ _)

theorem sampleValid (n : Nat) :
    ValidInput sampleManager (samplePlane 0) ((List.range (n + 1)).map sampleLayer) :=
  ⟨by simp, by
      rw [List.map_map]
      have : (OverlayLayer.zorder ∘ sampleLayer) = id := by funext z; rfl
      rw [this]; simp,
    rfl, rfl, by decide, fun c hc => by cases hc⟩

/-- For a valid input, whatever `ValidateLayers` returns satisfies the composition invariant;
and it does return when the cursor z-orders index `layers`. -/
theorem ValidateLayers_valid (env : Env) (pm dis rve : Bool) {m : DisplayPlaneManager}
    {p0 : DisplayPlane} {layers : List OverlayLayer} (cursors : List OverlayLayer)
    (hv : ValidInput m p0 layers) :
    ∃ L0 N, layers.head? = some L0 ∧ layers.length ≤ N ∧
      (∀ o, ValidateLayers env m layers cursors pm dis [] rve = some o →
        Produced m p0 L0 N layers cursors o.store o.composition) ∧
      ((∀ c ∈ cursors, c.zorder < layers.length) →
        ∃ o, ValidateLayers env m layers cursors pm dis [] rve = some o) := by
  cases hl : layers with
  | nil => exact absurd hl hv.nonempty
  | cons L0 rest =>
    subst hl
    obtain ⟨N, hN, hcur⟩ := exists_bound (L0 :: rest).length cursors
    refine ⟨L0, N, rfl, hN, (ValidateLayers_produced env pm dis rve hv hN hcur).1, ?_⟩
    intro hc
    exact (ValidateLayers_produced env pm dis rve hv (le_refl _) hc).2 rfl

/-- C1 (code evaluated at the failing input): three layers on three planes, the middle layer
rejected by every plane. `ValidateLayers` folds layers 0 and 1 into the primary plane state,
which then needs off-screen composition and has a target, puts layer 2 on the next plane,
and returns `render_layers = false`. -/
theorem C1_render_required_false_with_offscreen_plane :
    ∃ o, ValidateLayers rejectLayerOne sampleManager
        [sampleLayer 0, sampleLayer 1, sampleLayer 2] [] false false [] false = some o ∧
      o.render_layers = false ∧
      ∃ ps ∈ o.composition, ps.sourceLayers = [0, 1] ∧
        ps.NeedsOffScreenComposition = true ∧ ps.GetOffScreenTarget.isSome = true :=
  ⟨_, rfl, rfl, _, List.mem_cons_self _ _, rfl, rfl, rfl⟩

/-- C2: for a non-empty layer list in bottom-to-top z-order and no cursor layers,
`ValidateLayers` returns, and the source layers of the returned composition, read plane state
by plane state, are exactly the z-orders of the input layers in their original order, none
of them twice. -/
theorem C2_every_layer_in_exactly_one_plane_state (env : Env) (pm dis rve : Bool)
    {m : DisplayPlaneManager} {p0 : DisplayPlane} {layers : List OverlayLayer}
    (hv : ValidInput m p0 layers) :
    ∃ o, ValidateLayers env m layers [] pm dis [] rve = some o ∧
      o.composition.flatMap DisplayPlaneState.sourceLayers =
        layers.map OverlayLayer.zorder ∧
      (o.composition.flatMap DisplayPlaneState.sourceLayers).Nodup := by
  obtain ⟨L0, N, _, _, hall, htot⟩ := ValidateLayers_valid env pm dis rve [] hv
  obtain ⟨o, ho⟩ := htot (fun c hc => by cases hc)
  have hs := (hall o ho).sources rfl
  exact ⟨o, ho, by rw [hs, hv.zorder], by rw [hs]; exact List.nodup_range _⟩

/-- Witness for C2: three layers of which the middle one is rejected by every plane. -/
theorem C2_witness :
    ValidInput sampleManager (samplePlane 0) [sampleLayer 0, sampleLayer 1, sampleLayer 2] ∧
    ∃ o, ValidateLayers rejectLayerOne sampleManager
        [sampleLayer 0, sampleLayer 1, sampleLayer 2] [] false false [] false = some o ∧
      o.composition.flatMap DisplayPlaneState.sourceLayers =
        [sampleLayer 0, sampleLayer 1, sampleLayer 2].map OverlayLayer.zorder ∧
      (o.composition.flatMap DisplayPlaneState.sourceLayers).Nodup :=
  ⟨sampleValid 2,
    C2_every_layer_in_exactly_one_plane_state rejectLayerOne false false false (sampleValid 2)⟩

/-- C3: for a valid input, every plane state of a composition returned by `ValidateLayers`
with two or more source layers (cursor layers folded into it included) has an off-screen
target; and `ValidateLayers` does return when the cursor z-orders index `layers`. -/
theorem C3_multi_layer_plane_state_has_target (env : Env) (pm dis rve : Bool)
    {m : DisplayPlaneManager} {p0 : DisplayPlane} {layers : List OverlayLayer}
    (cursors : List OverlayLayer) (hv : ValidInput m p0 layers) :
    (∀ o, ValidateLayers env m layers cursors pm dis [] rve = some o →
      ∀ ps ∈ o.composition, 2 ≤ ps.sourceLayers.length →
        ps.GetOffScreenTarget.isSome = true) ∧
    ((∀ c ∈ cursors, c.zorder < layers.length) →
      ∃ o, ValidateLayers env m layers cursors pm dis [] rve = some o) := by
  obtain ⟨L0, N, _, _, hall, htot⟩ := ValidateLayers_valid env pm dis rve cursors hv
  refine ⟨fun o ho ps hps hlen => ?_, htot⟩
  have := ((hall o ho).inv.states ps hps).targets hlen
  cases hs : ps.surfaces with
  | nil => exact absurd hs this
  | cons a l => simp [DisplayPlaneState.GetOffScreenTarget, hs]

/-- Witness for C3: a layer and a cursor layer are both folded into the primary plane state,
which ends with three source layers and an off-screen target. -/
theorem C3_witness :
    ValidInput sampleManager (samplePlane 0) [sampleLayer 0, sampleLayer 1] ∧
    ∃ o, ValidateLayers rejectLayerOne sampleManager [sampleLayer 0, sampleLayer 1]
        [sampleLayer 1] false false [] false = some o ∧
      o.composition.map DisplayPlaneState.sourceLayers = [[0, 1, 1]] ∧
      ∀ ps ∈ o.composition, 2 ≤ ps.sourceLayers.length →
        ps.GetOffScreenTarget.isSome = true :=
  ⟨sampleValid 1, _, rfl, rfl,
    (C3_multi_layer_plane_state_has_target rejectLayerOne false false false [sampleLayer 1]
      (sampleValid 1)).1 _ rfl⟩

/-- C5: for a valid input, every plane state of a composition returned by `ValidateLayers`
with `uses_plane_scalar` set has exactly one source layer, and that layer's display-frame
size differs from its source-crop size in width or in height; and `ValidateLayers` does
return when the cursor z-orders index `layers`. -/
theorem C5_plane_scalar_single_scaled_layer (env : Env) (pm dis rve : Bool)
    {m : DisplayPlaneManager} {p0 : DisplayPlane} {layers : List OverlayLayer}
    (cursors : List OverlayLayer) (hv : ValidInput m p0 layers) :
    (∀ o, ValidateLayers env m layers cursors pm dis [] rve = some o →
      ∀ ps ∈ o.composition, ps.usesPlaneScalar = true →
        ∃ z l, ps.sourceLayers = [z] ∧ layers[z]? = some l ∧
          (l.displayFrameWidth ≠ l.sourceCropWidth ∨
            l.displayFrameHeight ≠ l.sourceCropHeight)) ∧
    ((∀ c ∈ cursors, c.zorder < layers.length) →
      ∃ o, ValidateLayers env m layers cursors pm dis [] rve = some o) := by
  obtain ⟨L0, N, hhead, _, hall, htot⟩ := ValidateLayers_valid env pm dis rve cursors hv
  refine ⟨fun o ho ps hps hu => ?_, htot⟩
  obtain ⟨hsrc, hscaled⟩ := ((hall o ho).inv.states ps hps).scalar hu
  cases hl : layers with
  | nil => exact absurd hl hv.nonempty
  | cons a rest =>
    rw [hl] at hhead
    have ha : a = L0 := by simpa using hhead
    subst ha
    have hz := hv.zorder
    rw [hl] at hz
    have hz0 : a.zorder = 0 := (drop_zorder hz (i := 0) rfl).1
    exact ⟨0, a, by rw [hsrc, hz0], by simp, hscaled⟩

/-- Witness for C5: a single upscaled layer in an unsupported format ends on the primary
plane with the plane scalar in use. -/
theorem C5_witness :
    ValidInput sampleManager (samplePlane 0) [scaledLayer] ∧
    ∃ o, ValidateLayers rejectFormatSeven sampleManager [scaledLayer] [] false false []
        false = some o ∧
      o.composition.map DisplayPlaneState.usesPlaneScalar = [true] ∧
      ∀ ps ∈ o.composition, ps.usesPlaneScalar = true →
        ∃ z l, ps.sourceLayers = [z] ∧ [scaledLayer][z]? = some l ∧
          (l.displayFrameWidth ≠ l.sourceCropWidth ∨
            l.displayFrameHeight ≠ l.sourceCropHeight) :=
  have hv : ValidInput sampleManager (samplePlane 0) [scaledLayer] :=
    ⟨by simp, by decide, rfl, rfl, by decide, fun c hc => by cases hc⟩
  ⟨hv, _, rfl, rfl,
    (C5_plane_scalar_single_scaled_layer rejectFormatSeven false false false [] hv).1 _ rfl⟩

/-- C6: for a valid input (layers and cursor layers), no hardware plane is bound by more
than one plane state of a composition returned by `ValidateLayers`; and `ValidateLayers`
does return when the cursor z-orders index `layers`. -/
theorem C6_no_plane_bound_twice (env : Env) (pm dis rve : Bool)
    {m : DisplayPlaneManager} {p0 : DisplayPlane} {layers : List OverlayLayer}
    (cursors : List OverlayLayer) (hv : ValidInput m p0 layers) :
    (∀ o, ValidateLayers env m layers cursors pm dis [] rve = some o →
      (o.composition.map (fun ps => ps.plane.id)).Nodup) ∧
    ((∀ c ∈ cursors, c.zorder < layers.length) →
      ∃ o, ValidateLayers env m layers cursors pm dis [] rve = some o) := by
  obtain ⟨L0, N, _, _, hall, htot⟩ := ValidateLayers_valid env pm dis rve cursors hv
  refine ⟨fun o ho => ?_, htot⟩
  have := (hall o ho).inv.planes.nodup
  rwa [List.map_map] at this

/-- Witness for C6: two layers and a cursor layer end on three distinct planes. -/
theorem C6_witness :
    ValidInput sampleManager (samplePlane 0) [sampleLayer 0, sampleLayer 1] ∧
    ∃ o, ValidateLayers acceptAll sampleManager [sampleLayer 0, sampleLayer 1]
        [sampleLayer 1] false false [] false = some o ∧
      o.composition.map (fun ps => ps.plane.id) = [0, 1, 2] ∧
      (o.composition.map (fun ps => ps.plane.id)).Nodup :=
  ⟨sampleValid 1, _, rfl, rfl,
    (C6_no_plane_bound_twice acceptAll false false false [sampleLayer 1]
      (sampleValid 1)).1 _ rfl⟩

/-- C7: for a valid input, the first plane state of a composition returned by
`ValidateLayers` is bound to the primary plane, which is the first of `overlay_planes_`, on
every path; and `ValidateLayers` does return when the cursor z-orders index `layers`. -/
theorem C7_first_plane_state_on_primary_plane (env : Env) (pm dis rve : Bool)
    {m : DisplayPlaneManager} {p0 : DisplayPlane} {layers : List OverlayLayer}
    (cursors : List OverlayLayer) (hv : ValidInput m p0 layers) :
    (∀ o, ValidateLayers env m layers cursors pm dis [] rve = some o →
      ∃ first, o.composition.head? = some first ∧ first.plane = p0 ∧
        m.overlayPlanes[0]? = some p0) ∧
    ((∀ c ∈ cursors, c.zorder < layers.length) →
      ∃ o, ValidateLayers env m layers cursors pm dis [] rve = some o) := by
  obtain ⟨L0, N, _, _, hall, htot⟩ := ValidateLayers_valid env pm dis rve cursors hv
  refine ⟨fun o ho => ?_, htot⟩
  have hh := (hall o ho).inv.planes.head
  have hp := hv.planes
  cases hc : o.composition with
  | nil => rw [hc] at hh; cases hh
  | cons first rest =>
    rw [hc] at hh
    simp only [List.map_cons, List.head?_cons, Option.some.injEq] at hh
    refine ⟨first, rfl, hh, ?_⟩
    cases hop : m.overlayPlanes with
    | nil => rw [hop] at hp; cases hp
    | cons a l => rw [hop] at hp; simpa using hp

/-- Witness for C7: a run through the collapse of `ValidateFinalLayers` with a cursor layer
folded in. -/
theorem C7_witness :
    ValidInput sampleManager (samplePlane 0) [sampleLayer 0, sampleLayer 1] ∧
    ∃ o, ValidateLayers rejectTargets sampleManager [sampleLayer 0, sampleLayer 1]
        [sampleLayer 1] false false [] false = some o ∧
      ∃ first, o.composition.head? = some first ∧ first.plane = samplePlane 0 ∧
        sampleManager.overlayPlanes[0]? = some (samplePlane 0) :=
  ⟨sampleValid 1, _, rfl,
    (C7_first_plane_state_on_primary_plane rejectTargets false false false [sampleLayer 1]
      (sampleValid 1)).1 _ rfl⟩

/-- C8: when `ValidateLayers` reaches `ValidateFinalLayers` (its proposal has
`render_layers` set) and the `TestCommit` there fails, it returns `true` with a composition
of exactly one plane state, bound to the primary plane, whose source layers are all input
layers in z-order and which has an off-screen target, and every input layer ends up marked
`gpu_rendered`. -/
theorem C8_final_commit_failure_collapses (env : Env) (pm dis rve : Bool)
    {m : DisplayPlaneManager} {p0 : DisplayPlane} {layers : List OverlayLayer}
    (cursors : List OverlayLayer) (hv : ValidInput m p0 layers) {s : Store}
    {composition : List DisplayPlaneState}
    (hplan : planLayers env m layers cursors pm dis [] rve =
      some (Planned.proposed true s composition))
    (hfail : finalTestCommit env s composition = false) :
    ∃ o, ValidateLayers env m layers cursors pm dis [] rve = some o ∧
      o.render_layers = true ∧
      (∃ ps, o.composition = [ps] ∧ ps.plane = p0 ∧
        ps.sourceLayers = layers.map OverlayLayer.zorder ∧
        ps.GetOffScreenTarget.isSome = true) ∧
      o.store.layers.length = layers.length ∧
      ∀ l ∈ o.store.layers, l.gpuRendered = true := by
  cases hl : layers with
  | nil => exact absurd hl hv.nonempty
  | cons L0 rest =>
    subst hl
    obtain ⟨N, hN, hcur⟩ := exists_bound (L0 :: rest).length cursors
    obtain ⟨pl, hpl, hprod⟩ := planLayers_spec env pm dis rve hv hN hcur
    rw [hplan] at hpl
    cases hpl
    dsimp only at hprod
    obtain ⟨r, hr, hinv, _, hcol⟩ := ValidateFinalLayers_spec env hprod.inv hN hv.zorder
      hv.nonempty hv.primary
    obtain ⟨ps, hps, hplane, hsrc0, hsurf, hforce, _, _⟩ := hcol hfail
    have hsrc : ps.sourceLayers = List.range (L0 :: rest).length := hsrc0
    obtain ⟨s2, comp2⟩ := r
    dsimp only at hinv hps
    subst hps
    have hlen : s2.layers.length = (L0 :: rest).length := by
      have := congrArg List.length hinv.ext.layers
      simpa [initialStore] using this
    obtain ⟨marked, hmarked, hlenm, hm⟩ := markRendered_spec [ps] s2.layers
      (fun q hq z hzm => by
        simp only [List.mem_singleton] at hq
        subst hq
        rw [hsrc, List.mem_range] at hzm
        rw [hlen]
        exact hzm)
    refine ⟨{ render_layers := true, composition := [ps],
              store := { s2 with layers := marked } }, ?_, rfl, ⟨ps, rfl, hplane, ?_, ?_⟩, ?_, ?_⟩
    · unfold ValidateLayers
      rw [hplan]
      simp only [if_true, hr, hmarked]
    · rw [hsrc]
      exact hv.zorder.symm
    · cases hs : ps.surfaces with
      | nil => exact absurd hs hsurf
      | cons a l => simp [DisplayPlaneState.GetOffScreenTarget, hs]
    · show marked.length = _
      rw [hlenm, hlen]
    · intro l hlm
      change l ∈ marked at hlm
      obtain ⟨k, hk, hkl⟩ := List.mem_iff_getElem.mp hlm
      have hk2 : k < s2.layers.length := by rw [← hlenm]; exact hk
      obtain ⟨l', hl', _, _, hg⟩ := hm k s2.layers[k] (List.getElem?_eq_getElem hk2)
      rw [List.getElem?_eq_getElem hk] at hl'
      have : l' = l := by
        rw [← hkl]
        exact (Option.some.inj hl').symm
      rw [← this]
      refine hg (Or.inl ⟨ps, List.mem_singleton.mpr rfl, hforce, ?_⟩)
      rw [hsrc, List.mem_range, ← hlen]
      exact hk2

/-- Witness for C8: two layers folded into the primary plane state, whose off-screen target
the final `TestCommit` rejects. -/
theorem C8_witness :
    ∃ s composition,
      ValidInput sampleManager (samplePlane 0) [sampleLayer 0, sampleLayer 1] ∧
      planLayers rejectTargets sampleManager [sampleLayer 0, sampleLayer 1] []
        false false [] false = some (Planned.proposed true s composition) ∧
      finalTestCommit rejectTargets s composition = false ∧
      ∃ o, ValidateLayers rejectTargets sampleManager
          [sampleLayer 0, sampleLayer 1] [] false false [] false = some o ∧
        o.render_layers = true ∧
        (∃ ps, o.composition = [ps] ∧ ps.plane = samplePlane 0 ∧
          ps.sourceLayers = [sampleLayer 0, sampleLayer 1].map OverlayLayer.zorder ∧
          ps.GetOffScreenTarget.isSome = true) ∧
        o.store.layers.length = [sampleLayer 0, sampleLayer 1].length ∧
        ∀ l ∈ o.store.layers, l.gpuRendered = true :=
  ⟨_, _, sampleValid 1, rfl, rfl,
    C8_final_commit_failure_collapses rejectTargets false false false [] (sampleValid 1)
      rfl rfl⟩

/-- C9: for a non-empty layer list, if `disable_overlay` is set, or `pending_modeset` is set
and there is more than one layer, `ValidateLayers` returns `true` and a composition of
exactly one plane state: the primary plane, holding all input layers in order, with an
off-screen target, whatever the collaborators answer. -/
theorem C9_forced_gpu_composition (env : Env) (m : DisplayPlaneManager) (p0 : DisplayPlane)
    (layers cursors : List OverlayLayer) (pm dis rve : Bool) (hne : layers ≠ [])
    (hp : m.primaryPlane = some p0)
    (hforce : dis = true ∨ (pm = true ∧ 1 < layers.length)) :
    ∃ o, ValidateLayers env m layers cursors pm dis [] rve = some o ∧
      o.render_layers = true ∧
      ∃ ps, o.composition = [ps] ∧ ps.plane = p0 ∧
        ps.sourceLayers = layers.map OverlayLayer.zorder ∧
        ps.GetOffScreenTarget.isSome = true := by
  cases hl : layers with
  | nil => exact absurd hl hne
  | cons L0 rest =>
    subst hl
    have hfg : ((pm && decide ((L0 :: rest).length > 1)) || dis) = true := by
      rcases hforce with h | ⟨h1, h2⟩
      · simp [h]
      · simp only [h1, Bool.true_and, Bool.or_eq_true, decide_eq_true_eq]
        exact Or.inl h2
    obtain ⟨_, hfs⟩ := foldAllLayers_spec rest 1
      ((initialStore m (L0 :: rest) cursors).setInUse p0)
      (DisplayPlaneState.create p0 (LayerRef.layer 0) L0 L0.zorder)
    obtain ⟨id, hid⟩ := ResetPlaneTarget_state
      (foldAllLayers 1 rest ((initialStore m (L0 :: rest) cursors).setInUse p0)
        (DisplayPlaneState.create p0 (LayerRef.layer 0) L0 L0.zorder)).1
      (foldAllLayers 1 rest ((initialStore m (L0 :: rest) cursors).setInUse p0)
        (DisplayPlaneState.create p0 (LayerRef.layer 0) L0 L0.zorder)).2
      [{ plane := p0, layer := LayerRef.layer 0 }]
    have hplan : planLayers env m (L0 :: rest) cursors pm dis [] rve =
        some (Planned.returned
          { render_layers := true,
            composition := [] ++ [(ResetPlaneTarget
              (foldAllLayers 1 rest ((initialStore m (L0 :: rest) cursors).setInUse p0)
                (DisplayPlaneState.create p0 (LayerRef.layer 0) L0 L0.zorder)).1
              (foldAllLayers 1 rest ((initialStore m (L0 :: rest) cursors).setInUse p0)
                (DisplayPlaneState.create p0 (LayerRef.layer 0) L0 L0.zorder)).2
              [{ plane := p0, layer := LayerRef.layer 0 }]).2.1],
            store := (ResetPlaneTarget
              (foldAllLayers 1 rest ((initialStore m (L0 :: rest) cursors).setInUse p0)
                (DisplayPlaneState.create p0 (LayerRef.layer 0) L0 L0.zorder)).1
              (foldAllLayers 1 rest ((initialStore m (L0 :: rest) cursors).setInUse p0)
                (DisplayPlaneState.create p0 (LayerRef.layer 0) L0 L0.zorder)).2
              [{ plane := p0, layer := LayerRef.layer 0 }]).1 }) := by
      unfold planLayers
      dsimp only
      rw [hp]
      dsimp only
      rw [hfg]
      simp only [Bool.true_or, if_true]
    refine ⟨_, by unfold ValidateLayers; rw [hplan], rfl, _, rfl, ?_⟩
    rw [hid, hfs]
    exact ⟨rfl, by simp [DisplayPlaneState.SetOffScreenTarget,
      DisplayPlaneState.ForceGPURendering, DisplayPlaneState.create], rfl⟩

/-- Witness for C9: two layers under `pending_modeset` with a `TestCommit` that rejects
everything. -/
theorem C9_witness :
    [sampleLayer 0, sampleLayer 1] ≠ [] ∧
    sampleManager.primaryPlane = some (samplePlane 0) ∧
    (false = true ∨ (true = true ∧ 1 < [sampleLayer 0, sampleLayer 1].length)) ∧
    ∃ o, ValidateLayers rejectAll sampleManager [sampleLayer 0, sampleLayer 1] [] true false []
        false = some o ∧
      o.render_layers = true ∧
      ∃ ps, o.composition = [ps] ∧ ps.plane = samplePlane 0 ∧
        ps.sourceLayers = [sampleLayer 0, sampleLayer 1].map OverlayLayer.zorder ∧
        ps.GetOffScreenTarget.isSome = true :=
  ⟨by simp, rfl, Or.inr ⟨rfl, by decide⟩,
    C9_forced_gpu_composition rejectAll sampleManager (samplePlane 0)
      [sampleLayer 0, sampleLayer 1] [] true false false (by simp) rfl
      (Or.inr ⟨rfl, by decide⟩)⟩

/-- C10 (code evaluated at the failing input): two layers with `pending_modeset` set.
`ValidateLayers` folds both layers into the primary plane state and returns at line 111;
the folded layer is marked `gpu_rendered`, the primary layer is not. -/
theorem C10_primary_layer_not_marked :
    ∃ o, ValidateLayers acceptAll sampleManager [sampleLayer 0, sampleLayer 1] [] true false
        [] false = some o ∧
      o.render_layers = true ∧
      o.composition.map DisplayPlaneState.sourceLayers = [[0, 1]] ∧
      o.store.layers.map OverlayLayer.gpuRendered = [false, true] :=
  ⟨_, rfl, rfl, rfl, rfl⟩

/-- C4 (code evaluated at the failing input): three layers on three planes, the middle layer
rejected by every plane, and a `TestCommit` that accepts every commit of the primary plane
alone. Layer 1 is folded into the primary plane state, which gets an off-screen target, while
the entry of the primary plane in `commit_planes` keeps the raw layer 0; the commit tested
when layer 2 is accepted on the next plane is that stale one, and it passes.
`ValidateLayers` returns `render_layers = false`, so final validation never tests the
composition: `TestCommit` on the bindings of the returned composition, where the primary plane
scans out its off-screen target, returns false. -/
theorem C4_stale_binding_fails_commit :
    (∀ v, limitedTargets.testCommit [(samplePlane 0, v)] = true) ∧
    ∃ o, ValidateLayers limitedTargets sampleManager
        [sampleLayer 0, sampleLayer 1, sampleLayer 2] [] false false [] false = some o ∧
      o.render_layers = false ∧
      o.composition.map (fun ps => (ps.plane.id, ps.sourceLayers, ps.GetOverlayLayer)) =
        [(0, [0, 1], LayerRef.surface 0), (1, [2], LayerRef.layer 2)] ∧
      limitedTargets.testCommit
        (o.store.view [{ plane := samplePlane 0, layer := LayerRef.layer 0 },
          { plane := samplePlane 1, layer := LayerRef.layer 2 }]) = true ∧
      limitedTargets.testCommit
        (o.store.view (o.composition.map DisplayPlaneState.binding)) = false :=
  ⟨fun _ => rfl, _, rfl, rfl, rfl, rfl, rfl⟩

/-- Where the returned bindings do commit: for a valid input without cursor layers and a
`TestCommit` that accepts every commit binding the primary plane alone, `ValidateLayers`
returns, and `TestCommit` applied to the bindings of the returned composition (each plane
with the layer it scans out, as the layers are on return) returns true whenever
`ValidateLayers` returned `true` or no plane state of the returned composition needs
off-screen composition. -/
theorem ValidateLayers_bindings_commit (env : Env) (pm dis rve : Bool)
    {m : DisplayPlaneManager} {p0 : DisplayPlane} {layers : List OverlayLayer}
    (hv : ValidInput m p0 layers)
    (hcontract : ∀ v, env.testCommit [(p0, v)] = true) :
    ∃ o, ValidateLayers env m layers [] pm dis [] rve = some o ∧
      ((o.render_layers = true ∨
          ∀ ps ∈ o.composition, ps.NeedsOffScreenComposition = false) →
        env.testCommit (o.store.view (o.composition.map DisplayPlaneState.binding)) = true) := by
  cases hl : layers with
  | nil => exact absurd hl hv.nonempty
  | cons L0 rest =>
    subst hl
    have hcur : ∀ c ∈ ([] : List OverlayLayer), c.zorder < (L0 :: rest).length :=
      fun c hc => by cases hc
    have single : ∀ (s : Store) (ps : DisplayPlaneState), ps.plane = p0 →
        env.testCommit (s.view ([ps].map DisplayPlaneState.binding)) = true := by
      intro s ps hp
      rw [view_single, hp]
      exact hcontract _
    rcases planLayers_cases env pm dis rve [] hv (le_refl _) with
      ⟨o, ps, hpl, _, hcomp, hplane⟩ | ⟨render, p, hpl, hinv, hbelow, hlastp, htested⟩
    · refine ⟨o, by unfold ValidateLayers; rw [hpl], fun _ => ?_⟩
      rw [hcomp]
      exact single _ _ hplane
    · rcases planOverlays_cases env rve hv.zorder hcur hv.cursorPlane render hinv with
        ⟨_, hpo⟩ | ⟨r, s, comp, hpo, hprod, htest⟩
      · refine ⟨_, by unfold ValidateLayers; rw [hpl, hpo], fun _ => ?_⟩
        show env.testCommit (p.store.view ((p.below ++ [p.last_plane]).map
          DisplayPlaneState.binding)) = true
        rw [hbelow]
        exact single _ _ hlastp
      · cases r with
        | false =>
          refine ⟨{ render_layers := false, composition := comp, store := s }, ?_, ?_⟩
          · unfold ValidateLayers
            rw [hpl, hpo]
            simp
          · intro hcase
            rcases hcase with hc | hc
            · cases hc
            · exact htest rfl htested hc
        | true =>
          obtain ⟨r2, hr, hinv2, hpass, hfail⟩ := ValidateFinalLayers_spec env hprod.inv
            (le_refl _) hv.zorder hv.nonempty hv.primary
          obtain ⟨s2, comp2⟩ := r2
          dsimp only at hinv2 hpass hfail
          have hlen : s2.layers.length = (L0 :: rest).length := by
            have := congrArg List.length hinv2.ext.layers
            simpa [initialStore] using this
          obtain ⟨marked, hmarked, hm⟩ := markRendered_spec comp2 s2.layers
            (fun ps hps z hzm => by
              have := (hinv2.states ps hps).bounded z hzm
              have h0 : (initialStore m (L0 :: rest) []).layers.length = (L0 :: rest).length :=
                rfl
              omega)
          refine ⟨{ render_layers := true, composition := comp2,
                    store := { s2 with layers := marked } }, ?_, fun _ => ?_⟩
          · unfold ValidateLayers
            rw [hpl, hpo]
            simp only [if_true, hr, hmarked]
          · show env.testCommit (({ s2 with layers := marked } : Store).view
              (comp2.map DisplayPlaneState.binding)) = true
            cases htc : finalTestCommit env s comp
            · obtain ⟨ps, hps, hplane, _⟩ := hfail htc
              rw [hps]
              exact single _ _ hplane
            · have heq := hpass htc
              have h1 : s2 = (ensureTargets comp s).1 := by rw [← heq]
              have h2 : comp2 = (ensureTargets comp s).2 := by rw [← heq]
              obtain ⟨_, hrt⟩ := ensureTargets_spec comp s
              have hsrc : comp2.flatMap DisplayPlaneState.sourceLayers =
                  List.range (L0 :: rest).length := by
                rw [h2, ensureTargets_sources]
                exact hprod.sources rfl
              rw [view_marked hinv2.states (by rw [hsrc]; exact List.nodup_range _) ?_ hm]
              · rw [h1, h2]
                exact htc
              · intro ps hps hf
                rw [h2] at hps
                obtain ⟨a, _, ids, rfl, hne⟩ := Forall₂_retargeted_mem hrt ps hps
                exact hne hf

/-- Three layers that all end in the primary plane state, with a `TestCommit` that accepts
single-plane commits only: the returned bindings commit. -/
theorem ValidateLayers_bindings_commit_sample :
    ValidInput sampleManager (samplePlane 0) [sampleLayer 0, sampleLayer 1, sampleLayer 2] ∧
    (∀ v, singlePlaneOnly.testCommit [(samplePlane 0, v)] = true) ∧
    ∃ o, ValidateLayers singlePlaneOnly sampleManager
        [sampleLayer 0, sampleLayer 1, sampleLayer 2] [] false false [] false = some o ∧
      ((o.render_layers = true ∨
          ∀ ps ∈ o.composition, ps.NeedsOffScreenComposition = false) →
        singlePlaneOnly.testCommit
          (o.store.view (o.composition.map DisplayPlaneState.binding)) = true) :=
  ⟨sampleValid 2, fun _ => rfl,
    ValidateLayers_bindings_commit singlePlaneOnly false false false (sampleValid 2)
      (fun _ => rfl)⟩

theorem updateSurfaces_marked (f : NativeSurface → NativeSurface) (P : NativeSurface → Prop)
    (hP : ∀ fb, P (f fb)) :
    ∀ (ids : List Nat) (s : Store) (T : Nat → Prop),
      (∀ fb ∈ s.mgr.surfaces ++ s.mgr.cursorSurfaces, T fb.id → P fb) →
      ∀ fb ∈ (s.updateSurfaces ids f).mgr.surfaces ++ (s.updateSurfaces ids f).mgr.cursorSurfaces,
        (T fb.id ∨ fb.id ∈ ids) → P fb := by
  intro ids
  induction ids with
  | nil =>
    intro s T h fb hfb hT
    rcases hT with hT | hT
    · exact h fb hfb hT
    · cases hT
  | cons a l ih =>
    intro s T h fb hfb hT
    have hstep : ∀ fb ∈ (s.updateSurface a f).mgr.surfaces ++
        (s.updateSurface a f).mgr.cursorSurfaces, (T fb.id ∨ fb.id = a) → P fb := by
      intro fb1 hfb1 hT1
      simp only [Store.updateSurface, List.mem_append, List.mem_map] at hfb1
      have hx : ∃ x, (x ∈ s.mgr.surfaces ++ s.mgr.cursorSurfaces) ∧
          (if x.id = a then f x else x) = fb1 := by
        rcases hfb1 with ⟨x, hx, e⟩ | ⟨x, hx, e⟩
        · exact ⟨x, List.mem_append_left _ hx, e⟩
        · exact ⟨x, List.mem_append_right _ hx, e⟩
      obtain ⟨x, hx, e⟩ := hx
      by_cases hxa : x.id = a
      · rw [if_pos hxa] at e
        rw [← e]; exact hP x
      · rw [if_neg hxa] at e
        subst e
        rcases hT1 with hT1 | hT1
        · exact h _ hx hT1
        · exact absurd hT1 hxa
    have := ih (s.updateSurface a f) (fun i => T i ∨ i = a) hstep fb hfb
    apply this
    rcases hT with hT | hT
    · exact Or.inl (Or.inl hT)
    · rcases List.mem_cons.mp hT with e | hm
      · exact Or.inl (Or.inr e)
      · exact Or.inr hm

theorem resetSurfaceCrops_mem (s : Store) (ids : List Nat) (crop : HwcRect) (b : Bool) :
    ∀ fb ∈ (resetSurfaceCrops s ids crop b).mgr.surfaces ++
        (resetSurfaceCrops s ids crop b).mgr.cursorSurfaces,
      fb.id ∈ ids → fb.layer.sourceCrop = crop ∧ fb.layer.usePlaneScalar = b := by
  intro fb hfb hid
  exact updateSurfaces_marked
    (fun fb => { fb.ResetSourceCrop crop with
      layer := (fb.ResetSourceCrop crop).layer.UsePlaneScalar b })
    (fun fb => fb.layer.sourceCrop = crop ∧ fb.layer.usePlaneScalar = b)
    (fun _ => ⟨rfl, rfl⟩) ids s (fun _ => False) (fun _ _ h => h.elim) fb hfb
    (Or.inr hid)

theorem Store.updateSurfaces_layers (s : Store) (ids : List Nat)
    (f : NativeSurface → NativeSurface) :
    (s.updateSurfaces ids f).layers = s.layers ∧
    (s.updateSurfaces ids f).cursorLayers = s.cursorLayers := by
  induction ids generalizing s with
  | nil => exact ⟨rfl, rfl⟩
  | cons a l ih => exact ih (s.updateSurface a f)

theorem Store.deref_updateSurfaces (s : Store) (ids : List Nat)
    (f : NativeSurface → NativeSurface) (ref : LayerRef) (h : ∀ id, ref ≠ LayerRef.surface id) :
    (s.updateSurfaces ids f).deref ref = s.deref ref := by
  obtain ⟨h1, h2⟩ := s.updateSurfaces_layers ids f
  cases ref with
  | layer k => simp only [Store.deref, h1]
  | cursor k => simp only [Store.deref, h2]
  | surface id => exact absurd rfl (h id)

theorem Store.deref_updateLayer (s : Store) (ref : LayerRef) (f : OverlayLayer → OverlayLayer)
    (h : ∀ id, ref ≠ LayerRef.surface id) :
    (s.updateLayer ref f).deref ref = (s.deref ref).map f := by
  cases ref with
  | layer k => simp [Store.deref, Store.updateLayer, modifyAt_getElem?]
  | cursor k => simp [Store.deref, Store.updateLayer, modifyAt_getElem?]
  | surface id => exact absurd rfl (h id)

theorem FallbacktoGPU_accept {env : Env} {s : Store} {j : DisplayPlane} {ref : LayerRef}
    {c : List OverlayPlane} (hv : env.validateLayer j (s.deref ref) = true)
    (hf : env.frameBuffer (s.deref ref) = true) (ht : env.testCommit (s.view c) = true) :
    FallbacktoGPU env s j ref c = false := by
  simp [FallbacktoGPU, hv, hf, ht]

theorem FallbacktoGPU_reject {env : Env} {s : Store} {j : DisplayPlane} {ref : LayerRef}
    {c : List OverlayPlane}
    (h : (env.validateLayer j (s.deref ref) && env.frameBuffer (s.deref ref)) = false) :
    FallbacktoGPU env s j ref c = true := by
  unfold FallbacktoGPU
  cases hv : env.validateLayer j (s.deref ref)
  · simp
  · cases hf : env.frameBuffer (s.deref ref)
    · simp
    · rw [hv, hf] at h; cases h

theorem overlayLayerLoop_accept (env : Env) (j : DisplayPlane) (i : Nat) (l : OverlayLayer)
    (ls : List OverlayLayer) (p : Plan)
    (hfb : FallbacktoGPU env p.store j (LayerRef.layer i)
      (p.commit_planes ++ [{ plane := j, layer := LayerRef.layer i }]) = false) :
    overlayLayerLoop env false j i (l :: ls) p =
      ({ store := p.store.setInUse j, below := p.below ++ [p.last_plane],
         last_plane := directBinding j (i, l),
         commit_planes := p.commit_planes ++ [{ plane := j, layer := LayerRef.layer i }],
         prefer_seperate_plane := l.preferSeparatePlane }, i + 1, ls) := by
  rw [overlayLayerLoop]
  simp [hfb, acceptBinding, directBinding]

theorem overlayLayerLoop_fold (env : Env) (j : DisplayPlane) (i : Nat) (l : OverlayLayer)
    (ls : List OverlayLayer) (p : Plan)
    (hfb : FallbacktoGPU env p.store j (LayerRef.layer i)
      (p.commit_planes ++ [{ plane := j, layer := LayerRef.layer i }]) = true)
    (hp : p.prefer_seperate_plane = false) (hl : l.preferSeparatePlane = false) :
    overlayLayerLoop env false j i (l :: ls) p =
      overlayLayerLoop env false j (i + 1) ls
        { p with store := (foldLayer p.store p.last_plane l).1,
                 last_plane := (foldLayer p.store p.last_plane l).2 } := by
  rw [overlayLayerLoop]
  simp [hfb, hp, hl]

theorem overlayPlaneLoop_passedOver (env : Env) (rve : Bool) (j : DisplayPlane)
    (planes : List DisplayPlane) (i : Nat) (layers : List OverlayLayer) (p : Plan) :
    overlayPlaneLoop env rve (j :: planes) i layers p =
      if passedOver env p.store.mgr.cursorPlane j then
        overlayPlaneLoop env rve planes i layers p
      else
        overlayPlaneLoop env rve planes (overlayLayerLoop env rve j i layers p).2.1
          (overlayLayerLoop env rve j i layers p).2.2 (overlayLayerLoop env rve j i layers p).1 := by
  rw [overlayPlaneLoop]
  rfl

theorem overlayPlaneLoop_done (env : Env) (rve : Bool) :
    ∀ (planes : List DisplayPlane) (i : Nat) (p : Plan),
      overlayPlaneLoop env rve planes i [] p = (p, i, []) := by
  intro planes
  induction planes with
  | nil => intro i p; rfl
  | cons j planes ih =>
    intro i p
    rw [overlayPlaneLoop_passedOver]
    split
    · exact ih i p
    · simp only [overlayLayerLoop]
      exact ih i p

/-- When every proposed binding is accepted, the plane loop binds the remaining layers one by
one to the planes it does not pass over. -/
theorem overlayPlaneLoop_accept (env : Env) (all : List OverlayLayer)
    (hval : ∀ plane, ∀ l ∈ all, env.validateLayer plane (some l) = true)
    (hbuf : ∀ l ∈ all, env.frameBuffer (some l) = true)
    (htc : ∀ c, env.testCommit c = true) :
    ∀ (planes : List DisplayPlane) (i : Nat) (layers : List OverlayLayer) (p : Plan),
      p.store.layers = all → all.drop i = layers →
      layers.length ≤ (planes.filter (fun j => !passedOver env p.store.mgr.cursorPlane j)).length →
      (overlayPlaneLoop env false planes i layers p).2.2 = [] ∧
      (overlayPlaneLoop env false planes i layers p).1.composition =
        p.composition ++ List.zipWith directBinding
          (planes.filter (fun j => !passedOver env p.store.mgr.cursorPlane j))
          (layers.enumFrom i) ∧
      (overlayPlaneLoop env false planes i layers p).1.store.layers = all ∧
      (overlayPlaneLoop env false planes i layers p).1.store.cursorLayers =
        p.store.cursorLayers := by
  intro planes
  induction planes with
  | nil =>
    intro i layers p hall _ hlen
    have : layers = [] := by
      cases layers with
      | nil => rfl
      | cons a l => simp at hlen
    subst this
    simp [overlayPlaneLoop, hall]
  | cons j planes ih =>
    intro i layers p hall hdrop hlen
    cases layers with
    | nil =>
      rw [overlayPlaneLoop_done]
      simp [hall]
    | cons l ls =>
      rw [overlayPlaneLoop_passedOver]
      cases hpass : passedOver env p.store.mgr.cursorPlane j
      · -- the plane takes the layer
        have hget : all[i]? = some l := by
          rw [← List.head?_drop, hdrop]; rfl
        have hmem : l ∈ all := List.getElem?_mem hget
        have hderef : p.store.deref (LayerRef.layer i) = some l := by
          simp [Store.deref, hall, hget]
        have hfb : FallbacktoGPU env p.store j (LayerRef.layer i)
            (p.commit_planes ++ [{ plane := j, layer := LayerRef.layer i }]) = false :=
          FallbacktoGPU_accept (by rw [hderef]; exact hval j l hmem)
            (by rw [hderef]; exact hbuf l hmem) (htc _)
        rw [if_neg Bool.false_ne_true, overlayLayerLoop_accept env j i l ls p hfb]
        dsimp only
        have hdrop1 : all.drop (i + 1) = ls := by
          have : all.drop (i + 1) = (all.drop i).drop 1 := by rw [List.drop_drop]
          rw [this, hdrop]; rfl
        simp only [List.filter_cons, hpass, Bool.not_false, if_true, List.length_cons] at hlen
        obtain ⟨h1, h2, h3, h4⟩ := ih (i + 1) ls
          { store := p.store.setInUse j, below := p.below ++ [p.last_plane],
            last_plane := directBinding j (i, l),
            commit_planes := p.commit_planes ++ [{ plane := j, layer := LayerRef.layer i }],
            prefer_seperate_plane := l.preferSeparatePlane } hall hdrop1
          (by simpa [Store.setInUse] using hlen)
        refine ⟨h1, ?_, h3, h4⟩
        rw [h2]
        simp [Plan.composition, Store.setInUse, List.filter_cons, hpass]
      · -- the plane is passed over
        rw [if_pos rfl]
        simp only [List.filter_cons, hpass, Bool.not_true, Bool.false_eq_true, if_false] at hlen ⊢
        exact ih i (l :: ls) p hall hdrop hlen

theorem zipWith_directBinding_getElem? :
    ∀ (planes : List DisplayPlane) (layers : List OverlayLayer) (i k : Nat) (l : OverlayLayer),
      layers[k]? = some l → layers.length ≤ planes.length →
      ∃ plane, planes[k]? = some plane ∧
        (List.zipWith directBinding planes (layers.enumFrom i))[k]? =
          some (directBinding plane (i + k, l)) := by
  intro planes
  induction planes with
  | nil =>
    intro layers i k l hl hlen
    cases layers with
    | nil => simp at hl
    | cons a as => simp at hlen
  | cons q planes ih =>
    intro layers i k l hl hlen
    cases layers with
    | nil => simp at hl
    | cons a as =>
      cases k with
      | zero =>
        simp only [List.getElem?_cons_zero, Option.some.injEq] at hl
        subst hl
        exact ⟨q, by simp, by simp⟩
      | succ k =>
        simp only [List.getElem?_cons_succ] at hl
        obtain ⟨plane, h1, h2⟩ := ih as (i + 1) k l hl (by simpa using hlen)
        refine ⟨plane, by simpa using h1, ?_⟩
        simp only [List.enumFrom_cons, List.zipWith_cons_cons, List.getElem?_cons_succ, h2]
        congr 3
        omega

theorem zipWith_directBinding_length (planes : List DisplayPlane) (layers : List OverlayLayer)
    (i : Nat) (h : layers.length ≤ planes.length) :
    (List.zipWith directBinding planes (layers.enumFrom i)).length = layers.length := by
  simp [List.length_zipWith, List.enumFrom_length, h]

theorem zipWith_directBinding_clean :
    ∀ (planes : List DisplayPlane) (ils : List (Nat × OverlayLayer)),
      ∀ ps ∈ List.zipWith directBinding planes ils, ps.forceGpu = false := by
  intro planes
  induction planes with
  | nil => intro ils ps h; simp at h
  | cons q planes ih =>
    intro ils ps h
    cases ils with
    | nil => simp at h
    | cons il ils =>
      simp only [List.zipWith_cons_cons, List.mem_cons] at h
      rcases h with e | h
      · rw [e]; rfl
      · exact ih ils ps h

/-- With every proposed binding accepted, no flag set and no cursor layers, `ValidateLayers`
binds the layers one by one to the usable planes and reports no rendering. -/
theorem ValidateLayers_accept (env : Env) {m : DisplayPlaneManager} {p0 : DisplayPlane}
    {layers : List OverlayLayer} (hv : ValidInput m p0 layers)
    (hval : ∀ plane, ∀ l ∈ layers, env.validateLayer plane (some l) = true)
    (hbuf : ∀ l ∈ layers, env.frameBuffer (some l) = true)
    (htc : ∀ c, env.testCommit c = true)
    (hplanes : layers.length ≤ (usablePlanes env m).length) :
    ∃ s, ValidateLayers env m layers [] false false [] false =
        some { render_layers := false,
               composition := List.zipWith directBinding (usablePlanes env m) layers.enum,
               store := s } ∧
      s.layers = layers := by
  cases hl : layers with
  | nil => exact absurd hl hv.nonempty
  | cons L0 rest =>
    subst hl
    obtain ⟨others, hops⟩ : ∃ others, m.overlayPlanes = p0 :: others := by
      have := hv.planes
      cases hop : m.overlayPlanes with
      | nil => rw [hop] at this; cases this
      | cons a l => rw [hop] at this; cases this; exact ⟨l, rfl⟩
    have husable : usablePlanes env m =
        p0 :: others.filter (fun j => !passedOver env m.cursorPlane j) := by
      simp [usablePlanes, hops]
    rw [husable] at hplanes ⊢
    have hfb : FallbacktoGPU env ((initialStore m (L0 :: rest) []).setInUse p0) p0
        (LayerRef.layer 0) [{ plane := p0, layer := LayerRef.layer 0 }] = false :=
      FallbacktoGPU_accept
        (by simpa [Store.deref, initialStore, Store.setInUse]
          using hval p0 L0 (List.mem_cons_self _ _))
        (by simpa [Store.deref, initialStore, Store.setInUse]
          using hbuf L0 (List.mem_cons_self _ _)) (htc _)
    unfold ValidateLayers planLayers
    simp only [hv.primary, Bool.false_and, Bool.or_false, Bool.false_or, hfb,
      Bool.false_eq_true, if_false]
    cases rest with
    | nil =>
      refine ⟨(initialStore m [L0] []).setInUse p0, ?_, rfl⟩
      simp [planOverlays, Plan.composition, List.enum, directBinding]
    | cons L1 rest =>
      obtain ⟨h1, h2, h3, h4⟩ := overlayPlaneLoop_accept env (L0 :: L1 :: rest) hval hbuf htc
        others 1 (L1 :: rest)
        { store := (initialStore m (L0 :: L1 :: rest) []).setInUse p0, below := [],
          last_plane := DisplayPlaneState.create p0 (LayerRef.layer 0) L0 L0.zorder,
          commit_planes := [{ plane := p0, layer := LayerRef.layer 0 }],
          prefer_seperate_plane := L0.preferSeparatePlane } rfl rfl
        (by simpa [initialStore, Store.setInUse] using hplanes)
      unfold planOverlays
      simp only [List.length_cons, List.isEmpty_cons, Bool.not_false, if_true]
      have hdrop : ((initialStore m (L0 :: L1 :: rest) []).setInUse p0).mgr.overlayPlanes.drop 1 =
          others := by
        simp [initialStore, Store.setInUse, hops]
      rw [hdrop]
      generalize overlayPlaneLoop env false others 1 (L1 :: rest)
        { store := (initialStore m (L0 :: L1 :: rest) []).setInUse p0, below := [],
          last_plane := DisplayPlaneState.create p0 (LayerRef.layer 0) L0 L0.zorder,
          commit_planes := [{ plane := p0, layer := LayerRef.layer 0 }],
          prefer_seperate_plane := L0.preferSeparatePlane } = r at h1 h2 h3 h4
      have hcomp : r.1.composition = List.zipWith directBinding
          (p0 :: others.filter (fun j => !passedOver env m.cursorPlane j))
          (L0 :: L1 :: rest).enum := by
        rw [h2]
        simp [Plan.composition, List.enum, initialStore, Store.setInUse, directBinding]
      have hlast : r.1.last_plane.forceGpu = false := by
        have hm : r.1.last_plane ∈ r.1.composition := by simp [Plan.composition]
        rw [hcomp] at hm
        exact zipWith_directBinding_clean _ _ _ hm
      have hspill : spillOver env r.2.1 r.2.2 false r.1 = some (r.1, false) := by
        rw [h1]
        simp [spillOver, DisplayPlaneState.NeedsOffScreenComposition, hlast]
      rw [hspill]
      dsimp only
      rw [ValidateCursorLayer_nil env r.1.store r.1.composition
        (by rw [h4]; rfl)]
      refine ⟨r.1.store, ?_, h3⟩
      simp [hcomp]

theorem EnsureOffScreenTarget_layers (s : Store) (ps : DisplayPlaneState) :
    (EnsureOffScreenTarget s ps).1.layers = s.layers ∧
    (EnsureOffScreenTarget s ps).1.cursorLayers = s.cursorLayers := by
  unfold EnsureOffScreenTarget
  dsimp only
  split <;> exact ⟨rfl, rfl⟩

theorem foldLayer_layers (s : Store) (lp : DisplayPlaneState) (l : OverlayLayer) :
    (foldLayer s lp l).1.layers = s.layers ∧
    (foldLayer s lp l).1.cursorLayers = s.cursorLayers := by
  unfold foldLayer
  dsimp only
  split
  · exact EnsureOffScreenTarget_layers s _
  · exact ⟨rfl, rfl⟩

theorem overlayLayerLoop_cursorPlane (env : Env) (rve : Bool) (j : DisplayPlane) :
    ∀ (layers : List OverlayLayer) (i : Nat) (p : Plan),
      (overlayLayerLoop env rve j i layers p).1.store.mgr.cursorPlane =
        p.store.mgr.cursorPlane := by
  intro layers
  induction layers with
  | nil => intro i p; rfl
  | cons l ls ih =>
    intro i p
    rw [overlayLayerLoop]
    dsimp only
    generalize (if (rve && l.isVideo) = true then true
      else FallbacktoGPU env p.store j (LayerRef.layer i)
        (p.commit_planes ++ [{ plane := j, layer := LayerRef.layer i }])) = fb
    by_cases hc : (!fb || p.prefer_seperate_plane || l.preferSeparatePlane) = true
    · rw [if_pos hc]
      exact ((Store.setInUse_extends p.store j).trans
        (acceptBinding_spec p.store j (LayerRef.layer i) l fb _).1).cursorPlane
    · rw [if_neg hc, ih]
      exact (foldLayer_spec p.store p.last_plane l).1.cursorPlane

/-- The plane loop of overlay assignment runs as if the planes it passes over were absent. -/
theorem overlayPlaneLoop_filter (env : Env) (rve : Bool) :
    ∀ (planes : List DisplayPlane) (i : Nat) (layers : List OverlayLayer) (p : Plan),
      overlayPlaneLoop env rve planes i layers p =
        overlayPlaneLoop env rve
          (planes.filter (fun j => !passedOver env p.store.mgr.cursorPlane j)) i layers p := by
  intro planes
  induction planes with
  | nil => intro i layers p; rfl
  | cons j planes ih =>
    intro i layers p
    rw [overlayPlaneLoop_passedOver]
    cases hpass : passedOver env p.store.mgr.cursorPlane j
    · rw [if_neg Bool.false_ne_true]
      simp only [List.filter_cons, hpass, Bool.not_false, if_true]
      rw [overlayPlaneLoop_passedOver, hpass, if_neg Bool.false_ne_true, ih,
        overlayLayerLoop_cursorPlane]
    · rw [if_pos rfl]
      simp only [List.filter_cons, hpass, Bool.not_true, Bool.false_eq_true, if_false]
      exact ih i layers p

/-- The run of `ValidateLayers` on two or more layers when the primary layer is accepted, the
plane loop leaves no layer over and its last plane state needs no off-screen composition. -/
theorem ValidateLayers_direct (env : Env) {m : DisplayPlaneManager} {p0 : DisplayPlane}
    {L0 L1 : OverlayLayer} {rest : List OverlayLayer} (hprim : m.primaryPlane = some p0)
    (hfb : FallbacktoGPU env ((initialStore m (L0 :: L1 :: rest) []).setInUse p0) p0
      (LayerRef.layer 0) [{ plane := p0, layer := LayerRef.layer 0 }] = false)
    {r : Plan × Nat × List OverlayLayer}
    (hr : overlayPlaneLoop env false (m.overlayPlanes.drop 1) 1 (L1 :: rest)
      { store := (initialStore m (L0 :: L1 :: rest) []).setInUse p0, below := [],
        last_plane := directBinding p0 (0, L0),
        commit_planes := [{ plane := p0, layer := LayerRef.layer 0 }],
        prefer_seperate_plane := L0.preferSeparatePlane } = r)
    (h1 : r.2.2 = []) (hlast : r.1.last_plane.forceGpu = false)
    (hcur : r.1.store.cursorLayers = []) :
    ValidateLayers env m (L0 :: L1 :: rest) [] false false [] false =
      some { render_layers := false, composition := r.1.composition, store := r.1.store } := by
  unfold ValidateLayers planLayers
  simp only [hprim, Bool.false_and, Bool.or_false, Bool.false_or, hfb,
    Bool.false_eq_true, if_false]
  unfold planOverlays
  simp only [List.length_cons, List.isEmpty_cons, Bool.not_false, if_true]
  have hdrop : ((initialStore m (L0 :: L1 :: rest) []).setInUse p0).mgr.overlayPlanes.drop 1 =
      m.overlayPlanes.drop 1 := rfl
  rw [hdrop]
  have hr2 : overlayPlaneLoop env false (m.overlayPlanes.drop 1) 1 (L1 :: rest)
      { store := (initialStore m (L0 :: L1 :: rest) []).setInUse p0, below := [],
        last_plane := DisplayPlaneState.create p0 (LayerRef.layer 0) L0 L0.zorder,
        commit_planes := [{ plane := p0, layer := LayerRef.layer 0 }],
        prefer_seperate_plane := L0.preferSeparatePlane } = r := hr
  rw [hr2]
  have hspill : spillOver env r.2.1 r.2.2 false r.1 = some (r.1, false) := by
    rw [h1]
    simp [spillOver, DisplayPlaneState.NeedsOffScreenComposition, hlast]
  rw [hspill]
  dsimp only
  rw [ValidateCursorLayer_nil env r.1.store r.1.composition hcur]
  simp

/-- One round of the plane loop in which plane `j` takes the layer at position `i`. -/
theorem overlayPlaneLoop_step_accept (env : Env) (all : List OverlayLayer) {j : DisplayPlane}
    (planes : List DisplayPlane) {i : Nat} {l : OverlayLayer} {ls : List OverlayLayer}
    {p : Plan} (hlayers : p.store.layers = all) (hdrop : all.drop i = l :: ls)
    (hpass : passedOver env p.store.mgr.cursorPlane j = false)
    (hval : env.validateLayer j (some l) = true) (hbuf : env.frameBuffer (some l) = true)
    (htc : ∀ c, env.testCommit c = true) :
    ∃ p', overlayPlaneLoop env false (j :: planes) i (l :: ls) p =
        overlayPlaneLoop env false planes (i + 1) ls p' ∧
      p'.store.layers = all ∧ p'.store.cursorLayers = p.store.cursorLayers ∧
      p'.store.mgr.cursorPlane = p.store.mgr.cursorPlane ∧
      p'.below = p.below ++ [p.last_plane] ∧ p'.last_plane = directBinding j (i, l) ∧
      p'.prefer_seperate_plane = l.preferSeparatePlane ∧ all.drop (i + 1) = ls := by
  have hget : all[i]? = some l := by
    rw [← List.head?_drop, hdrop]; rfl
  have hderef : p.store.deref (LayerRef.layer i) = some l := by
    simp [Store.deref, hlayers, hget]
  have hfb : FallbacktoGPU env p.store j (LayerRef.layer i)
      (p.commit_planes ++ [{ plane := j, layer := LayerRef.layer i }]) = false :=
    FallbacktoGPU_accept (by rw [hderef]; exact hval) (by rw [hderef]; exact hbuf) (htc _)
  have hdrop1 : all.drop (i + 1) = ls := by
    have : all.drop (i + 1) = (all.drop i).drop 1 := by rw [List.drop_drop]
    rw [this, hdrop]; rfl
  refine ⟨{ store := p.store.setInUse j, below := p.below ++ [p.last_plane],
            last_plane := directBinding j (i, l),
            commit_planes := p.commit_planes ++ [{ plane := j, layer := LayerRef.layer i }],
            prefer_seperate_plane := l.preferSeparatePlane },
    ?_, hlayers, rfl, rfl, rfl, rfl, rfl, hdrop1⟩
  rw [overlayPlaneLoop_passedOver, hpass, if_neg Bool.false_ne_true,
    overlayLayerLoop_accept env j i l ls p hfb]

/-- One step of the layer loop in which the layer at position `i` is rejected by plane `j`
and folded into the last plane state; the loop goes on with the same plane. -/
theorem overlayPlaneLoop_step_fold (env : Env) (all : List OverlayLayer) {j : DisplayPlane}
    (planes : List DisplayPlane) {i : Nat} {l : OverlayLayer} {ls : List OverlayLayer}
    {p : Plan} (hlayers : p.store.layers = all) (hdrop : all.drop i = l :: ls)
    (hpass : passedOver env p.store.mgr.cursorPlane j = false)
    (hrej : (env.validateLayer j (some l) && env.frameBuffer (some l)) = false)
    (hp : p.prefer_seperate_plane = false) (hl : l.preferSeparatePlane = false) :
    ∃ p', overlayPlaneLoop env false (j :: planes) i (l :: ls) p =
        overlayPlaneLoop env false (j :: planes) (i + 1) ls p' ∧
      p'.store.layers = all ∧ p'.store.cursorLayers = p.store.cursorLayers ∧
      p'.store.mgr.cursorPlane = p.store.mgr.cursorPlane ∧
      p'.below = p.below ∧ p'.last_plane.plane = p.last_plane.plane ∧
      p'.last_plane.sourceLayers = p.last_plane.sourceLayers ++ [l.zorder] ∧
      p'.last_plane.surfaces ≠ [] ∧
      p'.prefer_seperate_plane = false ∧ all.drop (i + 1) = ls := by
  have hget : all[i]? = some l := by
    rw [← List.head?_drop, hdrop]; rfl
  have hderef : p.store.deref (LayerRef.layer i) = some l := by
    simp [Store.deref, hlayers, hget]
  have hfb : FallbacktoGPU env p.store j (LayerRef.layer i)
      (p.commit_planes ++ [{ plane := j, layer := LayerRef.layer i }]) = true :=
    FallbacktoGPU_reject (by rw [hderef]; exact hrej)
  have hdrop1 : all.drop (i + 1) = ls := by
    have : all.drop (i + 1) = (all.drop i).drop 1 := by rw [List.drop_drop]
    rw [this, hdrop]; rfl
  obtain ⟨hext, hplane, hsrc, _, _, hsurf⟩ := foldLayer_spec p.store p.last_plane l
  obtain ⟨hl1, hl2⟩ := foldLayer_layers p.store p.last_plane l
  refine ⟨{ p with store := (foldLayer p.store p.last_plane l).1,
                   last_plane := (foldLayer p.store p.last_plane l).2 }, ?_,
    by rw [← hlayers]; exact hl1, hl2, hext.cursorPlane, rfl, hplane, hsrc, hsurf, hp, hdrop1⟩
  rw [overlayPlaneLoop_passedOver, hpass, if_neg Bool.false_ne_true,
    overlayLayerLoop_fold env j i l ls p hfb hp hl, overlayPlaneLoop_passedOver]
  have : passedOver env (foldLayer p.store p.last_plane l).1.mgr.cursorPlane j = false := by
    rw [hext.cursorPlane]; exact hpass
  dsimp only
  rw [this, if_neg Bool.false_ne_true]

theorem onPlanes_append {P : DisplayPlane → Prop} {a b : List DisplayPlaneState}
    (ha : OnPlanes P a) (hb : OnPlanes P b) : OnPlanes P (a ++ b) := by
  intro ps hps
  rcases List.mem_append.mp hps with h | h
  · exact ha ps h
  · exact hb ps h

theorem onPlanes_replace {P : DisplayPlane → Prop} {below : List DisplayPlaneState}
    (above : List DisplayPlaneState) {a b : DisplayPlaneState} (h : OnPlanes P (below ++ a :: above)) (hb : b.plane = a.plane) :
    OnPlanes P (below ++ b :: above) := by
  intro ps hps
  rcases List.mem_append.mp hps with h1 | h1
  · exact h ps (List.mem_append_left _ h1)
  · rcases List.mem_cons.mp h1 with h2 | h2
    · rw [h2, hb]
      exact h a (List.mem_append_right _ (List.mem_cons_self _ _))
    · exact h ps (List.mem_append_right _ (List.mem_cons_of_mem _ h2))

theorem overlayLayerLoop_onPlanes (env : Env) (rve : Bool) (P : DisplayPlane → Prop)
    (j : DisplayPlane) (hj : P j) :
    ∀ (layers : List OverlayLayer) (i : Nat) (p : Plan), OnPlanes P p.composition →
      OnPlanes P (overlayLayerLoop env rve j i layers p).1.composition ∧
      p.store.Extends (overlayLayerLoop env rve j i layers p).1.store := by
  intro layers
  induction layers with
  | nil => intro i p h; exact ⟨h, Store.Extends.refl _⟩
  | cons l ls ih =>
    intro i p h
    rw [overlayLayerLoop]
    dsimp only
    generalize (if (rve && l.isVideo) = true then true
      else FallbacktoGPU env p.store j (LayerRef.layer i)
        (p.commit_planes ++ [{ plane := j, layer := LayerRef.layer i }])) = fb
    by_cases hc : (!fb || p.prefer_seperate_plane || l.preferSeparatePlane) = true
    · rw [if_pos hc]
      obtain ⟨hext, hplane, _⟩ := acceptBinding_spec p.store j (LayerRef.layer i) l fb
        (p.commit_planes ++ [{ plane := j, layer := LayerRef.layer i }])
      refine ⟨?_, (Store.setInUse_extends p.store j).trans hext⟩
      refine onPlanes_append h ?_
      intro ps hps
      rw [List.mem_singleton.mp hps, hplane]
      exact hj
    · rw [if_neg hc]
      obtain ⟨hext, hplane, _⟩ := foldLayer_spec p.store p.last_plane l
      obtain ⟨h1, h2⟩ := ih (i + 1)
        { p with store := (foldLayer p.store p.last_plane l).1,
                 last_plane := (foldLayer p.store p.last_plane l).2 }
        (onPlanes_replace [] h hplane)
      exact ⟨h1, hext.trans h2⟩

theorem overlayPlaneLoop_onPlanes (env : Env) (rve : Bool) (P : DisplayPlane → Prop) :
    ∀ (planes : List DisplayPlane) (i : Nat) (layers : List OverlayLayer) (p : Plan),
      (∀ j ∈ planes, passedOver env p.store.mgr.cursorPlane j = false → P j) →
      OnPlanes P p.composition →
      OnPlanes P (overlayPlaneLoop env rve planes i layers p).1.composition ∧
      p.store.Extends (overlayPlaneLoop env rve planes i layers p).1.store := by
  intro planes
  induction planes with
  | nil => intro i layers p _ h; exact ⟨h, Store.Extends.refl _⟩
  | cons j planes ih =>
    intro i layers p hP h
    rw [overlayPlaneLoop_passedOver]
    cases hpass : passedOver env p.store.mgr.cursorPlane j
    · rw [if_neg Bool.false_ne_true]
      obtain ⟨h1, e1⟩ := overlayLayerLoop_onPlanes env rve P j
        (hP j (List.mem_cons_self _ _) hpass) layers i p h
      obtain ⟨h2, e2⟩ := ih (overlayLayerLoop env rve j i layers p).2.1
        (overlayLayerLoop env rve j i layers p).2.2 (overlayLayerLoop env rve j i layers p).1
        (fun q hq hqp => hP q (List.mem_cons_of_mem _ hq) (by rw [← e1.cursorPlane]; exact hqp))
        h1
      exact ⟨h2, e1.trans e2⟩
    · rw [if_pos rfl]
      exact ih i layers p (fun q hq hqp => hP q (List.mem_cons_of_mem _ hq) hqp) h

theorem spillOver_onPlanes (env : Env) (P : DisplayPlane → Prop) {i : Nat}
    {layers : List OverlayLayer} {render : Bool} {p : Plan} {r : Plan × Bool}
    (hr : spillOver env i layers render p = some r) (h : OnPlanes P p.composition) :
    OnPlanes P r.1.composition ∧ p.store.Extends r.1.store := by
  unfold spillOver at hr
  dsimp only at hr
  have hfold : (layers.foldl DisplayPlaneState.AddLayer p.last_plane).plane = p.last_plane.plane := by
    rw [foldl_AddLayer]
  split at hr
  · split at hr
    · obtain ⟨hext, hplane, _⟩ := retargetLastPlane_spec p.store
        (layers.foldl DisplayPlaneState.AddLayer p.last_plane) p.last_plane.videoPlane
        p.commit_planes
      split at hr
      · cases hr
      · rename_i s3 commit3 last3 hv
        obtain ⟨hext2, ⟨u, crop, hsame⟩, _⟩ := ValidateForDisplayScaling_spec hv
        cases hr
        refine ⟨onPlanes_replace [] h ?_, hext.trans hext2⟩
        show last3.plane = p.last_plane.plane
        rw [show last3 = _ from hsame]
        exact hplane.trans hfold
    · cases hr
      exact ⟨onPlanes_replace [] h hfold, Store.Extends.refl _⟩
  · cases hr
    exact ⟨onPlanes_replace [] h hfold, Store.Extends.refl _⟩

theorem foldCursorLayer_onPlanes (env : Env) (P : DisplayPlane → Prop) {p p' : CursorPlan}
    {ref : LayerRef} {c : OverlayLayer} (hr : foldCursorLayer env p ref c = some p')
    (h : OnPlanes P p.composition) :
    OnPlanes P p'.composition ∧ p.store.Extends p'.store := by
  have e1 := p.store.updateLayer_extends ref OverlayLayer.GPURendered (fun _ => rfl)
  obtain ⟨hext, hplane, _⟩ :=
    PreparePlaneForCursor_spec (p.store.updateLayer ref OverlayLayer.GPURendered)
      (p.last_plane.AddLayer c) p.is_video
  unfold foldCursorLayer at hr
  dsimp only at hr
  split at hr
  · cases hr
  · rename_i s3 commit3 last3 hv
    obtain ⟨hext2, ⟨u, crop, hsame⟩, _⟩ := ValidateForDisplayScaling_spec hv
    cases hr
    refine ⟨onPlanes_replace _ h ?_, e1.trans (hext.trans hext2)⟩
    show last3.plane = p.last_plane.plane
    rw [show last3 = _ from hsame]
    exact hplane

theorem acceptCursorLayer_onPlanes (P : DisplayPlane → Prop) {p p' : CursorPlan}
    {plane : DisplayPlane} {ref : LayerRef} {c : OverlayLayer} {commit : List OverlayPlane}
    (hr : acceptCursorLayer p plane ref c commit = some p') (hplane : P plane)
    (h : OnPlanes P p.composition) :
    OnPlanes P p'.composition ∧ p.store.Extends p'.store := by
  unfold acceptCursorLayer at hr
  dsimp only at hr
  split at hr
  · cases hr
  · rename_i below last_plane above hg
    obtain ⟨hsplit, _⟩ := GetLastUsedOverlay_spec hg
    cases hr
    refine ⟨?_, Store.setInUse_extends _ _⟩
    show OnPlanes P (below ++ last_plane :: above)
    have hs : p.composition ++ [DisplayPlaneState.create plane ref c c.zorder] =
        below ++ last_plane :: above := hsplit
    rw [← hs]
    refine onPlanes_append h ?_
    intro ps hps
    rw [List.mem_singleton.mp hps]
    exact hplane

theorem cursorPlaneLoop_passedOver (env : Env) (plane : DisplayPlane)
    (planes : List DisplayPlane) (k : Nat) (c : OverlayLayer) (cs : List OverlayLayer)
    (p : CursorPlan) :
    cursorPlaneLoop env (plane :: planes) k (c :: cs) p =
      if p.store.InUse plane then some (p, k, c :: cs)
      else if passedOver env p.store.mgr.cursorPlane plane then
        cursorPlaneLoop env planes k (c :: cs) p
      else
        match (if FallbacktoGPU env p.store plane (LayerRef.cursor k)
                  (p.commit_planes ++ [{ plane := plane, layer := LayerRef.cursor k }]) then
                 foldCursorLayer env p (LayerRef.cursor k) c
               else acceptCursorLayer p plane (LayerRef.cursor k) c
                 (p.commit_planes ++ [{ plane := plane, layer := LayerRef.cursor k }])) with
        | none => none
        | some p1 => cursorPlaneLoop env planes (k + 1) cs p1 := by
  rw [cursorPlaneLoop]
  rfl

theorem cursorPlaneLoop_onPlanes (env : Env) (P : DisplayPlane → Prop) :
    ∀ (planes : List DisplayPlane) (k : Nat) (cs : List OverlayLayer) (p : CursorPlan)
      (r : CursorPlan × Nat × List OverlayLayer),
      cursorPlaneLoop env planes k cs p = some r →
      (∀ j ∈ planes, passedOver env p.store.mgr.cursorPlane j = false → P j) →
      OnPlanes P p.composition →
      OnPlanes P r.1.composition ∧ p.store.Extends r.1.store := by
  intro planes
  induction planes with
  | nil =>
    intro k cs p r hr _ h
    rw [cursorPlaneLoop] at hr
    cases hr
    exact ⟨h, Store.Extends.refl _⟩
  | cons plane planes ih =>
    intro k cs p r hr hP h
    cases cs with
    | nil =>
      rw [cursorPlaneLoop] at hr
      cases hr
      exact ⟨h, Store.Extends.refl _⟩
    | cons c cs =>
      rw [cursorPlaneLoop_passedOver] at hr
      split at hr
      · cases hr
        exact ⟨h, Store.Extends.refl _⟩
      · cases hpass : passedOver env p.store.mgr.cursorPlane plane
        · rw [hpass, if_neg Bool.false_ne_true] at hr
          split at hr
          · cases hr
          · rename_i p1 hp1
            have hstep : OnPlanes P p1.composition ∧ p.store.Extends p1.store := by
              split at hp1
              · exact foldCursorLayer_onPlanes env P hp1 h
              · exact acceptCursorLayer_onPlanes P hp1
                  (hP plane (List.mem_cons_self _ _) hpass) h
            obtain ⟨h2, e2⟩ := ih (k + 1) cs p1 r hr
              (fun q hq hqp => hP q (List.mem_cons_of_mem _ hq)
                (by rw [← hstep.2.cursorPlane]; exact hqp)) hstep.1
            exact ⟨h2, hstep.2.trans e2⟩
        · rw [hpass, if_pos rfl] at hr
          exact ih k (c :: cs) p r hr (fun q hq hqp => hP q (List.mem_cons_of_mem _ hq) hqp) h

theorem ValidateCursorLayer_onPlanes (env : Env) (P : DisplayPlane → Prop) {s : Store}
    {composition : List DisplayPlaneState} {r : Bool × Store × List DisplayPlaneState}
    (hr : ValidateCursorLayer env s composition = some r)
    (hP : ∀ j ∈ s.mgr.overlayPlanes, passedOver env s.mgr.cursorPlane j = false → P j)
    (h : OnPlanes P composition) :
    OnPlanes P r.2.2 ∧ s.Extends r.2.1 := by
  unfold ValidateCursorLayer at hr
  split at hr
  · cases hr
    exact ⟨h, Store.Extends.refl _⟩
  · split at hr
    · cases hr
    · rename_i below last_plane above hg
      obtain ⟨hsplit, _⟩ := GetLastUsedOverlay_spec hg
      dsimp only at hr
      split at hr
      · cases hr
      · rename_i p k cs hloop
        obtain ⟨h1, e1⟩ := cursorPlaneLoop_onPlanes env P _ _ _ _ _ hloop
          (fun j hj hjp => hP j (List.mem_reverse.mp hj) hjp)
          (by
            show OnPlanes P (below ++ last_plane :: above)
            have hs : composition = below ++ last_plane :: above := hsplit
            rw [← hs]; exact h)
        obtain ⟨e2, hfold⟩ := foldCursors_spec cs k p.store p.last_plane
        have hfp : (foldCursors k cs p.store p.last_plane).2.plane = p.last_plane.plane := by
          rw [hfold]
        split at hr
        · cases hr
          exact ⟨onPlanes_replace _ h1 hfp, e1.trans e2⟩
        · obtain ⟨e3, hplane, _⟩ := PreparePlaneForCursor_spec
            (foldCursors k cs p.store p.last_plane).1
            (foldCursors k cs p.store p.last_plane).2 p.is_video
          split at hr
          · cases hr
          · rename_i s3 commit3 last3 hv
            obtain ⟨e4, ⟨u, crop, hsame⟩, _⟩ := ValidateForDisplayScaling_spec hv
            cases hr
            refine ⟨onPlanes_replace _ h1 ?_, e1.trans (e2.trans (e3.trans e4))⟩
            show last3.plane = p.last_plane.plane
            rw [show last3 = _ from hsame]
            exact hplane.trans hfp

theorem ValidateFinalLayers_onPlanes (env : Env) (P : DisplayPlane → Prop) {s : Store}
    {composition : List DisplayPlaneState} {r : Store × List DisplayPlaneState}
    (hr : ValidateFinalLayers env s composition = some r)
    (hprim : ∀ q, s.mgr.primaryPlane = some q → P q) (h : OnPlanes P composition) :
    OnPlanes P r.2 := by
  obtain ⟨e1, h2⟩ := ensureTargets_spec composition s
  unfold ValidateFinalLayers at hr
  dsimp only at hr
  split at hr
  · have e2 := releaseTargets_extends (ensureTargets composition s).2
      (ensureTargets composition s).1
    split at hr
    · cases hr
    · cases hr
    · rename_i current_plane primary_layer rest hpp _
      obtain ⟨id, hid⟩ := EnsureOffScreenTarget_state
        ((releaseTargets (ensureTargets composition s).2
          (ensureTargets composition s).1).setInUse current_plane)
        (rest.foldl DisplayPlaneState.AddLayer
          (DisplayPlaneState.create current_plane (LayerRef.layer 0) primary_layer
            primary_layer.zorder).ForceGPURendering)
      cases hr
      intro ps hps
      rw [List.mem_singleton.mp hps, hid, foldl_AddLayer]
      apply hprim
      rw [← (e1.trans e2).primaryPlane]
      exact hpp
  · cases hr
    intro b hb
    obtain ⟨a, ha, ids, rfl, _⟩ := Forall₂_retargeted_mem h2 b hb
    exact h a ha

theorem planOverlays_onPlanes (env : Env) (rve : Bool) (P : DisplayPlane → Prop)
    {rest : List OverlayLayer} {render : Bool} {p : Plan} {pl : Planned}
    (hr : planOverlays env rve rest render p = some pl)
    (hP : ∀ j ∈ p.store.mgr.overlayPlanes, passedOver env p.store.mgr.cursorPlane j = false →
      P j)
    (h : OnPlanes P p.composition) :
    match pl with
    | Planned.returned o => OnPlanes P o.composition
    | Planned.proposed _ s composition => OnPlanes P composition ∧ p.store.Extends s := by
  unfold planOverlays at hr
  split at hr
  · cases hr
    exact h
  · dsimp only at hr
    have hplanned : ∀ q, (if (!rest.isEmpty) = true then
          spillOver env
            (overlayPlaneLoop env rve (List.drop 1 p.store.mgr.overlayPlanes) 1 rest p).2.1
            (overlayPlaneLoop env rve (List.drop 1 p.store.mgr.overlayPlanes) 1 rest p).2.2
            render (overlayPlaneLoop env rve (List.drop 1 p.store.mgr.overlayPlanes) 1 rest p).1
        else some (p, render)) = some q →
        OnPlanes P q.1.composition ∧ p.store.Extends q.1.store := by
      intro q hq
      split at hq
      · obtain ⟨h1, e1⟩ := overlayPlaneLoop_onPlanes env rve P
          (List.drop 1 p.store.mgr.overlayPlanes) 1 rest p
          (fun j hj hjp => hP j (List.mem_of_mem_drop hj) hjp) h
        obtain ⟨h2, e2⟩ := spillOver_onPlanes env P hq h1
        exact ⟨h2, e1.trans e2⟩
      · cases hq
        exact ⟨h, Store.Extends.refl _⟩
    split at hr
    · cases hr
    · rename_i p1 render1 hq
      obtain ⟨h1, e1⟩ := hplanned _ hq
      split at hr
      · cases hr
      · rename_i rc s2 composition2 hcur
        cases hr
        obtain ⟨h2, e2⟩ := ValidateCursorLayer_onPlanes env P hcur
          (fun j hj hjp => hP j (by rw [← e1.overlayPlanes]; exact hj)
            (by rw [← e1.cursorPlane]; exact hjp)) h1
        exact ⟨h2, e1.trans e2⟩

/-- Every plane state of a composition `ValidateLayers` returns sits on the primary plane or
on a plane that the plane loops do not pass over. -/
theorem ValidateLayers_onPlanes (env : Env) (P : DisplayPlane → Prop)
    {m : DisplayPlaneManager} {layers cursors : List OverlayLayer} {pm dis rve : Bool}
    {o : Outcome} (hr : ValidateLayers env m layers cursors pm dis [] rve = some o)
    (hprim : ∀ q, m.primaryPlane = some q → P q)
    (hP : ∀ j ∈ m.overlayPlanes, passedOver env m.cursorPlane j = false → P j) :
    OnPlanes P o.composition := by
  have hplan : ∀ pl, planLayers env m layers cursors pm dis [] rve = some pl →
      (∀ o, pl = Planned.returned o → OnPlanes P o.composition) ∧
      (∀ r s composition, pl = Planned.proposed r s composition →
        OnPlanes P composition ∧ s.mgr.primaryPlane = m.primaryPlane) := by
    intro pl hpl
    unfold planLayers at hpl
    dsimp only at hpl
    split at hpl
    · cases hpl
    · cases hpl
    · rename_i primary_layer rest current_plane hprimary
      have hcp : P current_plane := hprim _ hprimary
      have hfinish : ∀ (render : Bool) (p : Plan),
          planOverlays env rve rest render p = some pl →
          ((initialStore m (primary_layer :: rest) cursors).setInUse current_plane).Extends
            p.store → p.below = [] → p.last_plane.plane = current_plane →
          (∀ o, pl = Planned.returned o → OnPlanes P o.composition) ∧
          (∀ r s composition, pl = Planned.proposed r s composition →
            OnPlanes P composition ∧ s.mgr.primaryPlane = m.primaryPlane) := by
        intro render p hp hext hbelow hplane
        have h0 : OnPlanes P p.composition := by
          intro ps hps
          simp only [Plan.composition, hbelow, List.nil_append, List.mem_singleton] at hps
          rw [hps, hplane]; exact hcp
        have := planOverlays_onPlanes env rve P hp
          (fun j hj hjp => hP j (by rw [hext.overlayPlanes] at hj; exact hj)
            (by rw [hext.cursorPlane] at hjp; exact hjp)) h0
        refine ⟨fun o ho => ?_, fun r s composition ho => ?_⟩
        · subst ho; exact this
        · subst ho
          exact ⟨this.1, by rw [this.2.primaryPlane, hext.primaryPlane]; rfl⟩
      split at hpl
      · split at hpl
        · obtain ⟨id, hid⟩ := ResetPlaneTarget_state
            (foldAllLayers 1 rest
              ((initialStore m (primary_layer :: rest) cursors).setInUse current_plane)
              (DisplayPlaneState.create current_plane (LayerRef.layer 0) primary_layer
                primary_layer.zorder)).1
            (foldAllLayers 1 rest
              ((initialStore m (primary_layer :: rest) cursors).setInUse current_plane)
              (DisplayPlaneState.create current_plane (LayerRef.layer 0) primary_layer
                primary_layer.zorder)).2
            [{ plane := current_plane, layer := LayerRef.layer 0 }]
          obtain ⟨_, hfold⟩ := foldAllLayers_spec rest 1
            ((initialStore m (primary_layer :: rest) cursors).setInUse current_plane)
            (DisplayPlaneState.create current_plane (LayerRef.layer 0) primary_layer
              primary_layer.zorder)
          cases hpl
          refine ⟨fun o ho => ?_, fun r s composition ho => by cases ho⟩
          cases ho
          intro ps hps
          simp only [List.nil_append, List.mem_singleton] at hps
          rw [hps, hid, hfold]
          exact hcp
        · obtain ⟨id, hid⟩ := ResetPlaneTarget_state
            ((initialStore m (primary_layer :: rest) cursors).setInUse current_plane)
            (if primary_layer.isVideo = true then
              (DisplayPlaneState.create current_plane (LayerRef.layer 0) primary_layer
                primary_layer.zorder).SetVideoPlane
             else DisplayPlaneState.create current_plane (LayerRef.layer 0) primary_layer
                primary_layer.zorder)
            [{ plane := current_plane, layer := LayerRef.layer 0 }]
          have hext1 := ResetPlaneTarget_extends
            ((initialStore m (primary_layer :: rest) cursors).setInUse current_plane)
            (if primary_layer.isVideo = true then
              (DisplayPlaneState.create current_plane (LayerRef.layer 0) primary_layer
                primary_layer.zorder).SetVideoPlane
             else DisplayPlaneState.create current_plane (LayerRef.layer 0) primary_layer
                primary_layer.zorder)
            [{ plane := current_plane, layer := LayerRef.layer 0 }]
          split at hpl
          · cases hpl
          · rename_i s3 commit3 last3 hv
            obtain ⟨hext2, ⟨u, crop, hsame⟩, _⟩ := ValidateForDisplayScaling_spec hv
            refine hfinish true _ hpl (hext1.trans hext2) rfl ?_
            show last3.plane = current_plane
            rw [show last3 = _ from hsame, hid]
            split <;> rfl
      · exact hfinish false _ hpl (Store.Extends.refl _) rfl rfl
  unfold ValidateLayers at hr
  split at hr
  · cases hr
  · rename_i o1 hpl
    cases hr
    exact (hplan _ hpl).1 _ rfl
  · rename_i render s composition1 hpl
    obtain ⟨h1, hp1⟩ := (hplan _ hpl).2 _ _ _ rfl
    split at hr
    · split at hr
      · cases hr
      · rename_i s2 composition2 hfin
        split at hr
        · cases hr
        · cases hr
          exact ValidateFinalLayers_onPlanes env P hfin
            (fun q hq => hprim q (by rw [← hp1]; exact hq)) h1
    · cases hr
      exact h1

/-- The run of `ValidateLayers` on two or more layers when the primary layer is accepted, the
plane loop leaves no layer over, its last plane state needs no off-screen composition and
cursor planning renders nothing. -/
theorem ValidateLayers_overlay (env : Env) {m : DisplayPlaneManager} {p0 : DisplayPlane}
    {L0 L1 : OverlayLayer} {rest : List OverlayLayer} (cursors : List OverlayLayer)
    (hprim : m.primaryPlane = some p0)
    (hfb : FallbacktoGPU env ((initialStore m (L0 :: L1 :: rest) cursors).setInUse p0) p0
      (LayerRef.layer 0) [{ plane := p0, layer := LayerRef.layer 0 }] = false)
    {r : Plan × Nat × List OverlayLayer}
    (hr : overlayPlaneLoop env false (m.overlayPlanes.drop 1) 1 (L1 :: rest)
      { store := (initialStore m (L0 :: L1 :: rest) cursors).setInUse p0, below := [],
        last_plane := directBinding p0 (0, L0),
        commit_planes := [{ plane := p0, layer := LayerRef.layer 0 }],
        prefer_seperate_plane := L0.preferSeparatePlane } = r)
    (h1 : r.2.2 = []) (hlast : r.1.last_plane.forceGpu = false)
    {s2 : Store} {composition2 : List DisplayPlaneState}
    (hcur : ValidateCursorLayer env r.1.store r.1.composition = some (false, s2, composition2)) :
    ValidateLayers env m (L0 :: L1 :: rest) cursors false false [] false =
      some { render_layers := false, composition := composition2, store := s2 } := by
  unfold ValidateLayers planLayers
  simp only [hprim, Bool.false_and, Bool.or_false, Bool.false_or, hfb,
    Bool.false_eq_true, if_false]
  unfold planOverlays
  simp only [List.length_cons, List.isEmpty_cons, Bool.not_false, if_true]
  have hdrop : ((initialStore m (L0 :: L1 :: rest) cursors).setInUse p0).mgr.overlayPlanes.drop 1
      = m.overlayPlanes.drop 1 := rfl
  rw [hdrop]
  have hr2 : overlayPlaneLoop env false (m.overlayPlanes.drop 1) 1 (L1 :: rest)
      { store := (initialStore m (L0 :: L1 :: rest) cursors).setInUse p0, below := [],
        last_plane := DisplayPlaneState.create p0 (LayerRef.layer 0) L0 L0.zorder,
        commit_planes := [{ plane := p0, layer := LayerRef.layer 0 }],
        prefer_seperate_plane := L0.preferSeparatePlane } = r := hr
  rw [hr2]
  have hspill : spillOver env r.2.1 r.2.2 false r.1 = some (r.1, false) := by
    rw [h1]
    simp [spillOver, DisplayPlaneState.NeedsOffScreenComposition, hlast]
  rw [hspill]
  dsimp only
  rw [hcur]
  simp

/-- Under `DISABLE_CURSOR_PLANE` with four planes of which the topmost is reserved: two layers
and one cursor layer, all accepted. The cursor loop passes over the reserved plane and binds
the cursor layer to the third plane. -/
theorem ValidateLayers_cursor_on_third_plane (env : Env) (hpol : env.disableCursorPlane = true)
    {m : DisplayPlaneManager} {p0 p1 p2 p3 : DisplayPlane}
    (hops : m.overlayPlanes = [p0, p1, p2, p3]) (hcp : m.cursorPlane = some p3)
    (hprim : m.primaryPlane = some p0) (hd : ([p0, p1, p2, p3].map DisplayPlane.id).Nodup)
    (L0 L1 C : OverlayLayer)
    (hval : ∀ plane, ∀ l ∈ [L0, L1, C], env.validateLayer plane (some l) = true)
    (hbuf : ∀ l ∈ [L0, L1, C], env.frameBuffer (some l) = true)
    (htc : ∀ c, env.testCommit c = true) :
    ∃ s, ValidateLayers env m [L0, L1] [C] false false [] false =
      some { render_layers := false,
             composition := [directBinding p0 (0, L0), directBinding p1 (1, L1),
               DisplayPlaneState.create p2 (LayerRef.cursor 0) C C.zorder],
             store := s } := by
  simp only [List.map_cons, List.map_nil, List.nodup_cons, List.mem_cons, List.mem_singleton,
    List.not_mem_nil, not_or, or_false, not_false_eq_true, List.nodup_nil, and_true] at hd
  obtain ⟨⟨h01, h02, h03⟩, ⟨h12, h13⟩, h23⟩ := hd
  have hfb : FallbacktoGPU env ((initialStore m [L0, L1] [C]).setInUse p0) p0
      (LayerRef.layer 0) [{ plane := p0, layer := LayerRef.layer 0 }] = false :=
    FallbacktoGPU_accept
      (by simpa [Store.deref, initialStore, Store.setInUse] using hval p0 L0 (by simp))
      (by simpa [Store.deref, initialStore, Store.setInUse] using hbuf L0 (by simp)) (htc _)
  have hpass1 : passedOver env m.cursorPlane p1 = false := by
    simp [passedOver, hcp, hpol, Ne.symm h13]
  have hpass2 : passedOver env m.cursorPlane p2 = false := by
    simp [passedOver, hcp, hpol, Ne.symm h23]
  have hpass3 : passedOver env m.cursorPlane p3 = true := by
    simp [passedOver, hcp, hpol]
  have hfb1 : FallbacktoGPU env ((initialStore m [L0, L1] [C]).setInUse p0) p1
      (LayerRef.layer 1)
      ([{ plane := p0, layer := LayerRef.layer 0 }] ++
        [{ plane := p1, layer := LayerRef.layer 1 }]) = false :=
    FallbacktoGPU_accept
      (by simpa [Store.deref, initialStore, Store.setInUse] using hval p1 L1 (by simp))
      (by simpa [Store.deref, initialStore, Store.setInUse] using hbuf L1 (by simp)) (htc _)
  have hloop : overlayPlaneLoop env false (m.overlayPlanes.drop 1) 1 [L1]
      { store := (initialStore m [L0, L1] [C]).setInUse p0, below := [],
        last_plane := directBinding p0 (0, L0),
        commit_planes := [{ plane := p0, layer := LayerRef.layer 0 }],
        prefer_seperate_plane := L0.preferSeparatePlane } =
      ({ store := ((initialStore m [L0, L1] [C]).setInUse p0).setInUse p1,
         below := [directBinding p0 (0, L0)], last_plane := directBinding p1 (1, L1),
         commit_planes := [{ plane := p0, layer := LayerRef.layer 0 },
           { plane := p1, layer := LayerRef.layer 1 }],
         prefer_seperate_plane := L1.preferSeparatePlane }, 2, []) := by
    rw [hops]
    simp only [List.drop_succ_cons, List.drop_zero]
    rw [overlayPlaneLoop_passedOver]
    have : passedOver env ((initialStore m [L0, L1] [C]).setInUse p0).mgr.cursorPlane p1 =
        false := hpass1
    rw [this, if_neg Bool.false_ne_true, overlayLayerLoop_accept env p1 1 L1 [] _ hfb1,
      overlayPlaneLoop_done]
    rfl
  refine ⟨(((initialStore m [L0, L1] [C]).setInUse p0).setInUse p1).setInUse p2,
    ValidateLayers_overlay env [C] hprim hfb hloop rfl rfl ?_⟩
  have hlast : GetLastUsedOverlay (((initialStore m [L0, L1] [C]).setInUse p0).setInUse p1).mgr
      [directBinding p0 (0, L0), directBinding p1 (1, L1)] =
      some ([directBinding p0 (0, L0)], directBinding p1 (1, L1), []) := by
    simp [GetLastUsedOverlay, lastUsedScan, isCursorOnly, initialStore, Store.setInUse, hcp,
      directBinding, DisplayPlaneState.create, Ne.symm h13]
  unfold ValidateCursorLayer
  simp only [Plan.composition, List.singleton_append]
  rw [hlast]
  have hrev : (((initialStore m [L0, L1] [C]).setInUse p0).setInUse p1).mgr.overlayPlanes.reverse
      = [p3, p2, p1, p0] := by
    show m.overlayPlanes.reverse = _
    rw [hops]; rfl
  have hcur : (((initialStore m [L0, L1] [C]).setInUse p0).setInUse p1).cursorLayers = [C] := rfl
  simp only [hcur, hrev, List.isEmpty_cons, Bool.false_eq_true, if_false]
  have hin3 : (((initialStore m [L0, L1] [C]).setInUse p0).setInUse p1).InUse p3 = false := by
    simp [Store.InUse, Store.setInUse, initialStore, Ne.symm h13, Ne.symm h03]
  have hin2 : (((initialStore m [L0, L1] [C]).setInUse p0).setInUse p1).InUse p2 = false := by
    simp [Store.InUse, Store.setInUse, initialStore, Ne.symm h12, Ne.symm h02]
  have hps3 : passedOver env
      (((initialStore m [L0, L1] [C]).setInUse p0).setInUse p1).mgr.cursorPlane p3 = true :=
    hpass3
  have hps2 : passedOver env
      (((initialStore m [L0, L1] [C]).setInUse p0).setInUse p1).mgr.cursorPlane p2 = false :=
    hpass2
  have hfbc : FallbacktoGPU env (((initialStore m [L0, L1] [C]).setInUse p0).setInUse p1) p2
      (LayerRef.cursor 0)
      (List.map DisplayPlaneState.binding [directBinding p0 (0, L0), directBinding p1 (1, L1)] ++
        [{ plane := p2, layer := LayerRef.cursor 0 }]) = false :=
    FallbacktoGPU_accept
      (by simpa [Store.deref, initialStore, Store.setInUse] using hval p2 C (by simp))
      (by simpa [Store.deref, initialStore, Store.setInUse] using hbuf C (by simp)) (htc _)
  have hlast2 : GetLastUsedOverlay
      ((((initialStore m [L0, L1] [C]).setInUse p0).setInUse p1).setInUse p2).mgr
      [directBinding p0 (0, L0), directBinding p1 (1, L1),
        DisplayPlaneState.create p2 (LayerRef.cursor 0) C C.zorder] =
      some ([directBinding p0 (0, L0), directBinding p1 (1, L1)],
        DisplayPlaneState.create p2 (LayerRef.cursor 0) C C.zorder, []) := by
    simp [GetLastUsedOverlay, lastUsedScan, isCursorOnly, initialStore, Store.setInUse, hcp,
      DisplayPlaneState.create, Ne.symm h23]
  rw [cursorPlaneLoop_passedOver]
  dsimp only
  rw [hin3, if_neg Bool.false_ne_true, hps3, if_pos rfl, cursorPlaneLoop_passedOver]
  dsimp only
  rw [hin2, if_neg Bool.false_ne_true, hps2, if_neg Bool.false_ne_true, hfbc,
    if_neg Bool.false_ne_true]
  unfold acceptCursorLayer
  simp only [CursorPlan.composition, List.cons_append, List.nil_append]
  rw [hlast2]
  simp [cursorPlaneLoop, foldCursors]

theorem modifyLast_append_singleton {α : Type} (f : α → α) (l : List α) (a : α) :
    modifyLast f (l ++ [a]) = l ++ [f a] := by
  induction l with
  | nil => rfl
  | cons b l ih =>
    cases l with
    | nil => rfl
    | cons c l =>
      simp only [List.cons_append] at ih ⊢
      rw [modifyLast, ih]

/-- The layers of `s'` are those of `s` up to their `use_plane_scalar` flags. -/
theorem Store.updateLayer_scalar (s : Store) (ref : LayerRef) (b : Bool) :
    (s.updateLayer ref (fun l => l.UsePlaneScalar b)).layers.map
        (fun l => l.UsePlaneScalar false) =
      s.layers.map (fun l => l.UsePlaneScalar false) := by
  cases ref with
  | layer k =>
    exact modifyAt_map_of_eq (fun l => l.UsePlaneScalar b) (fun l => l.UsePlaneScalar false)
      (fun _ => rfl) k s.layers
  | cursor k => rfl
  | surface id => rfl

theorem clearPlaneScalar_layers (s : Store) (lp : DisplayPlaneState) (ref : LayerRef) :
    (clearPlaneScalar s lp ref).1.layers.map (fun l => l.UsePlaneScalar false) =
      s.layers.map (fun l => l.UsePlaneScalar false) := by
  unfold clearPlaneScalar
  split
  · unfold resetSurfaceCrops
    rw [(Store.updateSurfaces_layers _ _ _).1]
    exact s.updateLayer_scalar ref false
  · rfl

/-- `ValidateForDisplayScaling` writes no flag of an input layer but `use_plane_scalar`, and
leaves a commit list whose last binding is the plane state's as it is. -/
theorem ValidateForDisplayScaling_frame {env : Env} {s : Store} {c : List OverlayPlane}
    {lp : DisplayPlaneState} {ref : LayerRef} {cur : OverlayLayer} {ig : Bool}
    {r : Store × List OverlayPlane × DisplayPlaneState}
    (h : ValidateForDisplayScaling env s (c ++ [lp.binding]) lp ref cur ig = some r) :
    r.1.layers.map (fun l => l.UsePlaneScalar false) =
      s.layers.map (fun l => l.UsePlaneScalar false) ∧
    r.2.1 = c ++ [lp.binding] ∧ r.2.2.binding = lp.binding := by
  obtain ⟨crop0, h0⟩ := clearPlaneScalar_state s lp ref
  have hl0 := clearPlaneScalar_layers s lp ref
  have hbind : ∀ (u : Bool) (crop : HwcRect),
      ({ lp with usesPlaneScalar := u, sourceCrop := crop } : DisplayPlaneState).binding =
        lp.binding := fun _ _ => rfl
  have hcommit : modifyLast (fun op => { op with layer :=
      ((clearPlaneScalar s lp ref).2.SetSourceCrop cur.sourceCrop).GetOverlayLayer })
      (c ++ [lp.binding]) = c ++ [lp.binding] := by
    rw [modifyLast_append_singleton, h0]
    rfl
  unfold ValidateForDisplayScaling at h
  dsimp only at h
  split at h
  · cases h
    exact ⟨hl0, rfl, by rw [h0]; rfl⟩
  · split at h
    · cases h
      exact ⟨hl0, rfl, by rw [h0]; rfl⟩
    · split at h
      · cases h
      · split at h
        · cases h
          refine ⟨?_, hcommit, by rw [h0]; rfl⟩
          unfold resetSurfaceCrops
          rw [(Store.updateSurfaces_layers _ _ _).1, (Store.updateSurfaces_layers _ _ _).1]
          exact hl0
        · cases h
          refine ⟨?_, hcommit, by rw [h0]; rfl⟩
          rw [Store.updateLayer_scalar]
          unfold resetSurfaceCrops
          rw [(Store.updateSurfaces_layers _ _ _).1]
          exact hl0

theorem revalidatePlaneScalar_spec {env : Env} {s : Store} {c : List OverlayPlane}
    {temp : DisplayPlaneState} {r : Store × List OverlayPlane × DisplayPlaneState}
    (h : revalidatePlaneScalar env s (c ++ [temp.binding]) temp = some r) :
    s.Extends r.1 ∧
    r.1.layers.map (fun l => l.UsePlaneScalar false) =
      s.layers.map (fun l => l.UsePlaneScalar false) ∧
    r.2.1 = c ++ [temp.binding] ∧ temp.SameButScalar r.2.2 := by
  unfold revalidatePlaneScalar at h
  dsimp only at h
  split at h
  · split at h
    · cases h
    · split at h
      · cases h
      · split at h
        · cases h
        · obtain ⟨e1, hs1, _⟩ := ValidateForDisplayScaling_spec h
          obtain ⟨f1, f2, _⟩ := ValidateForDisplayScaling_frame h
          exact ⟨e1, f1, f2, hs1⟩
  · cases h
    exact ⟨Store.Extends.refl _, rfl, rfl, ⟨temp.usesPlaneScalar, temp.sourceCrop, rfl⟩⟩

theorem revalidateScalars_spec (env : Env) :
    ∀ (composition : List DisplayPlaneState) (s : Store) (commit : List OverlayPlane)
      (r : Store × List OverlayPlane × List DisplayPlaneState),
      revalidateScalars env composition s commit = some r →
      s.Extends r.1 ∧
      r.1.layers.map (fun l => l.UsePlaneScalar false) =
        s.layers.map (fun l => l.UsePlaneScalar false) ∧
      r.2.1 = commit ++ composition.map DisplayPlaneState.binding ∧
      List.Forall₂ DisplayPlaneState.SameButScalar composition r.2.2 := by
  intro composition
  induction composition with
  | nil =>
    intro s commit r h
    rw [revalidateScalars] at h
    cases h
    exact ⟨Store.Extends.refl _, rfl, by simp, List.Forall₂.nil⟩
  | cons temp planes ih =>
    intro s commit r h
    rw [revalidateScalars] at h
    split at h
    · cases h
    · rename_i s1 commit2 temp1 hstep
      obtain ⟨e1, f1, f2, hs1⟩ := revalidatePlaneScalar_spec hstep
      split at h
      · cases h
      · rename_i s2 commit3 planes1 hrest
        obtain ⟨e2, g1, g2, g3⟩ := ih s1 commit2 _ hrest
        cases h
        refine ⟨e1.trans e2, g1.trans f1, ?_, List.Forall₂.cons hs1 g3⟩
        show commit3 = _
        rw [show commit3 = _ from g2, show commit2 = _ from f2]
        simp

theorem revalidateFeedback_eq :
    ∀ (composition : List DisplayPlaneState) (render : Bool) (layers : List OverlayLayer),
      revalidateFeedback composition render layers =
        (markRendered composition layers).map (fun marked =>
          (render || composition.any DisplayPlaneState.NeedsOffScreenComposition, marked)) := by
  intro composition
  induction composition with
  | nil => intro render layers; simp [revalidateFeedback, markRendered]
  | cons ps rest ih =>
    intro render layers
    rw [revalidateFeedback, markRendered]
    cases hn : ps.NeedsOffScreenComposition
    · simp only [Bool.false_eq_true, if_false, ih, List.any_cons, hn, Bool.false_or]
    · simp only [if_true, List.any_cons, hn, Bool.true_or, Bool.or_true]
      cases hm : markSourceLayers ps.usesPlaneScalar ps.sourceLayers layers with
      | none => rfl
      | some layers1 =>
        dsimp only
        rw [ih]
        simp

theorem markSourceLayers_bounds (u : Bool) :
    ∀ (src : List Nat) (layers r : List OverlayLayer),
      markSourceLayers u src layers = some r → ∀ z ∈ src, z < layers.length := by
  intro src
  induction src with
  | nil => intro layers r _ z hz; cases hz
  | cons i src ih =>
    intro layers r h z hz
    rw [markSourceLayers] at h
    split at h
    · cases h
    · rename_i l hl
      rcases List.mem_cons.mp hz with rfl | hz
      · by_contra hc
        rw [List.getElem?_eq_none (by omega)] at hl
        cases hl
      · have := ih _ r h z hz
        rwa [modifyAt_length] at this

theorem markSourceLayers_marked {u : Bool} {src : List Nat} {layers r : List OverlayLayer}
    (h : markSourceLayers u src layers = some r) : Marked (fun k => k ∈ src) layers r := by
  obtain ⟨r', hr', hm⟩ := markSourceLayers_spec u src layers
    (markSourceLayers_bounds u src layers r h)
  rw [h] at hr'
  cases hr'
  exact hm

theorem markRendered_marked :
    ∀ (composition : List DisplayPlaneState) (layers r : List OverlayLayer),
      markRendered composition layers = some r →
      Marked (fun k => ∃ ps ∈ composition, ps.forceGpu = true ∧ k ∈ ps.sourceLayers)
        layers r := by
  intro composition
  induction composition with
  | nil =>
    intro layers r h
    rw [markRendered] at h
    cases h
    exact (Marked.unchanged layers).congr (fun k => by simp)
  | cons ps rest ih =>
    intro layers r h
    rw [markRendered] at h
    by_cases hn : ps.NeedsOffScreenComposition = true
    · rw [if_pos hn] at h
      split at h
      · cases h
      · rename_i layers1 h1
        have hm1 := markSourceLayers_marked h1
        have hm := ih layers1 r h
        refine (hm1.andThen hm).congr (fun k => ?_)
        simp only [List.mem_cons, exists_eq_or_imp]
        constructor
        · rintro (h | h)
          · exact Or.inl ⟨hn, h⟩
          · exact Or.inr h
        · rintro (⟨_, h⟩ | h)
          · exact Or.inl h
          · exact Or.inr h
    · rw [if_neg hn] at h
      refine (ih layers r h).congr (fun k => ?_)
      simp only [List.mem_cons, exists_eq_or_imp]
      constructor
      · exact fun h => Or.inr h
      · rintro (⟨hf, _⟩ | h)
        · exact absurd hf hn
        · exact h

theorem markSourceLayers_scalar (u : Bool) :
    ∀ (src : List Nat) (layers r : List OverlayLayer),
      markSourceLayers u src layers = some r →
      ∀ z ∈ src, ∃ l, r[z]? = some l ∧ l.gpuRendered = true ∧ l.usePlaneScalar = u := by
  intro src
  induction src with
  | nil => intro layers r _ z hz; cases hz
  | cons i src ih =>
    intro layers r h z hz
    have hb := markSourceLayers_bounds u (i :: src) layers r h
    rw [markSourceLayers] at h
    split at h
    · cases h
    · rename_i l0 hl0
      by_cases hzs : z ∈ src
      · exact ih _ r h z hzs
      · have hzi : z = i := by
          rcases List.mem_cons.mp hz with e | e
          · exact e
          · exact absurd e hzs
        subst hzi
        have hm := markSourceLayers_marked h
        have hget : (modifyAt (fun layer => layer.GPURendered.UsePlaneScalar u) z layers)[z]? =
            some (l0.GPURendered.UsePlaneScalar u) := by
          rw [modifyAt_getElem?, if_pos rfl, hl0]; rfl
        obtain ⟨l', e1, _, e3, _⟩ := hm.2 z _ hget
        exact ⟨l', e1, by rw [e3 hzs]; rfl, by rw [e3 hzs]; rfl⟩

/-- After the feedback loop, a source layer of a plane state that needs off-screen composition
carries that plane state's scalar flag, unless a later such plane state holds it too. -/
theorem markRendered_scalar :
    ∀ (pre : List DisplayPlaneState) (ps : DisplayPlaneState) (post : List DisplayPlaneState)
      (layers r : List OverlayLayer),
      markRendered (pre ++ ps :: post) layers = some r → ps.forceGpu = true →
      ∀ z ∈ ps.sourceLayers, (∀ q ∈ post, q.forceGpu = true → z ∉ q.sourceLayers) →
      ∃ l, r[z]? = some l ∧ l.gpuRendered = true ∧ l.usePlaneScalar = ps.usesPlaneScalar := by
  intro pre
  induction pre with
  | nil =>
    intro ps post layers r h hf z hz hpost
    have hn : ps.NeedsOffScreenComposition = true := hf
    rw [List.nil_append, markRendered, if_pos hn] at h
    split at h
    · cases h
    · rename_i layers1 h1
      obtain ⟨l, e1, e2, e3⟩ := markSourceLayers_scalar _ _ _ _ h1 z hz
      have hm := markRendered_marked post layers1 r h
      obtain ⟨l', f1, _, f3, _⟩ := hm.2 z l e1
      have : l' = l := f3 (fun ⟨q, hq, hqf, hqz⟩ => hpost q hq hqf hqz)
      rw [this] at f1
      exact ⟨l, f1, e2, e3⟩
  | cons a pre ih =>
    intro ps post layers r h hf z hz hpost
    rw [List.cons_append, markRendered] at h
    split at h
    · split at h
      · cases h
      · exact ih ps post _ r h hf z hz hpost
    · exact ih ps post _ r h hf z hz hpost

theorem Forall₂_same_map {α : Type} (f : DisplayPlaneState → α)
    (hf : ∀ a b, DisplayPlaneState.SameButScalar a b → f b = f a)
    {l l' : List DisplayPlaneState} (h : List.Forall₂ DisplayPlaneState.SameButScalar l l') :
    l'.map f = l.map f := by
  induction h with
  | nil => rfl
  | cons hab _ ih => simp [hf _ _ hab, ih]

theorem needsOffScreen_iff {l l' : List DisplayPlaneState}
    (h : List.Forall₂ DisplayPlaneState.SameButScalar l l') (k : Nat) :
    (∃ ps ∈ l', ps.forceGpu = true ∧ k ∈ ps.sourceLayers) ↔
      (∃ ps ∈ l, ps.NeedsOffScreenComposition = true ∧ k ∈ ps.sourceLayers) := by
  have hmap := Forall₂_same_map (fun ps => (ps.forceGpu, ps.sourceLayers))
    (fun a b hab => by obtain ⟨u, crop, rfl⟩ := hab; rfl) h
  have key : ∀ (c : List DisplayPlaneState),
      (∃ ps ∈ c, ps.forceGpu = true ∧ k ∈ ps.sourceLayers) ↔
        ∃ x ∈ c.map (fun ps => (ps.forceGpu, ps.sourceLayers)), x.1 = true ∧ k ∈ x.2 := by
    intro c
    simp only [List.mem_map, exists_exists_and_eq_and]
  rw [key l', hmap, ← key l]
  rfl

theorem anyNeedsOffScreen_iff {l l' : List DisplayPlaneState}
    (h : List.Forall₂ DisplayPlaneState.SameButScalar l l') :
    l'.any DisplayPlaneState.NeedsOffScreenComposition = true ↔
      ∃ ps ∈ l, ps.NeedsOffScreenComposition = true := by
  have hmap := Forall₂_same_map DisplayPlaneState.NeedsOffScreenComposition
    (fun a b hab => by obtain ⟨u, crop, rfl⟩ := hab; rfl) h
  rw [List.any_eq_true]
  constructor
  · rintro ⟨x, hx, hn⟩
    have : x.NeedsOffScreenComposition ∈ l'.map DisplayPlaneState.NeedsOffScreenComposition :=
      List.mem_map_of_mem _ hx
    rw [hmap, List.mem_map] at this
    obtain ⟨y, hy, e⟩ := this
    exact ⟨y, hy, by rw [e, hn]⟩
  · rintro ⟨y, hy, hn⟩
    have : y.NeedsOffScreenComposition ∈ l.map DisplayPlaneState.NeedsOffScreenComposition :=
      List.mem_map_of_mem _ hy
    rw [← hmap, List.mem_map] at this
    obtain ⟨x, hx, e⟩ := this
    exact ⟨x, hx, by rw [e, hn]⟩

theorem revalidatePlaneScalar_total (env : Env) (s : Store) (commit : List OverlayPlane)
    (temp : DisplayPlaneState) (hb : ∀ z ∈ temp.sourceLayers, z < s.layers.length)
    (hs : temp.usesPlaneScalar = true → temp.sourceLayers ≠ [] ∧ temp.surfaces ≠ []) :
    ∃ x, revalidatePlaneScalar env s commit temp = some x := by
  unfold revalidatePlaneScalar
  dsimp only
  by_cases hu : temp.usesPlaneScalar = true
  · rw [if_pos hu]
    obtain ⟨hne, hsurf⟩ := hs hu
    have hlen : temp.sourceLayers.length ≠ 0 := fun h => hne (List.length_eq_zero.mp h)
    rw [if_neg hlen]
    have hidx : temp.sourceLayers.length - 1 < temp.sourceLayers.length := by omega
    rw [List.getElem?_eq_getElem hidx]
    dsimp only
    have hz : temp.sourceLayers[temp.sourceLayers.length - 1] < s.layers.length :=
      hb _ (List.getElem_mem _)
    rw [List.getElem?_eq_getElem hz]
    dsimp only
    exact ValidateForDisplayScaling_total env s commit temp _ _ true (Or.inl hsurf)
  · rw [if_neg hu]
    exact ⟨_, rfl⟩

theorem revalidateScalars_total (env : Env) :
    ∀ (composition : List DisplayPlaneState) (s : Store) (commit : List OverlayPlane),
      (∀ ps ∈ composition, ∀ z ∈ ps.sourceLayers, z < s.layers.length) →
      (∀ ps ∈ composition, ps.usesPlaneScalar = true →
        ps.sourceLayers ≠ [] ∧ ps.surfaces ≠ []) →
      ∃ r, revalidateScalars env composition s commit = some r := by
  intro composition
  induction composition with
  | nil => intro s commit _ _; exact ⟨_, rfl⟩
  | cons temp planes ih =>
    intro s commit hb hs
    rw [revalidateScalars]
    obtain ⟨x, hx⟩ := revalidatePlaneScalar_total env s (commit ++ [temp.binding]) temp
      (hb temp (List.mem_cons_self _ _)) (hs temp (List.mem_cons_self _ _))
    have hext := (revalidatePlaneScalar_spec hx).1
    rw [hx]
    dsimp only
    have hlen : x.1.layers.length = s.layers.length := by
      have := congrArg List.length hext.layers
      simpa using this
    obtain ⟨r, hr⟩ := ih x.1 x.2.1
      (fun ps hps z hz => by rw [hlen]; exact hb ps (List.mem_cons_of_mem _ hps) z hz)
      (fun ps hps hu => hs ps (List.mem_cons_of_mem _ hps) hu)
    rw [hr]
    exact ⟨_, rfl⟩

theorem overlayPlaneLoop_skip (env : Env) (rve : Bool) (hpol : env.disableCursorPlane = true)
    (j : DisplayPlane) (planes : List DisplayPlane) (i : Nat) (layers : List OverlayLayer)
    (p : Plan) (c : DisplayPlane) (hc : p.store.mgr.cursorPlane = some c) (hid : c.id = j.id) :
    overlayPlaneLoop env rve (j :: planes) i layers p =
      overlayPlaneLoop env rve planes i layers p := by
  rw [overlayPlaneLoop]
  simp [hpol, hc, hid]

/-- C11 (counterexample): four layers on three planes, layer 1 rejected by every plane and
everything else accepted. The plane state that holds the unscannable layer 1 holds it together
with layer 0 below it; no plane state holds layers 1 and 2 together. -/
theorem C11_unscannable_layer_not_with_next :
    ∃ o, ValidateLayers rejectLayerOne sampleManager
        [sampleLayer 0, sampleLayer 1, sampleLayer 2, sampleLayer 3] [] false false []
        false = some o ∧
      o.composition.map DisplayPlaneState.sourceLayers = [[0, 1], [2], [3]] ∧
      ¬ ∃ ps ∈ o.composition, ps.sourceLayers = [1, 2] :=
  ⟨_, rfl, rfl, by decide⟩

/-- C11 (amended): four layers without `prefer_separate_plane` on three usable planes, no
cursor layers, all flags clear, layer `k` (1 or 2) rejected by every plane and every other
layer and every commit accepted. `ValidateLayers` returns three plane states on the three
planes. The plane state holding the unscannable layer `k` has an off-screen target and
exactly two source layers: layer `k - 1`, the layer below it, and layer `k`. The other two
plane states hold one layer each without off-screen target, the top layer alone on the top
plane. -/
theorem C11_unscannable_layer_folds_below (env : Env) {m : DisplayPlaneManager}
    {p0 p1 p2 : DisplayPlane} {L0 L1 L2 L3 : OverlayLayer}
    (hv : ValidInput m p0 [L0, L1, L2, L3]) (husable : usablePlanes env m = [p0, p1, p2])
    (hprefer : ∀ l ∈ [L0, L1, L2, L3], l.preferSeparatePlane = false)
    (k : Nat) (hk : k = 1 ∨ k = 2)
    (hrej : ∀ plane l, [L0, L1, L2, L3][k]? = some l →
      (env.validateLayer plane (some l) && env.frameBuffer (some l)) = false)
    (hacc : ∀ plane i l, [L0, L1, L2, L3][i]? = some l → i ≠ k →
      env.validateLayer plane (some l) = true ∧ env.frameBuffer (some l) = true)
    (htc : ∀ c, env.testCommit c = true) :
    ∃ o a b c, ValidateLayers env m [L0, L1, L2, L3] [] false false [] false = some o ∧
      o.composition = [a, b, c] ∧ a.plane = p0 ∧ b.plane = p1 ∧ c.plane = p2 ∧
      c.sourceLayers = [3] ∧ c.GetOffScreenTarget = none ∧
      (k = 1 → a.sourceLayers = [0, 1] ∧ a.GetOffScreenTarget.isSome = true ∧
        b.sourceLayers = [2] ∧ b.GetOffScreenTarget = none) ∧
      (k = 2 → a.sourceLayers = [0] ∧ a.GetOffScreenTarget = none ∧
        b.sourceLayers = [1, 2] ∧ b.GetOffScreenTarget.isSome = true) := by
  have hz := hv.zorder
  simp only [List.map_cons, List.map_nil, List.length_cons, List.length_nil] at hz
  have hzr : List.range 4 = [0, 1, 2, 3] := by decide
  rw [show 0 + 1 + 1 + 1 + 1 = 4 from rfl, hzr] at hz
  simp only [List.cons.injEq, and_true] at hz
  obtain ⟨hz0, hz1, hz2, hz3⟩ := hz
  obtain ⟨others, hops⟩ : ∃ others, m.overlayPlanes = p0 :: others := by
    have := hv.planes
    cases hop : m.overlayPlanes with
    | nil => rw [hop] at this; cases this
    | cons a l => rw [hop] at this; cases this; exact ⟨l, rfl⟩
  have hfilter : others.filter (fun j => !passedOver env m.cursorPlane j) = [p1, p2] := by
    simpa [usablePlanes, hops] using husable
  have hpass : ∀ j ∈ [p1, p2], passedOver env m.cursorPlane j = false := by
    intro j hj
    rw [← hfilter] at hj
    simpa using (List.mem_filter.mp hj).2
  have hp1 := hpass p1 (by simp)
  have hp2 := hpass p2 (by simp)
  have hpr0 := hprefer L0 (by simp)
  have hpr1 := hprefer L1 (by simp)
  have hpr2 := hprefer L2 (by simp)
  have hfb : FallbacktoGPU env ((initialStore m [L0, L1, L2, L3] []).setInUse p0) p0
      (LayerRef.layer 0) [{ plane := p0, layer := LayerRef.layer 0 }] = false := by
    have h0 := hacc p0 0 L0 rfl (by rcases hk with rfl | rfl <;> decide)
    exact FallbacktoGPU_accept
      (by simpa [Store.deref, initialStore, Store.setInUse] using h0.1)
      (by simpa [Store.deref, initialStore, Store.setInUse] using h0.2) (htc _)
  have hstart : overlayPlaneLoop env false (m.overlayPlanes.drop 1) 1 [L1, L2, L3]
      { store := (initialStore m [L0, L1, L2, L3] []).setInUse p0, below := [],
        last_plane := directBinding p0 (0, L0),
        commit_planes := [{ plane := p0, layer := LayerRef.layer 0 }],
        prefer_seperate_plane := L0.preferSeparatePlane } =
      overlayPlaneLoop env false [p1, p2] 1 [L1, L2, L3]
      { store := (initialStore m [L0, L1, L2, L3] []).setInUse p0, below := [],
        last_plane := directBinding p0 (0, L0),
        commit_planes := [{ plane := p0, layer := LayerRef.layer 0 }],
        prefer_seperate_plane := L0.preferSeparatePlane } := by
    rw [overlayPlaneLoop_filter, hops]
    exact congrArg (fun x => overlayPlaneLoop env false x 1 [L1, L2, L3] _) hfilter
  rcases hk with rfl | rfl
  · -- layer 1 is folded into the primary plane state
    have r1 := hrej p1 L1 rfl
    have a2 := hacc p1 2 L2 rfl (by decide)
    have a3 := hacc p2 3 L3 rfl (by decide)
    obtain ⟨q1, e1, l1, c1, cp1, b1, pl1, src1, sf1, pr1, d1⟩ :=
      overlayPlaneLoop_step_fold env [L0, L1, L2, L3] [p2] (i := 1) (l := L1) (j := p1)
        (p := { store := (initialStore m [L0, L1, L2, L3] []).setInUse p0, below := [],
                last_plane := directBinding p0 (0, L0),
                commit_planes := [{ plane := p0, layer := LayerRef.layer 0 }],
                prefer_seperate_plane := L0.preferSeparatePlane })
        rfl rfl hp1 r1 hpr0 hpr1
    obtain ⟨q2, e2, l2, c2, cp2, b2, la2, pr2, d2⟩ :=
      overlayPlaneLoop_step_accept env [L0, L1, L2, L3] [p2] (j := p1) l1 d1 (by rw [cp1]; exact hp1) a2.1 a2.2
        htc
    obtain ⟨q3, e3, l3, c3, cp3, b3, la3, pr3, d3⟩ :=
      overlayPlaneLoop_step_accept env [L0, L1, L2, L3] [] (j := p2) l2 d2 (by rw [cp2, cp1]; exact hp2)
        a3.1 a3.2 htc
    have hloop := hstart.trans (e1.trans (e2.trans e3))
    rw [overlayPlaneLoop] at hloop
    have hval := ValidateLayers_direct env hv.primary hfb hloop rfl (by rw [la3]; rfl)
      (by rw [c3, c2, c1]; rfl)
    refine ⟨_, q1.last_plane, q2.last_plane, q3.last_plane, hval, ?_, pl1, by rw [la2]; rfl,
      by rw [la3]; rfl, by rw [la3]; simp [directBinding, DisplayPlaneState.create, hz3],
      by rw [la3]; rfl, fun _ => ⟨?_, ?_, ?_, by rw [la2]; rfl⟩, fun h => by cases h⟩
    · simp [Plan.composition, b3, b2, b1]
    · rw [src1]; simp [directBinding, DisplayPlaneState.create, hz0, hz1]
    · cases hs : q1.last_plane.surfaces with
      | nil => exact absurd hs sf1
      | cons x xs => simp [DisplayPlaneState.GetOffScreenTarget, hs]
    · rw [la2]; simp [directBinding, DisplayPlaneState.create, hz2]
  · -- layer 2 is folded into the plane state of layer 1
    have a1 := hacc p1 1 L1 rfl (by decide)
    have r2 := hrej p2 L2 rfl
    have a3 := hacc p2 3 L3 rfl (by decide)
    obtain ⟨q1, e1, l1, c1, cp1, b1, la1, pr1, d1⟩ :=
      overlayPlaneLoop_step_accept env [L0, L1, L2, L3] [p2] (i := 1) (l := L1) (j := p1)
        (p := { store := (initialStore m [L0, L1, L2, L3] []).setInUse p0, below := [],
                last_plane := directBinding p0 (0, L0),
                commit_planes := [{ plane := p0, layer := LayerRef.layer 0 }],
                prefer_seperate_plane := L0.preferSeparatePlane })
        rfl rfl hp1 a1.1 a1.2 htc
    obtain ⟨q2, e2, l2, c2, cp2, b2, pl2, src2, sf2, pr2, d2⟩ :=
      overlayPlaneLoop_step_fold env [L0, L1, L2, L3] [] (j := p2) l1 d1 (by rw [cp1]; exact hp2) r2
        (by rw [pr1]; exact hpr1) hpr2
    obtain ⟨q3, e3, l3, c3, cp3, b3, la3, pr3, d3⟩ :=
      overlayPlaneLoop_step_accept env [L0, L1, L2, L3] [] (j := p2) l2 d2 (by rw [cp2, cp1]; exact hp2)
        a3.1 a3.2 htc
    have hloop := hstart.trans (e1.trans (e2.trans e3))
    rw [overlayPlaneLoop] at hloop
    have hval := ValidateLayers_direct env hv.primary hfb hloop rfl (by rw [la3]; rfl)
      (by rw [c3, c2, c1]; rfl)
    refine ⟨_, directBinding p0 (0, L0), q2.last_plane, q3.last_plane, hval, ?_, rfl,
      by rw [pl2, la1]; rfl, by rw [la3]; rfl,
      by rw [la3]; simp [directBinding, DisplayPlaneState.create, hz3],
      by rw [la3]; rfl, fun h => (by cases h), fun _ => ⟨?_, rfl, ?_, ?_⟩⟩
    · simp [Plan.composition, b3, b2, b1]
    · simp [directBinding, DisplayPlaneState.create, hz0]
    · rw [src2, la1]; simp [directBinding, DisplayPlaneState.create, hz1, hz2]
    · cases hs : q2.last_plane.surfaces with
      | nil => exact absurd hs sf2
      | cons x xs => simp [DisplayPlaneState.GetOffScreenTarget, hs]

/-- Witness for C11: the sample manager, four sample layers, layer 1 rejected by every
plane. -/
theorem C11_witness :
    ValidInput sampleManager (samplePlane 0)
      [sampleLayer 0, sampleLayer 1, sampleLayer 2, sampleLayer 3] ∧
    usablePlanes rejectLayerOne sampleManager = [samplePlane 0, samplePlane 1, samplePlane 2] ∧
    ∃ o a b c, ValidateLayers rejectLayerOne sampleManager
        [sampleLayer 0, sampleLayer 1, sampleLayer 2, sampleLayer 3] [] false false []
        false = some o ∧
      o.composition = [a, b, c] ∧ a.plane = samplePlane 0 ∧ b.plane = samplePlane 1 ∧
      c.plane = samplePlane 2 ∧ c.sourceLayers = [3] ∧ c.GetOffScreenTarget = none ∧
      a.sourceLayers = [0, 1] ∧ a.GetOffScreenTarget.isSome = true ∧
      b.sourceLayers = [2] ∧ b.GetOffScreenTarget = none := by
  obtain ⟨o, a, b, c, ho, hc, ha, hb, hcp, hcs, hct, h1, _⟩ :=
    C11_unscannable_layer_folds_below rejectLayerOne (sampleValid 3) rfl (by decide) 1
      (Or.inl rfl)
      (fun plane l h => by
        simp only [List.getElem?_cons_succ, List.getElem?_cons_zero, Option.some.injEq] at h
        subst h; rfl)
      (fun plane i l h hi => by
        rcases i with _ | _ | _ | _ | i
        · simp only [List.getElem?_cons_zero, Option.some.injEq] at h
          subst h; exact ⟨rfl, rfl⟩
        · exact absurd rfl hi
        · simp only [List.getElem?_cons_succ, List.getElem?_cons_zero, Option.some.injEq] at h
          subst h; exact ⟨rfl, rfl⟩
        · simp only [List.getElem?_cons_succ, List.getElem?_cons_zero, Option.some.injEq] at h
          subst h; exact ⟨rfl, rfl⟩
        · simp at h)
      (fun _ => rfl)
  exact ⟨sampleValid 3, rfl, o, a, b, c, ho, hc, ha, hb, hcp, hcs, hct, h1 rfl⟩

/-- C12 (code evaluated at the failing input): a single video layer without the hint
`prefer_separate_plane`, with `request_video_effect` set. `force_va` is set at line 95, but
line 101 sends the layer to the fold of lines 102-111: `ValidateLayers` returns `true` with
the primary plane state on an off-screen target that is a 3D buffer, not a video buffer, and
the plane state is not tagged as a video plane. -/
theorem C12_video_layer_without_hint :
    (videoLayer false).isVideo = true ∧
    ∃ o ps, ValidateLayers acceptAll sampleManager [videoLayer false] [] false false []
        true = some o ∧
      o.render_layers = true ∧ o.composition = [ps] ∧ ps.plane = samplePlane 0 ∧
      ps.sourceLayers = [0] ∧ ps.GetOffScreenTarget = some 0 ∧ ps.videoPlane = false ∧
      o.store.mgr.surfaces.map (fun fb => (fb.id, fb.video)) = [(0, false)] :=
  ⟨rfl, _, _, rfl, rfl, rfl, rfl, rfl, rfl, rfl, rfl⟩

/-- The branch of lines 113-118: for a single video layer that prefers a separate plane, with
`request_video_effect` set, `pending_modeset` and `disable_overlay` clear and no cursor
layers, `ValidateLayers` returns `true` and a composition whose only plane state is on the
primary plane, holds the layer alone, has an off-screen target and is a video plane. -/
theorem ValidateLayers_video_with_hint (env : Env) {m : DisplayPlaneManager}
    {p0 : DisplayPlane} {L0 : OverlayLayer} (hv : ValidInput m p0 [L0])
    (hvideo : L0.isVideo = true) (hprefer : L0.preferSeparatePlane = true) :
    ∃ o ps, ValidateLayers env m [L0] [] false false [] true = some o ∧
      o.render_layers = true ∧ o.composition = [ps] ∧ ps.plane = p0 ∧
      ps.sourceLayers = [L0.zorder] ∧ ps.GetOffScreenTarget.isSome = true ∧
      ps.videoPlane = true := by
  obtain ⟨id, hid⟩ := ResetPlaneTarget_state ((initialStore m [L0] []).setInUse p0)
    (DisplayPlaneState.create p0 (LayerRef.layer 0) L0 L0.zorder).SetVideoPlane
    [{ plane := p0, layer := LayerRef.layer 0 }]
  obtain ⟨r, hr⟩ := ValidateForDisplayScaling_total env
    (ResetPlaneTarget ((initialStore m [L0] []).setInUse p0)
      (DisplayPlaneState.create p0 (LayerRef.layer 0) L0 L0.zorder).SetVideoPlane
      [{ plane := p0, layer := LayerRef.layer 0 }]).1
    (ResetPlaneTarget ((initialStore m [L0] []).setInUse p0)
      (DisplayPlaneState.create p0 (LayerRef.layer 0) L0 L0.zorder).SetVideoPlane
      [{ plane := p0, layer := LayerRef.layer 0 }]).2.2
    (ResetPlaneTarget ((initialStore m [L0] []).setInUse p0)
      (DisplayPlaneState.create p0 (LayerRef.layer 0) L0 L0.zorder).SetVideoPlane
      [{ plane := p0, layer := LayerRef.layer 0 }]).2.1
    (LayerRef.layer 0) L0 false (Or.inl (by rw [hid]; exact List.cons_ne_nil _ _))
  obtain ⟨_, ⟨u, crop, hsame⟩, _⟩ := ValidateForDisplayScaling_spec hr
  have hval : ValidateLayers env m [L0] [] false false [] true =
      some { render_layers := true, composition := [r.2.2], store := r.1 } := by
    unfold ValidateLayers planLayers
    simp only [hv.primary, hvideo, hprefer, List.length_singleton, Bool.and_self, Bool.or_true,
      Bool.true_or, Bool.or_false, Bool.false_and, if_true, Bool.not_true,
      Bool.false_eq_true, if_false, lt_self_iff_false, gt_iff_lt, decide_False]
    rw [hr]
    simp [planOverlays, Plan.composition]
  refine ⟨_, r.2.2, hval, rfl, rfl, ?_, ?_, ?_, ?_⟩
  · rw [hsame, hid]; rfl
  · rw [hsame, hid]; rfl
  · rw [hsame, hid]; rfl
  · rw [hsame, hid]; rfl

/-- A single video layer with the hint on the sample manager ends on a video plane. -/
theorem ValidateLayers_video_with_hint_sample :
    ValidInput sampleManager (samplePlane 0) [videoLayer true] ∧
    (videoLayer true).isVideo = true ∧ (videoLayer true).preferSeparatePlane = true ∧
    ∃ o ps, ValidateLayers acceptAll sampleManager [videoLayer true] [] false false []
        true = some o ∧
      o.render_layers = true ∧ o.composition = [ps] ∧ ps.plane = samplePlane 0 ∧
      ps.sourceLayers = [(videoLayer true).zorder] ∧ ps.GetOffScreenTarget.isSome = true ∧
      ps.videoPlane = true :=
  have hv : ValidInput sampleManager (samplePlane 0) [videoLayer true] :=
    ⟨by simp, by decide, rfl, rfl, by decide, fun c hc => by cases hc⟩
  ⟨hv, rfl, rfl, ValidateLayers_video_with_hint acceptAll hv rfl rfl⟩

/-- C13 (counterexample): `DISABLE_CURSOR_PLANE`, four planes, two layers and one cursor
layer, everything accepted. The cursor layer is bound to the third plane; no plane state of
the returned composition is on the reserved topmost plane. -/
theorem C13_cursor_not_on_reserved_plane :
    ∃ o, ValidateLayers cursorPlaneDisabled reservedManager [sampleLayer 0, sampleLayer 1]
        [cursorLayer 2] false false [] false = some o ∧
      reservedManager.cursorPlane = some (samplePlane 3) ∧
      o.composition.map (fun ps => (ps.plane.id, ps.rawLayer)) =
        [(0, LayerRef.layer 0), (1, LayerRef.layer 1), (2, LayerRef.cursor 0)] ∧
      ¬ ∃ ps ∈ o.composition, ps.plane = samplePlane 3 :=
  ⟨_, rfl, rfl, rfl, by decide⟩

/-- C13 (amended): under `DISABLE_CURSOR_PLANE`, `Initialize` with four planes reserves the
topmost plane, and for every input and all collaborators no plane state of a composition
`ValidateLayers` returns is bound to it, whether for a layer or for a cursor layer: overlay
assignment and the cursor loop both pass over it. `ValidateLayers` returns for a non-empty
layer list in z-order whose cursor z-orders index it. With two layers and one cursor layer,
all accepted, the cursor layer is bound to the third plane and `render_layers` is `false`. -/
theorem C13_reserved_plane_never_bound (env : Env) (hpol : env.disableCursorPlane = true)
    (m0 : DisplayPlaneManager) (width height : Nat) (p0 p1 p2 p3 : DisplayPlane)
    (status : Bool) (hd : ([p0, p1, p2, p3].map DisplayPlane.id).Nodup) :
    (Initialize env m0 width height [p0, p1, p2, p3] status).1.cursorPlane = some p3 ∧
    (∀ (layers cursors : List OverlayLayer) (pm dis rve : Bool),
      (∀ o, ValidateLayers env (Initialize env m0 width height [p0, p1, p2, p3] status).1
          layers cursors pm dis [] rve = some o →
        ∀ ps ∈ o.composition, ps.plane.id ≠ p3.id) ∧
      (layers ≠ [] → layers.map OverlayLayer.zorder = List.range layers.length →
        (∀ c ∈ cursors, c.zorder < layers.length) →
        ∃ o, ValidateLayers env (Initialize env m0 width height [p0, p1, p2, p3] status).1
          layers cursors pm dis [] rve = some o)) ∧
    (∀ L0 L1 C : OverlayLayer,
      (∀ plane, ∀ l ∈ [L0, L1, C], env.validateLayer plane (some l) = true) →
      (∀ l ∈ [L0, L1, C], env.frameBuffer (some l) = true) →
      (∀ c, env.testCommit c = true) →
      ∃ o, ValidateLayers env (Initialize env m0 width height [p0, p1, p2, p3] status).1
          [L0, L1] [C] false false [] false = some o ∧
        o.render_layers = false ∧
        o.composition = [directBinding p0 (0, L0), directBinding p1 (1, L1),
          DisplayPlaneState.create p2 (LayerRef.cursor 0) C C.zorder]) := by
  have hinit : (Initialize env m0 width height [p0, p1, p2, p3] status).1 =
      { m0 with width := width, height := height, overlayPlanes := [p0, p1, p2, p3],
                cursorPlane := some p3, primaryPlane := some p0 } := by
    simp [Initialize, hpol]
  generalize (Initialize env m0 width height [p0, p1, p2, p3] status).1 = m at hinit
  have hops : m.overlayPlanes = [p0, p1, p2, p3] := by rw [hinit]
  have hcp : m.cursorPlane = some p3 := by rw [hinit]
  have hprim : m.primaryPlane = some p0 := by rw [hinit]
  have hd' := hd
  simp only [List.map_cons, List.map_nil, List.nodup_cons, List.mem_cons, List.mem_singleton,
    List.not_mem_nil, not_or, or_false, not_false_eq_true, List.nodup_nil, and_true] at hd'
  obtain ⟨⟨h01, h02, h03⟩, ⟨h12, h13⟩, h23⟩ := hd'
  refine ⟨hcp, fun layers cursors pm dis rve => ⟨fun o ho => ?_, fun hne hz hcur => ?_⟩,
    fun L0 L1 C hval hbuf htc => ?_⟩
  · refine ValidateLayers_onPlanes env (fun q => q.id ≠ p3.id) ho ?_ ?_
    · intro q hq
      rw [hprim] at hq
      cases hq
      exact h03
    · intro j _ hj
      simp only [passedOver, hpol, hcp, Bool.true_and, decide_eq_false_iff_not] at hj
      exact fun h => hj h.symm
  · have hv : ValidInput m p0 layers :=
      ⟨hne, hz, hprim, by rw [hops]; rfl, by rw [hops]; exact hd,
        fun c hc => by rw [hcp] at hc; cases hc; exact Ne.symm h03⟩
    obtain ⟨_, _, _, _, _, htot⟩ := ValidateLayers_valid env pm dis rve cursors hv
    exact htot hcur
  · obtain ⟨s, hs⟩ := ValidateLayers_cursor_on_third_plane env hpol hops hcp hprim hd L0 L1 C
      hval hbuf htc
    exact ⟨_, hs, rfl, rfl⟩

/-- Witness for C13: four sample planes, two layers and a cursor layer. -/
theorem C13_witness :
    cursorPlaneDisabled.disableCursorPlane = true ∧
    ([samplePlane 0, samplePlane 1, samplePlane 2, samplePlane 3].map DisplayPlane.id).Nodup ∧
    ∃ o, ValidateLayers cursorPlaneDisabled
        (Initialize cursorPlaneDisabled freshManager 100 100
          [samplePlane 0, samplePlane 1, samplePlane 2, samplePlane 3] true).1
        [sampleLayer 0, sampleLayer 1] [cursorLayer 2] false false [] false = some o ∧
      o.render_layers = false ∧
      o.composition = [directBinding (samplePlane 0) (0, sampleLayer 0),
        directBinding (samplePlane 1) (1, sampleLayer 1),
        DisplayPlaneState.create (samplePlane 2) (LayerRef.cursor 0) (cursorLayer 2)
          (cursorLayer 2).zorder] ∧
      ∀ ps ∈ o.composition, ps.plane.id ≠ (samplePlane 3).id := by
  have h := C13_reserved_plane_never_bound cursorPlaneDisabled rfl freshManager 100 100
    (samplePlane 0) (samplePlane 1) (samplePlane 2) (samplePlane 3) true (by decide)
  obtain ⟨o, ho, h1, h2⟩ := h.2.2 (sampleLayer 0) (sampleLayer 1) (cursorLayer 2)
    (fun _ _ _ => rfl) (fun _ _ => rfl) (fun _ => rfl)
  exact ⟨rfl, by decide, o, ho, h1, h2,
    (h.2.1 [sampleLayer 0, sampleLayer 1] [cursorLayer 2] false false false).1 o ho⟩

/-- C14: for `n >= 1` layers in z-order, at least `n` planes usable for overlays, all flags
clear, no cursor layers, and collaborators that accept every layer and every commit (so
`FallbacktoGPU` is false for every proposed binding), `ValidateLayers` returns
`render_layers = false` and exactly `n` plane states; the `k`-th binds the `k`-th usable plane
to the `k`-th layer alone, has no off-screen target and needs no off-screen composition; and
the layers are left as they were, none marked `gpu_rendered`. -/
theorem C14_all_accepted_one_plane_per_layer (env : Env) {m : DisplayPlaneManager}
    {p0 : DisplayPlane} {layers : List OverlayLayer} (hv : ValidInput m p0 layers)
    (hval : ∀ plane, ∀ l ∈ layers, env.validateLayer plane (some l) = true)
    (hbuf : ∀ l ∈ layers, env.frameBuffer (some l) = true)
    (htc : ∀ c, env.testCommit c = true)
    (hplanes : layers.length ≤ (usablePlanes env m).length) :
    ∃ o, ValidateLayers env m layers [] false false [] false = some o ∧
      o.render_layers = false ∧ o.store.layers = layers ∧
      o.composition.length = layers.length ∧
      ∀ k l, layers[k]? = some l →
        ∃ plane ps, (usablePlanes env m)[k]? = some plane ∧ o.composition[k]? = some ps ∧
          ps.plane = plane ∧ ps.rawLayer = LayerRef.layer k ∧ ps.sourceLayers = [k] ∧
          ps.GetOffScreenTarget = none ∧ ps.NeedsOffScreenComposition = false := by
  obtain ⟨s, hs, hlayers⟩ := ValidateLayers_accept env hv hval hbuf htc hplanes
  refine ⟨_, hs, rfl, hlayers, zipWith_directBinding_length _ _ 0 hplanes, fun k l hk => ?_⟩
  obtain ⟨plane, h1, h2⟩ := zipWith_directBinding_getElem? (usablePlanes env m) layers 0 k l hk
    hplanes
  have hz : l.zorder = k := by
    have := congrArg (fun x => x[k]?) hv.zorder
    simp only [List.getElem?_map, hk, Option.map_some'] at this
    have hlt : k < layers.length := by
      by_contra hc
      rw [List.getElem?_eq_none (by omega)] at hk
      cases hk
    rw [List.getElem?_range hlt] at this
    exact Option.some.inj this
  refine ⟨plane, _, h1, h2, rfl, ?_, ?_, rfl, rfl⟩
  · simp [directBinding, DisplayPlaneState.create]
  · simp [directBinding, DisplayPlaneState.create, hz]

/-- Witness for C14: three layers on the three planes of the sample manager. -/
theorem C14_witness :
    ValidInput sampleManager (samplePlane 0) [sampleLayer 0, sampleLayer 1, sampleLayer 2] ∧
    [sampleLayer 0, sampleLayer 1, sampleLayer 2].length ≤
      (usablePlanes acceptAll sampleManager).length ∧
    ∃ o, ValidateLayers acceptAll sampleManager [sampleLayer 0, sampleLayer 1, sampleLayer 2]
        [] false false [] false = some o ∧
      o.render_layers = false ∧
      o.store.layers = [sampleLayer 0, sampleLayer 1, sampleLayer 2] ∧
      o.composition.length = 3 ∧
      o.composition.map (fun ps => (ps.plane.id, ps.sourceLayers)) =
        [(0, [0]), (1, [1]), (2, [2])] := by
  obtain ⟨o, ho, h1, h2, h3, _⟩ := C14_all_accepted_one_plane_per_layer acceptAll
    (sampleValid 2) (fun _ _ _ => rfl) (fun _ _ => rfl) (fun _ => rfl) (by decide)
  refine ⟨sampleValid 2, by decide, o, ho, h1, h2, h3, ?_⟩
  have : some o = ValidateLayers acceptAll sampleManager
      [sampleLayer 0, sampleLayer 1, sampleLayer 2] [] false false [] false := ho.symm
  have ho2 := Option.some.inj (this.trans (show ValidateLayers acceptAll sampleManager
      [sampleLayer 0, sampleLayer 1, sampleLayer 2] [] false false [] false = some _ from rfl))
  rw [ho2]
  rfl

/-- C15: whatever `ReValidateLayers` returns, its commit list is the list of bindings of the
previous composition, and `request_full_validation` is `true` exactly when the `TestCommit`
over it fails. When it fails, the return value is `false` and no `gpu_rendered` flag has
changed. When it succeeds, the return value is `true` exactly when some plane state needs
off-screen composition, a layer is marked `gpu_rendered` afterwards exactly when it was marked
before or is a source layer of such a plane state, and a source layer of such a plane state
carries that plane state's scalar flag (when a layer is held by several such plane states,
that of the last). `ReValidateLayers` does return when the source layers index `layers` and
every plane state on the plane scalar has a source layer and an off-screen target. -/
theorem C15_revalidation_outcome (env : Env) (s : Store)
    (composition : List DisplayPlaneState) :
    (∀ r, ReValidateLayers env s composition = some r →
      ∃ s1, revalidateScalars env composition s [] =
          some (s1, composition.map DisplayPlaneState.binding, r.composition) ∧
        List.Forall₂ DisplayPlaneState.SameButScalar composition r.composition ∧
        (r.request_full_validation = true ↔
          env.testCommit (s1.view (composition.map DisplayPlaneState.binding)) = false) ∧
        (r.request_full_validation = true →
          r.render_layers = false ∧
          r.store.layers.map OverlayLayer.gpuRendered =
            s.layers.map OverlayLayer.gpuRendered) ∧
        (r.request_full_validation = false →
          (r.render_layers = true ↔
            ∃ ps ∈ composition, ps.NeedsOffScreenComposition = true) ∧
          (∀ k l, s.layers[k]? = some l →
            ∃ l', r.store.layers[k]? = some l' ∧
              (l'.gpuRendered = true ↔
                l.gpuRendered = true ∨
                  ∃ ps ∈ composition, ps.NeedsOffScreenComposition = true ∧
                    k ∈ ps.sourceLayers)) ∧
          (∀ pre ps post, r.composition = pre ++ ps :: post →
            ps.NeedsOffScreenComposition = true → ∀ z ∈ ps.sourceLayers,
            (∀ q ∈ post, q.NeedsOffScreenComposition = true → z ∉ q.sourceLayers) →
            ∃ l', r.store.layers[z]? = some l' ∧ l'.gpuRendered = true ∧
              l'.usePlaneScalar = ps.usesPlaneScalar))) ∧
    ((∀ ps ∈ composition, ∀ z ∈ ps.sourceLayers, z < s.layers.length) →
      (∀ ps ∈ composition, ps.usesPlaneScalar = true →
        ps.sourceLayers ≠ [] ∧ ps.surfaces ≠ []) →
      ∃ r, ReValidateLayers env s composition = some r) := by
  constructor
  · intro r hr
    unfold ReValidateLayers at hr
    split at hr
    · cases hr
    · rename_i s1 commit composition1 hsc
      obtain ⟨hext, hlayers, hcommit, hsame⟩ := revalidateScalars_spec env _ _ _ _ hsc
      have hcommit' : commit = composition.map DisplayPlaneState.binding := by
        simpa using hcommit
      subst hcommit'
      have hgpu : s1.layers.map OverlayLayer.gpuRendered =
          s.layers.map OverlayLayer.gpuRendered := by
        have := congrArg (List.map OverlayLayer.gpuRendered) hlayers
        simpa [List.map_map, Function.comp_def, OverlayLayer.UsePlaneScalar] using this
      cases htc : env.testCommit (s1.view (composition.map DisplayPlaneState.binding))
      · rw [htc, if_neg Bool.false_ne_true] at hr
        cases hr
        exact ⟨s1, hsc, hsame, ⟨fun _ => htc, fun _ => rfl⟩, fun _ => ⟨rfl, hgpu⟩,
          fun h => (by cases h)⟩
      · rw [htc, if_pos rfl, revalidateFeedback_eq] at hr
        cases hm : markRendered composition1 s1.layers with
        | none => rw [hm] at hr; cases hr
        | some marked =>
          rw [hm] at hr
          simp only [Option.map_some', Bool.false_or] at hr
          cases hr
          refine ⟨s1, hsc, hsame, ⟨fun h => (by cases h), fun h => (by rw [htc] at h; cases h)⟩,
            fun h => (by cases h), fun _ => ⟨anyNeedsOffScreen_iff hsame, ?_, ?_⟩⟩
          · intro k l hk
            have hmk := markRendered_marked _ _ _ hm
            have hk1 : ∃ l1, s1.layers[k]? = some l1 ∧ l1.gpuRendered = l.gpuRendered := by
              have := congrArg (fun x => x[k]?) hgpu
              simp only [List.getElem?_map, hk, Option.map_some'] at this
              cases h1 : s1.layers[k]? with
              | none => rw [h1] at this; cases this
              | some l1 =>
                rw [h1] at this
                exact ⟨l1, rfl, Option.some.inj this⟩
            obtain ⟨l1, hl1, hg1⟩ := hk1
            obtain ⟨l', e1, _, e3, e4⟩ := hmk.2 k l1 hl1
            refine ⟨l', e1, ?_⟩
            rw [← needsOffScreen_iff hsame k, ← hg1]
            constructor
            · intro hg
              by_cases hM : ∃ ps ∈ composition1, ps.forceGpu = true ∧ k ∈ ps.sourceLayers
              · exact Or.inr hM
              · rw [e3 hM] at hg
                exact Or.inl hg
            · intro h
              exact e4 (h.symm)
          · intro pre ps post hcomp hn z hz hpost
            have hm2 : markRendered (pre ++ ps :: post) s1.layers = some marked := by
              rw [← show composition1 = pre ++ ps :: post from hcomp]; exact hm
            exact markRendered_scalar pre ps post _ _ hm2 hn z hz hpost
  · intro hb hs
    obtain ⟨x, hx⟩ := revalidateScalars_total env composition s [] hb hs
    obtain ⟨hext, _, _, hsame⟩ := revalidateScalars_spec env _ _ _ _ hx
    unfold ReValidateLayers
    rw [hx]
    dsimp only
    split
    · have hlen : x.1.layers.length = s.layers.length := by
        have := congrArg List.length hext.layers
        simpa using this
      have hsrc := Forall₂_same_map DisplayPlaneState.sourceLayers
        (fun a b hab => by obtain ⟨u, crop, rfl⟩ := hab; rfl) hsame
      obtain ⟨marked, hmarked, _⟩ := markRendered_spec x.2.2 x.1.layers (by
        intro ps hps z hz
        have : ps.sourceLayers ∈ x.2.2.map DisplayPlaneState.sourceLayers :=
          List.mem_map_of_mem _ hps
        rw [hsrc, List.mem_map] at this
        obtain ⟨q, hq, e⟩ := this
        rw [hlen]
        exact hb q hq z (by rw [e]; exact hz))
      rw [revalidateFeedback_eq, hmarked]
      exact ⟨_, rfl⟩
    · exact ⟨_, rfl⟩

/-- Witness for C15: the primary plane state of an upscaled layer, on the plane scalar with an
off-screen target. Revalidation keeps the scalar, asks for no full validation, returns `true`
and marks the layer. -/
theorem C15_witness :
    ∃ r, ReValidateLayers acceptAll scaledPrimary.1 [scaledPrimary.2] = some r ∧
      scaledPrimary.2.usesPlaneScalar = true ∧
      r.request_full_validation = false ∧ r.render_layers = true ∧
      r.store.layers.map (fun l => (l.gpuRendered, l.usePlaneScalar)) = [(true, true)] := by
  obtain ⟨r, hr⟩ := (C15_revalidation_outcome acceptAll scaledPrimary.1 [scaledPrimary.2]).2
    (by decide) (by decide)
  have hr2 : ReValidateLayers acceptAll scaledPrimary.1 [scaledPrimary.2] = some r := hr
  rw [show ReValidateLayers acceptAll scaledPrimary.1 [scaledPrimary.2] = some _ from rfl] at hr
  cases hr
  exact ⟨_, hr2, rfl, rfl, rfl, rfl⟩

/-- C16 (code evaluated at the failing input): three layers on three planes, the middle layer
rejected by every plane. `ValidateLayers` returns `render_layers = false` and leaves every
layer unmarked, although the primary plane state of its composition holds layers 0 and 1 and
needs off-screen composition. `ReValidateLayers`, run with the same collaborators on the same
layers and that composition, asks for no full validation, returns `true` and marks layers 0
and 1 `gpu_rendered`. -/
theorem C16_revalidation_differs_from_validation :
    ∃ o r, ValidateLayers rejectLayerOne sampleManager
        [sampleLayer 0, sampleLayer 1, sampleLayer 2] [] false false [] false = some o ∧
      o.store.layers = [sampleLayer 0, sampleLayer 1, sampleLayer 2] ∧
      ReValidateLayers rejectLayerOne o.store o.composition = some r ∧
      r.request_full_validation = false ∧
      o.render_layers = false ∧ r.render_layers = true ∧
      o.store.layers.map OverlayLayer.gpuRendered = [false, false, false] ∧
      r.store.layers.map OverlayLayer.gpuRendered = [true, true, false] :=
  ⟨_, _, rfl, rfl, rfl, rfl, rfl, rfl, rfl, rfl⟩

/-- C17 (counterexample): with `DISABLE_CURSOR_PLANE` and three planes of which the topmost
is not universal, `Initialize` sets `cursor_plane_` to the topmost plane although the plane
count does not exceed three, and overlay assignment passes over it: of three accepted layers
the third is folded into the plane state of the second plane. -/
theorem C17_three_planes_reserved :
    (Initialize cursorPlaneDisabled freshManager 100 100
        [samplePlane 0, samplePlane 1, cursorOnlyPlane 2] true).1.cursorPlane =
      some (cursorOnlyPlane 2) ∧
    ¬ (3 < [samplePlane 0, samplePlane 1, cursorOnlyPlane 2].length) ∧
    ∃ o, ValidateLayers cursorPlaneDisabled
        (Initialize cursorPlaneDisabled freshManager 100 100
          [samplePlane 0, samplePlane 1, cursorOnlyPlane 2] true).1
        [sampleLayer 0, sampleLayer 1, sampleLayer 2] [] false false [] false = some o ∧
      o.composition.map (fun ps => (ps.plane.id, ps.sourceLayers)) =
        [(0, [0]), (1, [1, 2])] :=
  ⟨rfl, by decide, _, rfl, rfl⟩

/-- C17 (amended): with `DISABLE_CURSOR_PLANE`, after `Initialize` on a manager whose
`cursor_plane_` was null, `cursor_plane_` is the topmost plane if and only if the plane count
exceeds three, or there are at least two planes and the topmost one is not universal;
otherwise it is null. Whenever it is set, the plane loop of overlay assignment passes over
it. -/
theorem C17_cursor_plane_reserved (env : Env) (hpol : env.disableCursorPlane = true)
    (m : DisplayPlaneManager) (hm : m.cursorPlane = none) (width height : Nat)
    (planes : List DisplayPlane) (status : Bool) :
    (∀ back, planes.getLast? = some back →
      ((Initialize env m width height planes status).1.cursorPlane = some back ↔
        (3 < planes.length ∨ (1 < planes.length ∧ back.isUniversal = false))) ∧
      ((Initialize env m width height planes status).1.cursorPlane = none ↔
        ¬ (3 < planes.length ∨ (1 < planes.length ∧ back.isUniversal = false)))) ∧
    (planes = [] → (Initialize env m width height planes status).1.cursorPlane = none) ∧
    (∀ back, (Initialize env m width height planes status).1.cursorPlane = some back →
      ∀ (rve : Bool) (rest : List DisplayPlane) (i : Nat) (layers : List OverlayLayer)
        (p : Plan), p.store.mgr = (Initialize env m width height planes status).1 →
        overlayPlaneLoop env rve (back :: rest) i layers p =
          overlayPlaneLoop env rve rest i layers p) := by
  refine ⟨fun back hback => ?_, fun hnil => ?_, fun back hback rve rest i layers p hp => ?_⟩
  · cases planes with
    | nil => simp at hback
    | cons p0 others =>
      have hkey : (Initialize env m width height (p0 :: others) status).1.cursorPlane =
          if 3 < (p0 :: others).length ∨ (1 < (p0 :: others).length ∧ back.isUniversal = false)
          then some back else none := by
        unfold Initialize
        simp only [hback, hpol, Bool.true_and, List.length_cons]
        cases hu : back.isUniversal <;>
          by_cases h1 : others.length + 1 > 1 <;> by_cases h3 : others.length + 1 > 3 <;>
          simp [h1, h3, hm] <;> omega
      rw [hkey]
      by_cases hc : 3 < (p0 :: others).length ∨
          (1 < (p0 :: others).length ∧ back.isUniversal = false)
      · rw [if_pos hc]
        exact ⟨⟨fun _ => hc, fun _ => rfl⟩, ⟨fun h => (by cases h), fun h => absurd hc h⟩⟩
      · rw [if_neg hc]
        exact ⟨⟨fun h => (by cases h), fun h => absurd h hc⟩, ⟨fun _ => hc, fun _ => rfl⟩⟩
  · subst hnil
    simpa [Initialize] using hm
  · exact overlayPlaneLoop_skip env rve hpol back rest i layers p back (by rw [hp, hback]) rfl

/-- Witness for C17: four universal planes; the topmost one is reserved. -/
theorem C17_witness :
    cursorPlaneDisabled.disableCursorPlane = true ∧ freshManager.cursorPlane = none ∧
    (Initialize cursorPlaneDisabled freshManager 100 100
        [samplePlane 0, samplePlane 1, samplePlane 2, samplePlane 3] true).1.cursorPlane =
      some (samplePlane 3) :=
  ⟨rfl, rfl,
    ((C17_cursor_plane_reserved cursorPlaneDisabled rfl freshManager rfl 100 100
      [samplePlane 0, samplePlane 1, samplePlane 2, samplePlane 3] true).1
        (samplePlane 3) rfl).1.mpr (Or.inl (by decide))⟩

/-- C18: `ReleaseFreeOffScreenTargets` leaves in each pool (general and cursor) exactly the
entries that were in use, in their original order and as often as before, and touches nothing
else; `ReleaseAllOffScreenTargets` leaves both pools empty. -/
theorem C18_release_keeps_in_use_surfaces (m : DisplayPlaneManager) :
    (ReleaseFreeOffScreenTargets m).surfaces = m.surfaces.filter (fun fb => fb.inUse) ∧
    (ReleaseFreeOffScreenTargets m).cursorSurfaces =
      m.cursorSurfaces.filter (fun fb => fb.inUse) ∧
    (ReleaseFreeOffScreenTargets m).surfaces.Sublist m.surfaces ∧
    (ReleaseFreeOffScreenTargets m).cursorSurfaces.Sublist m.cursorSurfaces ∧
    (∀ fb, fb ∈ (ReleaseFreeOffScreenTargets m).surfaces ↔ fb ∈ m.surfaces ∧ fb.inUse = true) ∧
    (∀ fb, fb ∈ (ReleaseFreeOffScreenTargets m).cursorSurfaces ↔
      fb ∈ m.cursorSurfaces ∧ fb.inUse = true) ∧
    (∀ fb, fb.inUse = true →
      (ReleaseFreeOffScreenTargets m).surfaces.count fb = m.surfaces.count fb ∧
      (ReleaseFreeOffScreenTargets m).cursorSurfaces.count fb = m.cursorSurfaces.count fb) ∧
    (ReleaseFreeOffScreenTargets m).overlayPlanes = m.overlayPlanes ∧
    (ReleaseFreeOffScreenTargets m).planesInUse = m.planesInUse ∧
    (ReleaseAllOffScreenTargets m).surfaces = [] ∧
    (ReleaseAllOffScreenTargets m).cursorSurfaces = [] := by
  refine ⟨rfl, rfl, List.filter_sublist _, List.filter_sublist _, fun fb => ?_, fun fb => ?_,
    fun fb hfb => ⟨?_, ?_⟩, rfl, rfl, rfl, rfl⟩
  · simp [ReleaseFreeOffScreenTargets, List.mem_filter]
  · simp [ReleaseFreeOffScreenTargets, List.mem_filter]
  · simp only [ReleaseFreeOffScreenTargets]
    rw [List.count_filter]
    simpa using hfb
  · simp only [ReleaseFreeOffScreenTargets]
    rw [List.count_filter]
    simpa using hfb

/-- C19 (code evaluated at the failing input): a single-layer plane state with an off-screen
target and a layer upscaled in width (65535 to 65536) and downscaled in height (65537 to 1).
The exact downscale cost, 65536 * 65536, exceeds the exact upscale cost, 1 * 1, but the 32-bit
product is 0, so `ValidateForDisplayScaling` goes on to the scalar attempt and the plane
state ends with `uses_plane_scalar = true`. -/
theorem C19_cost_product_wraps :
    (skewedLayer.sourceCropHeight - skewedLayer.displayFrameHeight) *
        skewedLayer.displayFrameWidth >
      (skewedLayer.displayFrameWidth - skewedLayer.sourceCropWidth) *
        skewedLayer.displayFrameHeight ∧
    scalingCost (skewedLayer.sourceCropHeight - skewedLayer.displayFrameHeight)
        skewedLayer.displayFrameWidth = 0 ∧
    scalarRejected (samplePlane 0) skewedLayer false = false ∧
    ∃ r, ValidateForDisplayScaling acceptAll (targetedPrimary skewedLayer).1
        [(targetedPrimary skewedLayer).2.binding] (targetedPrimary skewedLayer).2
        (LayerRef.layer 0) skewedLayer false = some r ∧
      r.2.2.sourceLayers = [0] ∧ r.2.2.usesPlaneScalar = true :=
  ⟨by decide, by decide, by decide, _, rfl, rfl, rfl⟩

/-- `FallbacktoGPU` lets a binding through exactly when the plane validates the layer, a frame
buffer can be created for it and the commit test passes. -/
theorem FallbacktoGPU_eq (env : Env) (s : Store) (j : DisplayPlane) (ref : LayerRef)
    (c : List OverlayPlane) :
    FallbacktoGPU env s j ref c =
      !(env.validateLayer j (s.deref ref) && env.frameBuffer (s.deref ref) &&
        env.testCommit (s.view c)) := by
  unfold FallbacktoGPU
  cases env.validateLayer j (s.deref ref) <;> cases env.frameBuffer (s.deref ref) <;>
    cases env.testCommit (s.view c) <;> rfl

/-- C20 (counterexample): the primary plane state of an upscaled layer, with one source layer
and an off-screen target, reaches the scalar attempt. The commit test on the updated bindings
passes, but the plane's `ValidateLayer` rejects the target's layer, so `FallbacktoGPU` at line
510 reports a fall-back: the plane state ends with `uses_plane_scalar = false` and its display
frame as source crop, and the layer with `use_plane_scalar = false`. -/
theorem C20_commit_passes_scalar_reverted :
    (targetedPrimary scaledLayer).2.sourceLayers.length = 1 ∧
    (targetedPrimary scaledLayer).2.GetOffScreenTarget = some 0 ∧
    scalarRejected (targetedPrimary scaledLayer).2.plane scaledLayer false = false ∧
    noPlaneScalar.testCommit
      ((scalarAttempt (targetedPrimary scaledLayer).1 [(targetedPrimary scaledLayer).2.binding]
          (targetedPrimary scaledLayer).2 (LayerRef.layer 0) scaledLayer).1.view
        (scalarAttempt (targetedPrimary scaledLayer).1 [(targetedPrimary scaledLayer).2.binding]
          (targetedPrimary scaledLayer).2 (LayerRef.layer 0) scaledLayer).2) = true ∧
    noPlaneScalar.validateLayer (samplePlane 0)
      ((scalarAttempt (targetedPrimary scaledLayer).1 [(targetedPrimary scaledLayer).2.binding]
          (targetedPrimary scaledLayer).2 (LayerRef.layer 0) scaledLayer).1.deref
        (LayerRef.surface 0)) = false ∧
    ∃ r, ValidateForDisplayScaling noPlaneScalar (targetedPrimary scaledLayer).1
        [(targetedPrimary scaledLayer).2.binding] (targetedPrimary scaledLayer).2
        (LayerRef.layer 0) scaledLayer false = some r ∧
      r.2.2.usesPlaneScalar = false ∧
      r.2.2.sourceCrop = (targetedPrimary scaledLayer).2.displayFrame ∧
      (r.1.deref (LayerRef.layer 0)).map OverlayLayer.usePlaneScalar = some false :=
  ⟨rfl, rfl, by decide, rfl, rfl, _, rfl, rfl, rfl, rfl⟩

/-- C20 (as amended): a plane state with one source layer and an off-screen target, a layer
`cur` (read through the pointer `ref` into `layers` or `cursor_layers`) for which none of the
early returns of `ValidateForDisplayScaling` applies. The function returns. If the scan-out
check of the scalar attempt passes on the updated bindings (the plane's `ValidateLayer`
accepts the target's layer, its frame buffer is created and the commit test passes), the plane
state ends with `uses_plane_scalar = true` and the layer's source crop, and the layer has
`use_plane_scalar = true`. If one of the three fails, the commit test in particular, the plane
state ends with `uses_plane_scalar = false` and its display frame as source crop, and every
surface of its history has that source crop and `use_plane_scalar = false`. -/
theorem C20_scalar_attempt_outcome (env : Env) (s : Store) (commit_planes : List OverlayPlane)
    (ps : DisplayPlaneState) (ref : LayerRef) (cur : OverlayLayer) (ig : Bool) (target : Nat)
    (hsingle : ps.sourceLayers.length = 1) (htarget : ps.GetOffScreenTarget = some target)
    (hattempt : scalarRejected ps.plane cur ig = false)
    (href : ∀ id, ref ≠ LayerRef.surface id) (hderef : s.deref ref = some cur) :
    ∃ r, ValidateForDisplayScaling env s commit_planes ps ref cur ig = some r ∧
      r.2.2.displayFrame = ps.displayFrame ∧ r.2.2.surfaces = ps.surfaces ∧
      (env.validateLayer ps.plane
          ((scalarAttempt s commit_planes ps ref cur).1.deref (LayerRef.surface target)) = true →
        env.frameBuffer
          ((scalarAttempt s commit_planes ps ref cur).1.deref (LayerRef.surface target)) = true →
        env.testCommit ((scalarAttempt s commit_planes ps ref cur).1.view
          (scalarAttempt s commit_planes ps ref cur).2) = true →
        r.2.2.usesPlaneScalar = true ∧ r.2.2.sourceCrop = cur.sourceCrop ∧
        r.1.deref ref = some (cur.UsePlaneScalar true)) ∧
      ((env.validateLayer ps.plane
            ((scalarAttempt s commit_planes ps ref cur).1.deref (LayerRef.surface target)) =
            false ∨
          env.frameBuffer
            ((scalarAttempt s commit_planes ps ref cur).1.deref (LayerRef.surface target)) =
            false ∨
          env.testCommit ((scalarAttempt s commit_planes ps ref cur).1.view
            (scalarAttempt s commit_planes ps ref cur).2) = false) →
        r.2.2.usesPlaneScalar = false ∧ r.2.2.sourceCrop = ps.displayFrame ∧
        ∀ fb ∈ r.1.mgr.surfaces ++ r.1.mgr.cursorSurfaces, fb.id ∈ ps.surfaces →
          fb.layer.sourceCrop = ps.displayFrame ∧ fb.layer.usePlaneScalar = false) := by
  obtain ⟨crop0, h0⟩ := clearPlaneScalar_state s ps ref
  have hd0 : ∃ l, (clearPlaneScalar s ps ref).1.deref ref = some l ∧
      l.UsePlaneScalar true = cur.UsePlaneScalar true := by
    unfold clearPlaneScalar
    split
    · refine ⟨cur.UsePlaneScalar false, ?_, rfl⟩
      unfold resetSurfaceCrops
      rw [Store.deref_updateSurfaces _ _ _ _ href, Store.deref_updateLayer _ _ _ href, hderef]
      rfl
    · exact ⟨cur, hderef, rfl⟩
  obtain ⟨l0, hl0, hl0e⟩ := hd0
  have hsurf : (clearPlaneScalar s ps ref).2.surfaces = ps.surfaces := by rw [h0]
  unfold scalarAttempt
  unfold ValidateForDisplayScaling
  dsimp only
  rw [if_neg (by omega), hattempt]
  simp only [Bool.false_eq_true, if_false]
  have ht : ((clearPlaneScalar s ps ref).2.SetSourceCrop cur.sourceCrop).GetOffScreenTarget =
      some target := by
    simp only [DisplayPlaneState.GetOffScreenTarget, DisplayPlaneState.SetSourceCrop, hsurf]
    exact htarget
  rw [ht]
  dsimp only
  have hplane : ((clearPlaneScalar s ps ref).2.SetSourceCrop cur.sourceCrop).plane = ps.plane := by
    rw [h0]; rfl
  rw [hplane]
  have hcheck := FallbacktoGPU_eq env
      (resetSurfaceCrops (clearPlaneScalar s ps ref).1 ps.surfaces cur.sourceCrop true) ps.plane
      (LayerRef.surface target)
      (modifyLast (fun op =>
        { op with layer :=
            ((clearPlaneScalar s ps ref).2.SetSourceCrop cur.sourceCrop).GetOverlayLayer })
        commit_planes)
  cases hfb : FallbacktoGPU env
      (resetSurfaceCrops (clearPlaneScalar s ps ref).1 ps.surfaces cur.sourceCrop true) ps.plane
      (LayerRef.surface target)
      (modifyLast (fun op =>
        { op with layer :=
            ((clearPlaneScalar s ps ref).2.SetSourceCrop cur.sourceCrop).GetOverlayLayer })
        commit_planes)
  · rw [if_neg Bool.false_ne_true]
    rw [hfb] at hcheck
    refine ⟨_, rfl, by rw [h0]; rfl, by rw [h0]; rfl, fun _ _ _ => ⟨rfl, rfl, ?_⟩, fun h => ?_⟩
    · rw [Store.deref_updateLayer _ _ _ href]
      unfold resetSurfaceCrops
      rw [Store.deref_updateSurfaces _ _ _ _ href, hl0]
      exact congrArg some hl0e
    · rcases h with h | h | h <;> rw [h] at hcheck <;> simp at hcheck
  · rw [if_pos rfl]
    rw [hfb] at hcheck
    refine ⟨_, rfl, by rw [h0]; rfl, by rw [h0]; rfl, fun ha hb hc => ?_,
      fun _ => ⟨by rw [h0]; rfl, by rw [h0]; rfl, ?_⟩⟩
    · rw [ha, hb, hc] at hcheck
      cases hcheck
    · intro fb hfbm hid
      have := resetSurfaceCrops_mem
        (resetSurfaceCrops (clearPlaneScalar s ps ref).1 ps.surfaces cur.sourceCrop true)
        ps.surfaces
        (((clearPlaneScalar s ps ref).2.SetSourceCrop
          cur.sourceCrop).ResetSourceRectToDisplayFrame).sourceCrop false fb hfbm hid
      rw [h0] at this
      exact this

/-- Witness for C20: the primary plane state of an upscaled layer in an unsupported format;
the plane accepts the target's layer, its frame buffer is created and the commit test passes,
and the plane scalar is taken. -/
theorem C20_witness :
    (targetedPrimary scaledLayer).2.sourceLayers.length = 1 ∧
    (targetedPrimary scaledLayer).2.GetOffScreenTarget = some 0 ∧
    scalarRejected (targetedPrimary scaledLayer).2.plane scaledLayer false = false ∧
    (targetedPrimary scaledLayer).1.deref (LayerRef.layer 0) = some scaledLayer ∧
    ∃ r, ValidateForDisplayScaling acceptAll (targetedPrimary scaledLayer).1
        [(targetedPrimary scaledLayer).2.binding] (targetedPrimary scaledLayer).2
        (LayerRef.layer 0) scaledLayer false = some r ∧
      r.2.2.usesPlaneScalar = true ∧ r.2.2.sourceCrop = scaledLayer.sourceCrop ∧
      r.1.deref (LayerRef.layer 0) = some (scaledLayer.UsePlaneScalar true) := by
  obtain ⟨r, hr, _, _, hpass, _⟩ := C20_scalar_attempt_outcome acceptAll
    (targetedPrimary scaledLayer).1 [(targetedPrimary scaledLayer).2.binding]
    (targetedPrimary scaledLayer).2 (LayerRef.layer 0) scaledLayer false 0 rfl rfl
    (by decide) (fun id h => by cases h) rfl
  exact ⟨rfl, rfl, by decide, rfl, r, hr, hpass rfl rfl rfl⟩

theorem clearPlaneScalar_cursorLayers (s : Store) (lp : DisplayPlaneState) (k : Nat) :
    (clearPlaneScalar s lp (LayerRef.layer k)).1.cursorLayers = s.cursorLayers := by
  unfold clearPlaneScalar
  split
  · unfold resetSurfaceCrops
    rw [(Store.updateSurfaces_layers _ _ _).2]
    rfl
  · rfl

/-- `ValidateForDisplayScaling` called for a layer of `layers` writes no cursor layer. -/
theorem ValidateForDisplayScaling_cursorLayers {env : Env} {s : Store} {c : List OverlayPlane}
    {lp : DisplayPlaneState} {k : Nat} {cur : OverlayLayer} {ig : Bool}
    {r : Store × List OverlayPlane × DisplayPlaneState}
    (h : ValidateForDisplayScaling env s c lp (LayerRef.layer k) cur ig = some r) :
    r.1.cursorLayers = s.cursorLayers := by
  have h0 := clearPlaneScalar_cursorLayers s lp k
  unfold ValidateForDisplayScaling at h
  dsimp only at h
  split at h
  · cases h; exact h0
  · split at h
    · cases h; exact h0
    · split at h
      · cases h
      · split at h
        · cases h
          unfold resetSurfaceCrops
          rw [(Store.updateSurfaces_layers _ _ _).2, (Store.updateSurfaces_layers _ _ _).2]
          exact h0
        · cases h
          show (resetSurfaceCrops _ _ _ _).cursorLayers = _
          unfold resetSurfaceCrops
          rw [(Store.updateSurfaces_layers _ _ _).2]
          exact h0

/-- C22: for a single layer and any cursor layers, whatever the flags and the collaborators,
`ValidateLayers` returns at line 111 or line 127, before cursor planning. The returned
composition has exactly one plane state, on the primary plane, created for that layer and
holding it alone; no plane state was created for a cursor layer, and the cursor layers are
left exactly as they were, so none of them is marked `gpu_rendered`. -/
theorem C22_single_layer_skips_cursor_planning (env : Env) (pm dis rve : Bool)
    {m : DisplayPlaneManager} {p0 : DisplayPlane} {L0 : OverlayLayer}
    (cursors : List OverlayLayer) (hv : ValidInput m p0 [L0]) :
    ∃ o ps, planLayers env m [L0] cursors pm dis [] rve = some (Planned.returned o) ∧
      ValidateLayers env m [L0] cursors pm dis [] rve = some o ∧
      o.composition = [ps] ∧ ps.plane = p0 ∧ ps.rawLayer = LayerRef.layer 0 ∧
      ps.sourceLayers = [L0.zorder] ∧ o.store.cursorLayers = cursors ∧
      o.store.cursorLayers.map OverlayLayer.gpuRendered =
        cursors.map OverlayLayer.gpuRendered := by
  have key : ∃ o ps, planLayers env m [L0] cursors pm dis [] rve = some (Planned.returned o) ∧
      o.composition = [ps] ∧ ps.plane = p0 ∧ ps.rawLayer = LayerRef.layer 0 ∧
      ps.sourceLayers = [L0.zorder] ∧ o.store.cursorLayers = cursors := by
    unfold planLayers
    simp only [hv.primary]
    split
    · split
      · obtain ⟨id, hid⟩ := ResetPlaneTarget_state
          ((initialStore m [L0] cursors).setInUse p0)
          (DisplayPlaneState.create p0 (LayerRef.layer 0) L0 L0.zorder)
          [{ plane := p0, layer := LayerRef.layer 0 }]
        refine ⟨_, _, rfl, rfl, ?_, ?_, ?_, ?_⟩
        · simp only [foldAllLayers]; rw [hid]; rfl
        · simp only [foldAllLayers]; rw [hid]; rfl
        · simp only [foldAllLayers]; rw [hid]; rfl
        · simp only [foldAllLayers]
          exact (EnsureOffScreenTarget_layers _ _).2
      · obtain ⟨id, hid⟩ := ResetPlaneTarget_state
          ((initialStore m [L0] cursors).setInUse p0)
          (if L0.isVideo = true then
            (DisplayPlaneState.create p0 (LayerRef.layer 0) L0 L0.zorder).SetVideoPlane
           else DisplayPlaneState.create p0 (LayerRef.layer 0) L0 L0.zorder)
          [{ plane := p0, layer := LayerRef.layer 0 }]
        obtain ⟨r, hr⟩ := ValidateForDisplayScaling_total env
          (ResetPlaneTarget ((initialStore m [L0] cursors).setInUse p0)
            (if L0.isVideo = true then
              (DisplayPlaneState.create p0 (LayerRef.layer 0) L0 L0.zorder).SetVideoPlane
             else DisplayPlaneState.create p0 (LayerRef.layer 0) L0 L0.zorder)
            [{ plane := p0, layer := LayerRef.layer 0 }]).1
          (ResetPlaneTarget ((initialStore m [L0] cursors).setInUse p0)
            (if L0.isVideo = true then
              (DisplayPlaneState.create p0 (LayerRef.layer 0) L0 L0.zorder).SetVideoPlane
             else DisplayPlaneState.create p0 (LayerRef.layer 0) L0 L0.zorder)
            [{ plane := p0, layer := LayerRef.layer 0 }]).2.2
          (ResetPlaneTarget ((initialStore m [L0] cursors).setInUse p0)
            (if L0.isVideo = true then
              (DisplayPlaneState.create p0 (LayerRef.layer 0) L0 L0.zorder).SetVideoPlane
             else DisplayPlaneState.create p0 (LayerRef.layer 0) L0 L0.zorder)
            [{ plane := p0, layer := LayerRef.layer 0 }]).2.1
          (LayerRef.layer 0) L0 false (Or.inl (by rw [hid]; exact List.cons_ne_nil _ _))
        obtain ⟨_, ⟨u, crop, hsame⟩, _⟩ := ValidateForDisplayScaling_spec hr
        have hcl := ValidateForDisplayScaling_cursorLayers hr
        rw [hr]
        refine ⟨{ render_layers := true, composition := [r.2.2], store := r.1 }, r.2.2,
          by simp [planOverlays, Plan.composition], rfl, ?_, ?_, ?_, ?_⟩
        · rw [hsame, hid]; split <;> rfl
        · rw [hsame, hid]; split <;> rfl
        · rw [hsame, hid]; split <;> rfl
        · rw [hcl]
          exact (EnsureOffScreenTarget_layers _ _).2
    · exact ⟨{ render_layers := false,
               composition := [DisplayPlaneState.create p0 (LayerRef.layer 0) L0 L0.zorder],
               store := (initialStore m [L0] cursors).setInUse p0 }, _,
        by simp [planOverlays, Plan.composition], rfl, rfl, rfl, rfl, rfl⟩
  obtain ⟨o, ps, hpl, h1, h2, h3, h4, h5⟩ := key
  refine ⟨o, ps, hpl, ?_, h1, h2, h3, h4, h5, by rw [h5]⟩
  unfold ValidateLayers
  rw [hpl]

/-- Witness for C22: one sample layer and one cursor layer on the sample manager. -/
theorem C22_witness :
    ValidInput sampleManager (samplePlane 0) [sampleLayer 0] ∧ [cursorLayer 1] ≠ [] ∧
    ∃ o ps, planLayers acceptAll sampleManager [sampleLayer 0] [cursorLayer 1] false false []
        false = some (Planned.returned o) ∧
      ValidateLayers acceptAll sampleManager [sampleLayer 0] [cursorLayer 1] false false []
        false = some o ∧
      o.composition = [ps] ∧ ps.plane = samplePlane 0 ∧ ps.rawLayer = LayerRef.layer 0 ∧
      ps.sourceLayers = [(sampleLayer 0).zorder] ∧ o.store.cursorLayers = [cursorLayer 1] ∧
      o.store.cursorLayers.map OverlayLayer.gpuRendered =
        [cursorLayer 1].map OverlayLayer.gpuRendered :=
  have hv : ValidInput sampleManager (samplePlane 0) [sampleLayer 0] :=
    ⟨by simp, by decide, rfl, rfl, by decide, fun c hc => (by cases hc)⟩
  ⟨hv, by simp,
    C22_single_layer_skips_cursor_planning acceptAll false false false [cursorLayer 1] hv⟩

/-- `Initialize` with two or more planes assigns `cursor_plane_` whatever it was before. -/
theorem Initialize_cursorPlane_reset (env : Env) (m : DisplayPlaneManager) (width height : Nat)
    (p0 : DisplayPlane) (others : List DisplayPlane) (status : Bool)
    (hm : others = [] → m.cursorPlane = none) :
    Initialize env m width height (p0 :: others) status =
      Initialize env { m with cursorPlane := none } width height (p0 :: others) status := by
  cases others with
  | nil =>
    have h := hm rfl
    have : m = { m with cursorPlane := none } := by
      cases m
      simp only at h
      subst h
      rfl
    rw [← this]
  | cons a l =>
    unfold Initialize
    dsimp only
    rw [if_pos (by simp), if_pos (by simp)]
    cases hg : (p0 :: a :: l).getLast? with
    | none => simp at hg
    | some back => rfl

/-- C23: after `Initialize` with a non-empty list of distinct planes (for a single plane, on
a manager whose `cursor_plane_` was null, since `Initialize` then leaves it alone),
`cursor_plane_` is never the primary plane, so for every composition whose first plane state
is on the primary plane `GetLastUsedOverlay` returns a plane state, one that is not on a
cursor-only plane. Hence lines 64-225 of `ValidateLayers`, which hold the call of
`ValidateCursorLayer` and its dereference of that result, run to their end for every
non-empty layer list in z-order and every cursor list. -/
theorem C23_last_used_overlay_never_null (env : Env) (m : DisplayPlaneManager)
    (width height : Nat) (p0 : DisplayPlane) (others : List DisplayPlane) (status : Bool)
    (hm : others = [] → m.cursorPlane = none)
    (hd : ((p0 :: others).map DisplayPlane.id).Nodup) :
    (Initialize env m width height (p0 :: others) status).1.primaryPlane = some p0 ∧
    (∀ c, (Initialize env m width height (p0 :: others) status).1.cursorPlane = some c →
      c.id ≠ p0.id) ∧
    (∀ (first : DisplayPlaneState) (rest : List DisplayPlaneState), first.plane = p0 →
      ∃ r, GetLastUsedOverlay (Initialize env m width height (p0 :: others) status).1
          (first :: rest) = some r ∧
        first :: rest = r.1 ++ r.2.1 :: r.2.2 ∧
        isCursorOnly (Initialize env m width height (p0 :: others) status).1 r.2.1 = false) ∧
    (∀ (layers cursors : List OverlayLayer) (pm dis rve : Bool), layers ≠ [] →
      layers.map OverlayLayer.zorder = List.range layers.length →
      ∃ pl, planLayers env (Initialize env m width height (p0 :: others) status).1 layers
        cursors pm dis [] rve = some pl) := by
  rw [Initialize_cursorPlane_reset env m width height p0 others status hm]
  have hvalid := Initialize_valid env { m with cursorPlane := none } width height p0 others
    status rfl hd
  generalize Initialize env { m with cursorPlane := none } width height (p0 :: others)
    status = ini at hvalid ⊢
  obtain ⟨hprim, hops, hcp⟩ := hvalid
  refine ⟨hprim, hcp, fun first rest hfirst => ?_, fun layers cursors pm dis rve hne hz => ?_⟩
  · have hfree : isCursorOnly ini.1 first = false := by
      unfold isCursorOnly
      cases hc : ini.1.cursorPlane with
      | none => rfl
      | some c =>
        have := hcp c hc
        rw [← hfirst] at this
        simp [this]
    obtain ⟨r, hr⟩ := @GetLastUsedOverlay_total ini.1 (first :: rest)
      ⟨first, List.mem_cons_self _ _, hfree⟩
    obtain ⟨h1, h2⟩ := GetLastUsedOverlay_spec hr
    exact ⟨r, hr, h1, h2⟩
  · have hv : ValidInput ini.1 p0 layers :=
      ⟨hne, hz, hprim, by rw [hops]; rfl, by rw [hops]; exact hd, hcp⟩
    cases hl : layers with
    | nil => exact absurd hl hne
    | cons L0 rest =>
      subst hl
      obtain ⟨N, hN, hcur⟩ := exists_bound (L0 :: rest).length cursors
      obtain ⟨pl, hpl, _⟩ := planLayers_spec env pm dis rve hv hN hcur
      exact ⟨pl, hpl⟩

/-- Witness for C23: three planes of which the topmost is a dedicated cursor plane. With a
plane state on it at the back of the composition, `GetLastUsedOverlay` passes over that one
and returns the plane state on the primary plane. -/
theorem C23_witness :
    ([samplePlane 1, cursorOnlyPlane 2] = [] → freshManager.cursorPlane = none) ∧
    ([samplePlane 0, samplePlane 1, cursorOnlyPlane 2].map DisplayPlane.id).Nodup ∧
    GetLastUsedOverlay
      (Initialize acceptAll freshManager 100 100
        [samplePlane 0, samplePlane 1, cursorOnlyPlane 2] true).1
      [directBinding (samplePlane 0) (0, sampleLayer 0),
        DisplayPlaneState.create (cursorOnlyPlane 2) (LayerRef.cursor 0) (cursorLayer 1) 1] =
      some ([], directBinding (samplePlane 0) (0, sampleLayer 0),
        [DisplayPlaneState.create (cursorOnlyPlane 2) (LayerRef.cursor 0) (cursorLayer 1) 1]) ∧
    ∃ pl, planLayers acceptAll
      (Initialize acceptAll freshManager 100 100
        [samplePlane 0, samplePlane 1, cursorOnlyPlane 2] true).1
      [sampleLayer 0, sampleLayer 1] [cursorLayer 1] false false [] false = some pl := by
  have h := C23_last_used_overlay_never_null acceptAll freshManager 100 100 (samplePlane 0)
    [samplePlane 1, cursorOnlyPlane 2] true (fun _ => rfl) (by decide)
  exact ⟨fun _ => rfl, by decide, rfl,
    h.2.2.2 [sampleLayer 0, sampleLayer 1] [cursorLayer 1] false false false (by simp)
      (by decide)⟩

theorem Store.updateSurface_map {α : Type} (s : Store) (id : Nat)
    (f : NativeSurface → NativeSurface) (g : NativeSurface → α) (hg : ∀ fb, g (f fb) = g fb) :
    (s.updateSurface id f).mgr.surfaces.map g = s.mgr.surfaces.map g ∧
    (s.updateSurface id f).mgr.cursorSurfaces.map g = s.mgr.cursorSurfaces.map g := by
  have key : ∀ l : List NativeSurface,
      (l.map (fun fb => if fb.id = id then f fb else fb)).map g = l.map g := by
    intro l
    rw [List.map_map]
    apply List.map_congr_left
    intro fb _
    simp only [Function.comp]
    split
    · exact hg fb
    · rfl
  exact ⟨key _, key _⟩

theorem Store.updateSurfaces_map {α : Type} (s : Store) (ids : List Nat)
    (f : NativeSurface → NativeSurface) (g : NativeSurface → α) (hg : ∀ fb, g (f fb) = g fb) :
    (s.updateSurfaces ids f).mgr.surfaces.map g = s.mgr.surfaces.map g ∧
    (s.updateSurfaces ids f).mgr.cursorSurfaces.map g = s.mgr.cursorSurfaces.map g := by
  induction ids generalizing s with
  | nil => exact ⟨rfl, rfl⟩
  | cons a l ih =>
    obtain ⟨h1, h2⟩ := s.updateSurface_map a f g hg
    obtain ⟨h3, h4⟩ := ih (s.updateSurface a f)
    exact ⟨h3.trans h1, h4.trans h2⟩

theorem Store.updateLayer_map {α : Type} (s : Store) (ref : LayerRef)
    (f : OverlayLayer → OverlayLayer) (g : NativeSurface → α)
    (hg : ∀ fb l, g { fb with layer := l } = g fb) :
    (s.updateLayer ref f).mgr.surfaces.map g = s.mgr.surfaces.map g ∧
    (s.updateLayer ref f).mgr.cursorSurfaces.map g = s.mgr.cursorSurfaces.map g := by
  cases ref with
  | layer k => exact ⟨rfl, rfl⟩
  | cursor k => exact ⟨rfl, rfl⟩
  | surface id => exact s.updateSurface_map id _ g (fun fb => hg fb _)

theorem resetSurfaceCrops_map {α : Type} (s : Store) (ids : List Nat) (crop : HwcRect)
    (b : Bool) (g : NativeSurface → α) (hg : ∀ fb l, g { fb with layer := l } = g fb) :
    (resetSurfaceCrops s ids crop b).mgr.surfaces.map g = s.mgr.surfaces.map g ∧
    (resetSurfaceCrops s ids crop b).mgr.cursorSurfaces.map g = s.mgr.cursorSurfaces.map g :=
  Store.updateSurfaces_map s ids _ g (fun fb => hg fb _)

theorem clearPlaneScalar_map {α : Type} (s : Store) (lp : DisplayPlaneState) (ref : LayerRef)
    (g : NativeSurface → α) (hg : ∀ fb l, g { fb with layer := l } = g fb) :
    (clearPlaneScalar s lp ref).1.mgr.surfaces.map g = s.mgr.surfaces.map g ∧
    (clearPlaneScalar s lp ref).1.mgr.cursorSurfaces.map g = s.mgr.cursorSurfaces.map g := by
  unfold clearPlaneScalar
  split
  · obtain ⟨h1, h2⟩ := s.updateLayer_map ref (fun l => l.UsePlaneScalar false) g hg
    obtain ⟨h3, h4⟩ := resetSurfaceCrops_map
      (s.updateLayer ref (fun l => l.UsePlaneScalar false)) lp.surfaces
      ((lp.UsePlaneScalar false).ResetSourceRectToDisplayFrame).sourceCrop false g hg
    exact ⟨h3.trans h1, h4.trans h2⟩
  · exact ⟨rfl, rfl⟩

/-- `ValidateForDisplayScaling` writes only to the internal layers of surfaces: it adds no
surface to a pool and changes no buffer nor `in_use` flag. -/
theorem ValidateForDisplayScaling_map {α : Type} {env : Env} {s : Store}
    {c : List OverlayPlane} {lp : DisplayPlaneState} {ref : LayerRef} {cur : OverlayLayer}
    {ig : Bool} {r : Store × List OverlayPlane × DisplayPlaneState}
    (h : ValidateForDisplayScaling env s c lp ref cur ig = some r)
    (g : NativeSurface → α) (hg : ∀ fb l, g { fb with layer := l } = g fb) :
    r.1.mgr.surfaces.map g = s.mgr.surfaces.map g ∧
    r.1.mgr.cursorSurfaces.map g = s.mgr.cursorSurfaces.map g ∧
    r.2.2.surfaces = lp.surfaces := by
  obtain ⟨c1, c2⟩ := clearPlaneScalar_map s lp ref g hg
  obtain ⟨crop0, h0⟩ := clearPlaneScalar_state s lp ref
  unfold ValidateForDisplayScaling at h
  dsimp only at h
  split at h
  · cases h; exact ⟨c1, c2, by rw [h0]⟩
  · split at h
    · cases h; exact ⟨c1, c2, by rw [h0]⟩
    · split at h
      · cases h
      · obtain ⟨a1, a2⟩ := resetSurfaceCrops_map (clearPlaneScalar s lp ref).1 lp.surfaces
          cur.sourceCrop true g hg
        split at h
        · cases h
          obtain ⟨b1, b2⟩ := resetSurfaceCrops_map
            (resetSurfaceCrops (clearPlaneScalar s lp ref).1 lp.surfaces cur.sourceCrop true)
            lp.surfaces
            (((clearPlaneScalar s lp ref).2.SetSourceCrop
              cur.sourceCrop).ResetSourceRectToDisplayFrame).sourceCrop false g hg
          exact ⟨b1.trans (a1.trans c1), b2.trans (a2.trans c2), by rw [h0]; rfl⟩
        · cases h
          obtain ⟨b1, b2⟩ := Store.updateLayer_map
            (resetSurfaceCrops (clearPlaneScalar s lp ref).1 lp.surfaces cur.sourceCrop true)
            ref (fun l => l.UsePlaneScalar true) g hg
          exact ⟨b1.trans (a1.trans c1), b2.trans (a2.trans c2), by rw [h0]; rfl⟩

/-- `EnsureOffScreenTarget` takes the target from the general pool: a free surface of that
pool, or a new one of the display's size appended to it. Either way the target ends in use,
and the cursor pool keeps its surfaces. -/
theorem EnsureOffScreenTarget_pool (s : Store) (ps : DisplayPlaneState) :
    ∃ t, (EnsureOffScreenTarget s ps).2 = ps.SetOffScreenTarget t ∧
      (∃ fb ∈ (EnsureOffScreenTarget s ps).1.mgr.surfaces, fb.id = t ∧ fb.inUse = true ∧
        ((∃ fb0 ∈ s.mgr.surfaces, fb0.inUse = false ∧ fb0.extent = fb.extent) ∨
          (t = s.mgr.nextSurfaceId ∧ fb.width = s.mgr.width ∧ fb.height = s.mgr.height ∧
            fb.cursor = false))) ∧
      (EnsureOffScreenTarget s ps).1.mgr.cursorSurfaces.map NativeSurface.extent =
        s.mgr.cursorSurfaces.map NativeSurface.extent := by
  unfold EnsureOffScreenTarget
  dsimp only
  split
  · rename_i fb hfind
    have hmem : fb ∈ s.mgr.surfaces := List.mem_of_find?_eq_some hfind
    have hfree : fb.inUse = false := by
      have := List.find?_some hfind
      simp only [Bool.and_eq_true, Bool.not_eq_true'] at this
      exact this.1
    refine ⟨fb.id, rfl, ⟨fb.SetPlaneTarget, ?_, rfl, rfl, Or.inl ⟨fb, hmem, hfree, rfl⟩⟩,
      (s.updateSurface_map fb.id NativeSurface.SetPlaneTarget NativeSurface.extent
        (fun _ => rfl)).2⟩
    simp only [Store.updateSurface, List.mem_map]
    exact ⟨fb, hmem, by simp⟩
  · refine ⟨s.mgr.nextSurfaceId, rfl,
      ⟨(NativeSurface.create s.mgr.nextSurfaceId ps.videoPlane false s.mgr.width s.mgr.height
        (if ps.videoPlane = true then ps.plane.preferredVideoFormat
         else ps.plane.preferredFormat)).SetPlaneTarget, ?_, rfl, rfl,
        Or.inr ⟨rfl, rfl, rfl, rfl⟩⟩, ?_⟩
    · simp only [Store.updateSurface, List.mem_map, List.mem_append, List.mem_singleton]
      exact ⟨_, Or.inr rfl, by simp [NativeSurface.create]⟩
    · exact (Store.updateSurface_map _ _ NativeSurface.SetPlaneTarget NativeSurface.extent
        (fun _ => rfl)).2

theorem mem_of_map_eq {α β : Type} {g : α → β} {l l' : List α} (h : l'.map g = l.map g)
    {a : α} (ha : a ∈ l) : ∃ b ∈ l', g b = g a := by
  have : g a ∈ l'.map g := by rw [h]; exact List.mem_map_of_mem g ha
  obtain ⟨b, hb, hgb⟩ := List.mem_map.1 this
  exact ⟨b, hb, hgb⟩

/-- Lines 314-325 of `PreparePlaneForCursor` when `SetOffScreenPlaneTarget` is called: the
plane state gets a surface of the general pool, in use afterwards, that was in that pool
before or is new and of the display's size. -/
theorem SetOffScreenPlaneTarget_pool (s1 : Store) (plane : DisplayPlaneState) :
    ∃ t, (SetOffScreenPlaneTarget s1 plane).2.surfaces = t :: plane.surfaces ∧
      (∃ fb ∈ ((SetOffScreenPlaneTarget s1 plane).1.updateSurfaces
            (SetOffScreenPlaneTarget s1 plane).2.surfaces
            (fun fb => fb.ResetDisplayFrame
              (SetOffScreenPlaneTarget s1 plane).2.displayFrame)).mgr.surfaces,
        fb.id = t ∧ fb.inUse = true ∧
        ((∃ fb0 ∈ s1.mgr.surfaces, fb0.extent = fb.extent) ∨
          (t = s1.mgr.nextSurfaceId ∧ fb.width = s1.mgr.width ∧ fb.height = s1.mgr.height ∧
            fb.cursor = false))) ∧
      ((SetOffScreenPlaneTarget s1 plane).1.updateSurfaces
            (SetOffScreenPlaneTarget s1 plane).2.surfaces
            (fun fb => fb.ResetDisplayFrame
              (SetOffScreenPlaneTarget s1 plane).2.displayFrame)).mgr.cursorSurfaces.map
          NativeSurface.extent = s1.mgr.cursorSurfaces.map NativeSurface.extent := by
  obtain ⟨t, ht, ⟨fb, hfb, hid, huse, hfrom⟩, hcur⟩ := EnsureOffScreenTarget_pool s1 plane
  obtain ⟨a1, _⟩ := Store.updateSurfaces_map (SetOffScreenPlaneTarget s1 plane).1
    (SetOffScreenPlaneTarget s1 plane).2.surfaces
    (fun fb => fb.ResetDisplayFrame (SetOffScreenPlaneTarget s1 plane).2.displayFrame)
    (fun fb => (fb.inUse, fb.extent)) (fun _ => rfl)
  obtain ⟨_, b2⟩ := Store.updateSurfaces_map (SetOffScreenPlaneTarget s1 plane).1
    (SetOffScreenPlaneTarget s1 plane).2.surfaces
    (fun fb => fb.ResetDisplayFrame (SetOffScreenPlaneTarget s1 plane).2.displayFrame)
    NativeSurface.extent (fun _ => rfl)
  have hsurf : (SetOffScreenPlaneTarget s1 plane).2.surfaces = t :: plane.surfaces := by
    unfold SetOffScreenPlaneTarget
    dsimp only
    rw [ht]
    rfl
  refine ⟨t, hsurf, ?_, b2.trans hcur⟩
  have hfb1 : fb ∈ (SetOffScreenPlaneTarget s1 plane).1.mgr.surfaces := hfb
  obtain ⟨fb', hfb', hg⟩ := mem_of_map_eq a1 hfb1
  have hu : fb'.inUse = fb.inUse := congrArg Prod.fst hg
  have he : fb'.extent = fb.extent := congrArg Prod.snd hg
  have hi : fb'.id = fb.id := congrArg Prod.fst he
  have hw : fb'.width = fb.width := congrArg (fun x => x.2.1) he
  have hh : fb'.height = fb.height := congrArg (fun x => x.2.2.1) he
  have hc : fb'.cursor = fb.cursor := congrArg (fun x => x.2.2.2.1) he
  refine ⟨fb', hfb', hi.trans hid, hu.trans huse, ?_⟩
  rcases hfrom with ⟨fb0, hfb0, _, hext⟩ | ⟨h1, h2, h3, h4⟩
  · exact Or.inl ⟨fb0, hfb0, hext.trans he.symm⟩
  · exact Or.inr ⟨h1, hw.trans h2, hh.trans h3, hc.trans h4⟩

/-- `PreparePlaneForCursor` on a plane state without off-screen target, or with
`reset_buffer` set, gives the plane state a target through `SetOffScreenPlaneTarget`: a
surface of the general pool, in use afterwards, that was in that pool before or is new and
of the display's size. The cursor pool keeps its surfaces. -/
theorem PreparePlaneForCursor_pool (s : Store) (plane : DisplayPlaneState) (reset_buffer : Bool)
    (hcase : plane.GetOffScreenTarget = none ∨ reset_buffer = true) :
    ∃ t, (PreparePlaneForCursor s plane reset_buffer).2.surfaces = t :: plane.surfaces ∧
      (∃ fb ∈ (PreparePlaneForCursor s plane reset_buffer).1.mgr.surfaces,
        fb.id = t ∧ fb.inUse = true ∧
        ((∃ fb0 ∈ s.mgr.surfaces, fb0.extent = fb.extent) ∨
          (t = s.mgr.nextSurfaceId ∧ fb.width = s.mgr.width ∧ fb.height = s.mgr.height ∧
            fb.cursor = false))) ∧
      (PreparePlaneForCursor s plane reset_buffer).1.mgr.cursorSurfaces.map
          NativeSurface.extent = s.mgr.cursorSurfaces.map NativeSurface.extent := by
  cases hT : plane.GetOffScreenTarget with
  | none =>
    have heq : PreparePlaneForCursor s plane reset_buffer =
        ((SetOffScreenPlaneTarget s plane).1.updateSurfaces
          (SetOffScreenPlaneTarget s plane).2.surfaces
          (fun fb => fb.ResetDisplayFrame (SetOffScreenPlaneTarget s plane).2.displayFrame),
         { (SetOffScreenPlaneTarget s plane).2 with compositionRegions := [] }) := by
      unfold PreparePlaneForCursor
      simp only [hT, Option.isNone_none, Bool.true_or, if_true]
    rw [heq]
    exact SetOffScreenPlaneTarget_pool s plane
  | some surface =>
    have hrb : reset_buffer = true := by
      rcases hcase with h | h
      · rw [hT] at h; cases h
      · exact h
    subst hrb
    have heq : PreparePlaneForCursor s plane true =
        ((SetOffScreenPlaneTarget (s.updateSurface surface (fun fb => fb.SetInUse false))
            plane).1.updateSurfaces
          (SetOffScreenPlaneTarget (s.updateSurface surface (fun fb => fb.SetInUse false))
            plane).2.surfaces
          (fun fb => fb.ResetDisplayFrame
            (SetOffScreenPlaneTarget (s.updateSurface surface (fun fb => fb.SetInUse false))
              plane).2.displayFrame),
         { (SetOffScreenPlaneTarget (s.updateSurface surface (fun fb => fb.SetInUse false))
              plane).2 with compositionRegions := [] }) := by
      unfold PreparePlaneForCursor
      simp only [hT, Bool.or_true, if_true]
    rw [heq]
    obtain ⟨e1, e2⟩ := s.updateSurface_map surface (fun fb => fb.SetInUse false)
      NativeSurface.extent (fun _ => rfl)
    obtain ⟨t, h1, ⟨fb, hfb, hid, huse, hfrom⟩, h3⟩ := SetOffScreenPlaneTarget_pool
      (s.updateSurface surface (fun fb => fb.SetInUse false)) plane
    refine ⟨t, h1, ⟨fb, hfb, hid, huse, ?_⟩, h3.trans e2⟩
    rcases hfrom with ⟨fb0, hfb0, hext⟩ | h
    · obtain ⟨fb00, hfb00, hg0⟩ := mem_of_map_eq e1.symm hfb0
      exact Or.inl ⟨fb00, hfb00, hg0.trans hext⟩
    · exact Or.inr h

/-- C21 (as amended): in the plane loop of `ValidateCursorLayer`, when the cursor layer cannot
be scanned out on its candidate plane (`FallbacktoGPU` returns true at line 365) and
`last_plane` has no off-screen target or is a video plane, the layer is folded into
`last_plane` and the loop goes on with the next plane and the next cursor layer. The plane
state receives, through `SetOffScreenPlaneTarget`, a new front target that is a surface of the
general pool, in use afterwards: one that was in the general pool before, or a new one of the
display's width and height that is no cursor surface. The cursor pool gets no new surface
and keeps the ones it had. -/
theorem C21_cursor_fold_takes_general_target (env : Env) (p : CursorPlan)
    (plane : DisplayPlane) (planes : List DisplayPlane) (k : Nat) (c : OverlayLayer)
    (cs : List OverlayLayer)
    (hfree : p.store.InUse plane = false)
    (hpass : passedOver env p.store.mgr.cursorPlane plane = false)
    (hreject : FallbacktoGPU env p.store plane (LayerRef.cursor k)
      (p.commit_planes ++ [{ plane := plane, layer := LayerRef.cursor k }]) = true)
    (hcase : p.last_plane.GetOffScreenTarget = none ∨ p.is_video = true) :
    ∃ p' t, foldCursorLayer env p (LayerRef.cursor k) c = some p' ∧
      cursorPlaneLoop env (plane :: planes) k (c :: cs) p =
        cursorPlaneLoop env planes (k + 1) cs p' ∧
      p'.last_plane.sourceLayers = p.last_plane.sourceLayers ++ [c.zorder] ∧
      p'.last_plane.surfaces = t :: p.last_plane.surfaces ∧
      (∃ fb ∈ p'.store.mgr.surfaces, fb.id = t ∧ fb.inUse = true ∧
        ((∃ fb0 ∈ p.store.mgr.surfaces, fb0.extent = fb.extent) ∨
          (t = p.store.mgr.nextSurfaceId ∧ fb.width = p.store.mgr.width ∧
            fb.height = p.store.mgr.height ∧ fb.cursor = false))) ∧
      p'.store.mgr.cursorSurfaces.map NativeSurface.extent =
        p.store.mgr.cursorSurfaces.map NativeSurface.extent := by
  have hcase1 : (p.last_plane.AddLayer c).GetOffScreenTarget = none ∨ p.is_video = true := hcase
  obtain ⟨t, hsurf, ⟨fb, hfb, hid, huse, hfrom⟩, hcur⟩ := PreparePlaneForCursor_pool
    (p.store.updateLayer (LayerRef.cursor k) OverlayLayer.GPURendered)
    (p.last_plane.AddLayer c) p.is_video hcase1
  obtain ⟨_, _, hsrc, _, _, hne⟩ := PreparePlaneForCursor_spec
    (p.store.updateLayer (LayerRef.cursor k) OverlayLayer.GPURendered)
    (p.last_plane.AddLayer c) p.is_video
  obtain ⟨r, hr⟩ := ValidateForDisplayScaling_total env
    (PreparePlaneForCursor (p.store.updateLayer (LayerRef.cursor k) OverlayLayer.GPURendered)
      (p.last_plane.AddLayer c) p.is_video).1
    (if ((p.last_plane.AddLayer c).GetOffScreenTarget.isNone || p.is_video) = true then
      (p.below ++ (PreparePlaneForCursor
        (p.store.updateLayer (LayerRef.cursor k) OverlayLayer.GPURendered)
        (p.last_plane.AddLayer c) p.is_video).2 :: p.above).map DisplayPlaneState.binding
     else p.commit_planes)
    (PreparePlaneForCursor (p.store.updateLayer (LayerRef.cursor k) OverlayLayer.GPURendered)
      (p.last_plane.AddLayer c) p.is_video).2 (LayerRef.cursor k) c false (Or.inl hne)
  obtain ⟨_, ⟨u, crop, hsame⟩, _⟩ := ValidateForDisplayScaling_spec hr
  obtain ⟨m1, _, _⟩ := ValidateForDisplayScaling_map hr (fun fb => (fb.inUse, fb.extent))
    (fun _ _ => rfl)
  obtain ⟨_, m2, _⟩ := ValidateForDisplayScaling_map hr NativeSurface.extent (fun _ _ => rfl)
  have hfold : foldCursorLayer env p (LayerRef.cursor k) c =
      some { p with store := r.1, last_plane := r.2.2, commit_planes := r.2.1,
                    status := true } := by
    unfold foldCursorLayer
    dsimp only
    rw [hr]
  refine ⟨_, t, hfold, ?_, ?_, ?_, ?_, ?_⟩
  · rw [cursorPlaneLoop_passedOver, hfree, hpass, hreject, hfold]
    rfl
  · show r.2.2.sourceLayers = _
    rw [show r.2.2 = _ from hsame]
    exact hsrc
  · show r.2.2.surfaces = _
    rw [show r.2.2 = _ from hsame]
    exact hsurf
  · show ∃ fb ∈ r.1.mgr.surfaces, _
    obtain ⟨fb', hfb', hg⟩ := mem_of_map_eq m1 hfb
    have hu : fb'.inUse = fb.inUse := congrArg Prod.fst hg
    have he : fb'.extent = fb.extent := congrArg Prod.snd hg
    have hi : fb'.id = fb.id := congrArg Prod.fst he
    have hw : fb'.width = fb.width := congrArg (fun x => x.2.1) he
    have hh : fb'.height = fb.height := congrArg (fun x => x.2.2.1) he
    have hc : fb'.cursor = fb.cursor := congrArg (fun x => x.2.2.2.1) he
    refine ⟨fb', hfb', hi.trans hid, hu.trans huse, ?_⟩
    rcases hfrom with ⟨fb0, hfb0, hext⟩ | ⟨h1, h2, h3, h4⟩
    · have hpool : (p.store.updateLayer (LayerRef.cursor k)
          OverlayLayer.GPURendered).mgr.surfaces = p.store.mgr.surfaces := rfl
      rw [hpool] at hfb0
      exact Or.inl ⟨fb0, hfb0, hext.trans he.symm⟩
    · exact Or.inr ⟨h1, hw.trans h2, hh.trans h3, hc.trans h4⟩
  · show r.1.mgr.cursorSurfaces.map NativeSurface.extent = _
    exact m2.trans hcur

/-- Witness for C21: two sample layers on the first two planes, and a cursor layer that the
third plane rejects. `last_plane` has no off-screen target. -/
theorem C21_witness :
    sampleCursorPlan.store.InUse (samplePlane 2) = false ∧
    passedOver rejectCursor sampleCursorPlan.store.mgr.cursorPlane (samplePlane 2) = false ∧
    FallbacktoGPU rejectCursor sampleCursorPlan.store (samplePlane 2) (LayerRef.cursor 0)
      (sampleCursorPlan.commit_planes ++
        [{ plane := samplePlane 2, layer := LayerRef.cursor 0 }]) = true ∧
    sampleCursorPlan.last_plane.GetOffScreenTarget = none ∧
    ∃ p' t, foldCursorLayer rejectCursor sampleCursorPlan (LayerRef.cursor 0) (cursorLayer 1) =
        some p' ∧
      cursorPlaneLoop rejectCursor [samplePlane 2] 0 [cursorLayer 1] sampleCursorPlan =
        cursorPlaneLoop rejectCursor [] (0 + 1) [] p' ∧
      p'.last_plane.sourceLayers = sampleCursorPlan.last_plane.sourceLayers ++
        [(cursorLayer 1).zorder] ∧
      p'.last_plane.surfaces = t :: sampleCursorPlan.last_plane.surfaces ∧
      (∃ fb ∈ p'.store.mgr.surfaces, fb.id = t ∧ fb.inUse = true ∧
        ((∃ fb0 ∈ sampleCursorPlan.store.mgr.surfaces, fb0.extent = fb.extent) ∨
          (t = sampleCursorPlan.store.mgr.nextSurfaceId ∧
            fb.width = sampleCursorPlan.store.mgr.width ∧
            fb.height = sampleCursorPlan.store.mgr.height ∧ fb.cursor = false))) ∧
      p'.store.mgr.cursorSurfaces.map NativeSurface.extent =
        sampleCursorPlan.store.mgr.cursorSurfaces.map NativeSurface.extent :=
  ⟨rfl, rfl, rfl, rfl,
    C21_cursor_fold_takes_general_target rejectCursor sampleCursorPlan (samplePlane 2) [] 0
      (cursorLayer 1) [] rfl rfl rfl (Or.inl rfl)⟩

/-- C21 (counterexample): two layers and one cursor layer on three planes, the cursor layer
rejected by every plane and everything else accepted. The cursor layer is folded into the plane
state of layer 1, which had no off-screen target. The target that plane state receives is
surface 0 of the general pool, of the display's size (100 by 100, the cursor layer being 10 by
10) and no cursor surface; the cursor pool is still empty. -/
theorem C21_cursor_fold_uses_display_sized_target :
    ∃ o, ValidateLayers rejectCursor sampleManager [sampleLayer 0, sampleLayer 1]
        [cursorLayer 1] false false [] false = some o ∧
      o.composition.map (fun ps => (ps.plane.id, ps.sourceLayers, ps.surfaces)) =
        [(0, [0], []), (1, [1, 1], [0])] ∧
      o.store.cursorLayers.map OverlayLayer.gpuRendered = [true] ∧
      o.store.mgr.surfaces.map (fun fb => (fb.id, fb.inUse, fb.cursor, fb.width, fb.height)) =
        [(0, true, false, 100, 100)] ∧
      (sampleManager.width, sampleManager.height) = (100, 100) ∧
      ((cursorLayer 1).displayFrameWidth, (cursorLayer 1).displayFrameHeight) = (10, 10) ∧
      o.store.mgr.cursorSurfaces = [] :=
  ⟨_, rfl, rfl, rfl, rfl, rfl, rfl, rfl⟩

end hwcomposer
